import Mathlib

/-!
Verification of the in-memory Unix-style file system in `src/codes/module.cpp`
(class `FileSystem`).

Modelling conventions (shallow embedding of the C++ source):

* The image is modelled as three separate typed regions, mirroring the fact
  that the C++ code accesses block 0 only through `SuperBlock*`, the inode
  table (blocks 1..8) only through `Inode*` / `memcpy` of `Inode` records,
  and the data area through raw bytes, `unsigned int*` and
  `DirectoryEntry*` casts:
  - `sb : SuperBlock` — the eight `unsigned int` fields of block 0;
  - `inodes : Nat → Inode` — the 64-byte inode records, one per index;
  - `blocks : Nat → Nat → Nat` — block number → byte offset → byte value.
  Data blocks are byte-accurate because the source reads the same bytes
  through different casts (free-list next pointer at offset 0 versus the
  first directory entry's name bytes versus indirect-slot 0, and so on);
  all those views are derived from the single byte map below.
* `unsigned int` values are natural numbers; every value stored through the
  4-byte little-endian writer is reduced mod 2^32, and the two places where
  32-bit wrap-around is reachable (`size + BLOCK_SIZE - 1` in `cmdTouch`,
  `dirInode.size -= sizeof(DirectoryEntry)`) use an explicit `% 2^32`.
* `std::string` values (paths, names) are NUL-free byte lists (`List Nat`).
  `strcmp` against the 28-byte `name` field of a stored `DirectoryEntry`
  compares the stored bytes up to the first NUL; entries written by
  `addDirectoryEntry` always contain a NUL within the 28 bytes (`strncpy`
  with length 27 plus a forced terminator), so the C string of a stored
  name is `takeWhile (· ≠ 0)` of its 28 bytes.
* `time(nullptr)` is modelled by a `clock` field carried in the state and
  used for the timestamp fields; no claim depends on time values.
* `std::cout` diagnostics are modelled as result codes: each command
  returns, next to the new state, a constructor naming the message the C++
  prints on that control path.
-/

set_option maxHeartbeats 4000000
set_option maxRecDepth 100000

namespace OSModule

/-! ### Fixed parameters (lines 12-21 of the source) -/

def BLOCK_SIZE : Nat := 1024
def TOTAL_BLOCKS : Nat := 1024
def MAX_INODES : Nat := 128
def INODE_SIZE : Nat := 64
def INODE_BLOCKS : Nat := (MAX_INODES * INODE_SIZE + BLOCK_SIZE - 1) / BLOCK_SIZE
def FIRST_DATA_BLOCK : Nat := 1 + INODE_BLOCKS
def DIRECT_BLOCKS : Nat := 10
def MAX_FILENAME_LENGTH : Nat := 28

/-- 2^32, the modulus of `unsigned int`. -/
def U32MOD : Nat := 4294967296

/-! ### Byte-level helpers for the data-block region -/

/-- Point update of one byte inside a block (offset → byte). -/
def setOff (f : Nat → Nat) (o v : Nat) : Nat → Nat :=
  fun x => if x = o then v else f x

/-- Point update of one block inside the block map. -/
def setBlk (blocks : Nat → Nat → Nat) (b : Nat) (f : Nat → Nat) :
    Nat → Nat → Nat :=
  fun k => if k = b then f else blocks k

/-- Read a little-endian `unsigned int` from four bytes of a block,
mirroring `*reinterpret_cast<unsigned int*>(...)` on x86. -/
def readU32 (f : Nat → Nat) (o : Nat) : Nat :=
  f o + 256 * f (o + 1) + 65536 * f (o + 2) + 16777216 * f (o + 3)

/-- Write a little-endian `unsigned int` into four bytes of a block. -/
def writeU32 (f : Nat → Nat) (o v : Nat) : Nat → Nat :=
  setOff (setOff (setOff (setOff f o (v % 256)) (o + 1) (v / 256 % 256))
    (o + 2) (v / 65536 % 256)) (o + 3) (v / 16777216 % 256)

/-- Write a list of bytes at consecutive offsets. -/
def writeBytes (f : Nat → Nat) (o : Nat) : List Nat → Nat → Nat
  | [] => f
  | v :: rest => writeBytes (setOff f o v) (o + 1) rest

/-- The all-zero block produced by `memset(..., 0, BLOCK_SIZE)`. -/
def zeroBlock : Nat → Nat := fun _ => 0

/-! ### Records -/

/-- The `SuperBlock` struct (lines 24-33): eight `unsigned int` fields. -/
structure SuperBlock where
  magic : Nat
  blockSize : Nat
  totalBlocks : Nat
  freeBlocks : Nat
  maxInodes : Nat
  freeInodes : Nat
  firstFreeBlock : Nat
  firstFreeInode : Nat
  deriving DecidableEq

/-- The `Inode` struct (lines 36-43).  `blockAddresses` is total on `Nat`;
only indices `0..9` are ever used, matching the 10-entry array. -/
structure Inode where
  type : Nat
  size : Nat
  creationTime : Nat
  modificationTime : Nat
  blockAddresses : Nat → Nat
  indirectBlock : Nat

/-- The zero `Inode` record returned by `readInode` for an out-of-range
index (lines 269-273). -/
def zeroInode : Inode :=
  ⟨0, 0, 0, 0, fun _ => 0, 0⟩

/-- Point update of one inode record in the inode table. -/
def setInode (inodes : Nat → Inode) (i : Nat) (v : Inode) : Nat → Inode :=
  fun k => if k = i then v else inodes k

/-- Point update of one slot of an inode's direct-address array. -/
def setAddr (f : Nat → Nat) (i v : Nat) : Nat → Nat :=
  fun k => if k = i then v else f k

/-- Whole state of the `FileSystem` object: the 1 MiB image (split into the
three typed regions described in the header comment) plus the two
current-directory members and the modelled clock. -/
structure FS where
  sb : SuperBlock
  inodes : Nat → Inode
  blocks : Nat → Nat → Nat
  currentInodeNumber : Nat
  currentPath : List Nat
  clock : Nat

/-! ### Block allocator (lines 188-227) -/

/-- `FileSystem::allocateBlock` (lines 188-213).  Returns the allocated
block number, or 0 for failure, together with the new state.  Note the
source validates the head only against `TOTAL_BLOCKS` (line 200); there is
no lower-bound check against `FIRST_DATA_BLOCK`. -/
def allocateBlock (fs : FS) : Nat × FS :=
  if fs.sb.freeBlocks = 0 ∨ fs.sb.firstFreeBlock = 0 then
    (0, fs)
  else
    let blockNum := fs.sb.firstFreeBlock
    if TOTAL_BLOCKS ≤ blockNum then
      (0, fs)
    else
      let nextFree := readU32 (fs.blocks blockNum) 0
      (blockNum,
        { fs with
          sb := { fs.sb with
                  firstFreeBlock := nextFree
                  freeBlocks := fs.sb.freeBlocks - 1 }
          blocks := setBlk fs.blocks blockNum zeroBlock })

/-- `FileSystem::deallocateBlock` (lines 215-227): silently ignores block
numbers outside `[FIRST_DATA_BLOCK, TOTAL_BLOCKS)`, otherwise pushes the
block onto the free list (its first four bytes receive the old head). -/
def deallocateBlock (fs : FS) (blockNum : Nat) : FS :=
  if blockNum < FIRST_DATA_BLOCK ∨ TOTAL_BLOCKS ≤ blockNum then
    fs
  else
    { fs with
      blocks := setBlk fs.blocks blockNum
        (writeU32 (fs.blocks blockNum) 0 fs.sb.firstFreeBlock)
      sb := { fs.sb with
              firstFreeBlock := blockNum
              freeBlocks := fs.sb.freeBlocks + 1 } }

/-! ### Inode allocator (lines 229-264) -/

/-- `FileSystem::allocateInode` (lines 229-250).  `MAX_INODES` is the
failure sentinel.  The source performs no range check on the popped index;
the pop reads the overloaded `indirectBlock` field as the next-free link
and re-initialises the record in place. -/
def allocateInode (fs : FS) : Nat × FS :=
  if fs.sb.freeInodes = 0 ∨ fs.sb.firstFreeInode = 0 then
    (MAX_INODES, fs)
  else
    let inodeNum := fs.sb.firstFreeInode
    let ino := fs.inodes inodeNum
    (inodeNum,
      { fs with
        sb := { fs.sb with
                firstFreeInode := ino.indirectBlock
                freeInodes := fs.sb.freeInodes - 1 }
        inodes := setInode fs.inodes inodeNum
          { type := 0, size := 0, creationTime := fs.clock,
            modificationTime := fs.clock,
            blockAddresses := fun _ => 0, indirectBlock := 0 } })

/-- `FileSystem::deallocateInode` (lines 252-264): ignores indices `≥
MAX_INODES`, otherwise stores the old head in the record's
`indirectBlock` field and makes the record the new head. -/
def deallocateInode (fs : FS) (inodeNum : Nat) : FS :=
  if MAX_INODES ≤ inodeNum then
    fs
  else
    let ino := fs.inodes inodeNum
    { fs with
      inodes := setInode fs.inodes inodeNum
        { ino with indirectBlock := fs.sb.firstFreeInode }
      sb := { fs.sb with
              firstFreeInode := inodeNum
              freeInodes := fs.sb.freeInodes + 1 } }

/-! ### Inode I/O (lines 266-288) -/

/-- `FileSystem::readInode`: all-zero record for an out-of-range index. -/
def readInode (fs : FS) (inodeNum : Nat) : Inode :=
  if MAX_INODES ≤ inodeNum then zeroInode else fs.inodes inodeNum

/-- `FileSystem::writeInode`: no-op for an out-of-range index. -/
def writeInode (fs : FS) (inodeNum : Nat) (ino : Inode) : FS :=
  if MAX_INODES ≤ inodeNum then fs
  else { fs with inodes := setInode fs.inodes inodeNum ino }

/-! ### Directory entries

A `DirectoryEntry` (lines 46-49) is 32 bytes: 28 name bytes then a 4-byte
inode number; `BLOCK_SIZE / sizeof(DirectoryEntry) = 32` entries per
block. -/

/-- The inode-number field of entry `j` of a block. -/
def entryIno (blk : Nat → Nat) (j : Nat) : Nat :=
  readU32 blk (32 * j + 28)

/-- The raw 28 name bytes of entry `j` of a block. -/
def entryNameBytes (blk : Nat → Nat) (j : Nat) : List Nat :=
  (List.range 28).map fun t => blk (32 * j + t)

/-- The C string held in a NUL-terminated byte buffer: the bytes up to the
first NUL. -/
def cName (bs : List Nat) : List Nat :=
  bs.takeWhile (· ≠ 0)

/-- The 28 bytes that `strncpy(dst, name, 27); dst[27] = 0;` stores for a
(NUL-free) name: at most 27 name bytes, NUL-padded to 28. -/
def strncpyBytes (name : List Nat) : List Nat :=
  name.take 27 ++ List.replicate (28 - min name.length 27) 0

/-- Store entry `j` of a block: 28 name bytes then the inode number. -/
def writeEntry (blk : Nat → Nat) (j : Nat) (name : List Nat) (ino : Nat) :
    Nat → Nat :=
  writeU32 (writeBytes blk (32 * j) (strncpyBytes name)) (32 * j + 28) ino

/-- The visible entries of one block, in slot order: every slot whose
inode number is nonzero (lines 307-313), as (C-string name, inode
number). -/
def blockEntries (blk : Nat → Nat) : List (List Nat × Nat) :=
  (List.range 32).filterMap fun j =>
    if entryIno blk j ≠ 0 then
      some (cName (entryNameBytes blk j), entryIno blk j)
    else none

/-- `FileSystem::readDirectoryEntries` (lines 290-339): all visible
entries of the directory, direct blocks in index order (skipping zero
addresses), then the nonzero slots of the indirect block in index order. -/
def readDirectoryEntries (fs : FS) (inodeNum : Nat) : List (List Nat × Nat) :=
  let ino := readInode fs inodeNum
  if ino.type ≠ 1 then []
  else
    ((List.range DIRECT_BLOCKS).filter
        (fun i => ino.blockAddresses i ≠ 0)).flatMap
      (fun i => blockEntries (fs.blocks (ino.blockAddresses i))) ++
    (if ino.indirectBlock ≠ 0 then
      ((List.range 256).filter
          (fun i => readU32 (fs.blocks ino.indirectBlock) (4 * i) ≠ 0)).flatMap
        (fun i => blockEntries
          (fs.blocks (readU32 (fs.blocks ino.indirectBlock) (4 * i))))
    else [])

/-- `FileSystem::findDirectoryEntry` (lines 507-517): the inode number of
the first visible entry whose C-string name equals `name`, as an
`Option` (`none` models the `-1` sentinel). -/
def findDirectoryEntry (fs : FS) (dirInodeNum : Nat) (name : List Nat) :
    Option Nat :=
  ((readDirectoryEntries fs dirInodeNum).find? fun e => e.1 = name).map
    fun e => e.2

/-- First slot `j < 32` of a block whose inode number is zero — the inner
free-slot scan of `addDirectoryEntry` (lines 374-388 and 421-435). -/
def findFreeSlot (blk : Nat → Nat) : Option Nat :=
  (List.range 32).find? fun j => entryIno blk j = 0

/-- First slot `j < 32` of a block holding a visible entry named `name` —
the inner scan of `removeDirectoryEntry` (lines 457-471). -/
def findNamedSlot (blk : Nat → Nat) (name : List Nat) : Option Nat :=
  (List.range 32).find? fun j =>
    entryIno blk j ≠ 0 ∧ cName (entryNameBytes blk j) = name

/-- Commit step of `addDirectoryEntry` (lines 377-387 / 424-434): write
the new entry into slot `j` of block `blockNum`, grow the directory size
by `sizeof(DirectoryEntry)` (32-bit arithmetic), touch the modification
time and persist the directory inode. -/
def commitEntry (fs : FS) (dirInodeNum : Nat) (dirInode : Inode)
    (blockNum j : Nat) (name : List Nat) (ino : Nat) : FS :=
  let fs1 := { fs with
    blocks := setBlk fs.blocks blockNum
      (writeEntry (fs.blocks blockNum) j name ino) }
  writeInode fs1 dirInodeNum
    { dirInode with
      size := (dirInode.size + 32) % U32MOD
      modificationTime := fs.clock }

/-- Outcome of the direct-slot phase of `addDirectoryEntry`: `committed`
models `return true`, `failed` models `return false` from a failed block
allocation, `exhausted` is falling through to the indirect phase with the
(possibly updated) state and local `dirInode` copy. -/
inductive DirectPhase where
  | committed : FS → DirectPhase
  | failed : FS → DirectPhase
  | exhausted : FS → Inode → DirectPhase

/-- The direct-slot loop of `addDirectoryEntry` (lines 358-389), iterated
over the remaining direct indices.  When slot `i` holds no block, a block
is allocated, installed and the inode persisted (lines 359-369); then the
block is scanned for a free slot. -/
def addEntryDirectLoop (fs : FS) (dirInodeNum : Nat) (dirInode : Inode)
    (name : List Nat) (ino : Nat) : List Nat → DirectPhase
  | [] => .exhausted fs dirInode
  | i :: rest =>
    if dirInode.blockAddresses i = 0 then
      let r := allocateBlock fs
      if r.1 = 0 then .failed r.2
      else
        let dirInode' :=
          { dirInode with
            blockAddresses := setAddr dirInode.blockAddresses i r.1 }
        let fs'' := writeInode r.2 dirInodeNum dirInode'
        match findFreeSlot (fs''.blocks (dirInode'.blockAddresses i)) with
        | some j =>
          .committed (commitEntry fs'' dirInodeNum dirInode'
            (dirInode'.blockAddresses i) j name ino)
        | none => addEntryDirectLoop fs'' dirInodeNum dirInode' name ino rest
    else
      match findFreeSlot (fs.blocks (dirInode.blockAddresses i)) with
      | some j =>
        .committed (commitEntry fs dirInodeNum dirInode
          (dirInode.blockAddresses i) j name ino)
      | none => addEntryDirectLoop fs dirInodeNum dirInode name ino rest

/-- Outcome of the indirect-slot phase: `return true` / `return false`. -/
inductive IndirectPhase where
  | committed : FS → IndirectPhase
  | failed : FS → IndirectPhase

/-- The indirect-slot loop of `addDirectoryEntry` (lines 406-436): for
each of the 256 slots of the indirect block, allocate a child block if the
slot is zero (line 409; the slot is updated in place in block memory, line
415), then scan the child for a free slot. -/
def addEntryIndirectLoop (fs : FS) (dirInodeNum : Nat) (dirInode : Inode)
    (name : List Nat) (ino : Nat) : List Nat → IndirectPhase
  | [] => .failed fs
  | i :: rest =>
    if readU32 (fs.blocks dirInode.indirectBlock) (4 * i) = 0 then
      let r := allocateBlock fs
      if r.1 = 0 then .failed r.2
      else
        let fs'' := { r.2 with
          blocks := setBlk r.2.blocks dirInode.indirectBlock
            (writeU32 (r.2.blocks dirInode.indirectBlock) (4 * i) r.1) }
        let child := readU32 (fs''.blocks dirInode.indirectBlock) (4 * i)
        match findFreeSlot (fs''.blocks child) with
        | some j =>
          .committed (commitEntry fs'' dirInodeNum dirInode child j name ino)
        | none => addEntryIndirectLoop fs'' dirInodeNum dirInode name ino rest
    else
      let child := readU32 (fs.blocks dirInode.indirectBlock) (4 * i)
      match findFreeSlot (fs.blocks child) with
      | some j =>
        .committed (commitEntry fs dirInodeNum dirInode child j name ino)
      | none => addEntryIndirectLoop fs dirInodeNum dirInode name ino rest

/-- `FileSystem::addDirectoryEntry` (lines 341-440).  Returns the new
state and the `bool` result.  After the direct phase falls through, an
indirect block is allocated and installed if the directory has none
(lines 392-402); note that on a later child-allocation failure this
freshly installed indirect block is not released. -/
def addDirectoryEntry (fs : FS) (dirInodeNum : Nat) (name : List Nat)
    (inodeNum : Nat) : FS × Bool :=
  if MAX_FILENAME_LENGTH ≤ name.length then (fs, false)
  else
    let dirInode := readInode fs dirInodeNum
    if dirInode.type ≠ 1 then (fs, false)
    else
      match addEntryDirectLoop fs dirInodeNum dirInode name inodeNum
          (List.range DIRECT_BLOCKS) with
      | .committed fs' => (fs', true)
      | .failed fs' => (fs', false)
      | .exhausted fs1 dirInode1 =>
        if dirInode1.indirectBlock = 0 then
          let r := allocateBlock fs1
          if r.1 = 0 then (r.2, false)
          else
            let dirInode2 := { dirInode1 with indirectBlock := r.1 }
            let fs2 := writeInode r.2 dirInodeNum dirInode2
            match addEntryIndirectLoop fs2 dirInodeNum dirInode2 name
                inodeNum (List.range 256) with
            | .committed fs3 => (fs3, true)
            | .failed fs3 => (fs3, false)
        else
          match addEntryIndirectLoop fs1 dirInodeNum dirInode1 name
              inodeNum (List.range 256) with
          | .committed fs3 => (fs3, true)
          | .failed fs3 => (fs3, false)

/-- Tombstone step of `removeDirectoryEntry` (lines 460-469 / 489-498):
zero the entry's inode number, shrink the directory size by 32 bytes
(32-bit wrap-around subtraction), touch the modification time, persist. -/
def tombstoneEntry (fs : FS) (dirInodeNum : Nat) (dirInode : Inode)
    (blockNum j : Nat) : FS :=
  let fs1 := { fs with
    blocks := setBlk fs.blocks blockNum
      (writeU32 (fs.blocks blockNum) (32 * j + 28) 0) }
  writeInode fs1 dirInodeNum
    { dirInode with
      size := (dirInode.size + (U32MOD - 32)) % U32MOD
      modificationTime := fs.clock }

/-- The direct-block search loop of `removeDirectoryEntry` (449-472). -/
def removeEntryDirectLoop (fs : FS) (dirInodeNum : Nat) (dirInode : Inode)
    (name : List Nat) : List Nat → Option FS
  | [] => none
  | i :: rest =>
    if dirInode.blockAddresses i = 0 then
      removeEntryDirectLoop fs dirInodeNum dirInode name rest
    else
      match findNamedSlot (fs.blocks (dirInode.blockAddresses i)) name with
      | some j =>
        some (tombstoneEntry fs dirInodeNum dirInode
          (dirInode.blockAddresses i) j)
      | none => removeEntryDirectLoop fs dirInodeNum dirInode name rest

/-- The indirect-block search loop of `removeDirectoryEntry` (478-501). -/
def removeEntryIndirectLoop (fs : FS) (dirInodeNum : Nat) (dirInode : Inode)
    (name : List Nat) : List Nat → Option FS
  | [] => none
  | i :: rest =>
    if readU32 (fs.blocks dirInode.indirectBlock) (4 * i) = 0 then
      removeEntryIndirectLoop fs dirInodeNum dirInode name rest
    else
      let child := readU32 (fs.blocks dirInode.indirectBlock) (4 * i)
      match findNamedSlot (fs.blocks child) name with
      | some j => some (tombstoneEntry fs dirInodeNum dirInode child j)
      | none => removeEntryIndirectLoop fs dirInodeNum dirInode name rest

/-- `FileSystem::removeDirectoryEntry` (lines 442-505). -/
def removeDirectoryEntry (fs : FS) (dirInodeNum : Nat) (name : List Nat) :
    FS × Bool :=
  let dirInode := readInode fs dirInodeNum
  if dirInode.type ≠ 1 then (fs, false)
  else
    match removeEntryDirectLoop fs dirInodeNum dirInode name
        (List.range DIRECT_BLOCKS) with
    | some fs' => (fs', true)
    | none =>
      if dirInode.indirectBlock ≠ 0 then
        match removeEntryIndirectLoop fs dirInodeNum dirInode name
            (List.range 256) with
        | some fs' => (fs', true)
        | none => (fs, false)
      else (fs, false)

/-- `FileSystem::initializeDirectory` (lines 519-525): add `.` (self) and
`..` (parent); the boolean results are discarded, as in the source. -/
def initDirectory (fs : FS) (dirInodeNum parentInodeNum : Nat) : FS :=
  let fs1 := (addDirectoryEntry fs dirInodeNum [46] dirInodeNum).1
  (addDirectoryEntry fs1 dirInodeNum [46, 46] parentInodeNum).1

/-! ### Path resolver (lines 527-621) -/

/-- Split a byte list at `/` (byte 47), keeping empty pieces. -/
def splitSlash : List Nat → List (List Nat)
  | [] => [[]]
  | c :: rest =>
    if c = 47 then [] :: splitSlash rest
    else
      match splitSlash rest with
      | [] => [[c]]
      | p :: ps => (c :: p) :: ps

/-- `FileSystem::parsePath` (lines 527-544): split on `/` and drop empty
components.  (Skipping one leading slash before the `getline` loop, as
the source does, yields the same component list.) -/
def parsePath (path : List Nat) : List (List Nat) :=
  (splitSlash path).filter (· ≠ [])

/-- The component walk of `getInodeFromPath` (lines 563-595): `.` is
skipped, `..` at the root is skipped, `..` elsewhere follows the
directory's own `..` entry, anything else goes through
`findDirectoryEntry`. -/
def resolveComponents (fs : FS) : Nat → List (List Nat) → Option Nat
  | cur, [] => some cur
  | cur, c :: rest =>
    if c = [46] then resolveComponents fs cur rest
    else if c = [46, 46] then
      if cur = 0 then resolveComponents fs 0 rest
      else
        match (readDirectoryEntries fs cur).find? (fun e => e.1 = [46, 46]) with
        | some e => resolveComponents fs e.2 rest
        | none => none
    else
      match findDirectoryEntry fs cur c with
      | some i => resolveComponents fs i rest
      | none => none

/-- `FileSystem::getInodeFromPath` (lines 546-598); `none` models `-1`. -/
def getInodeFromPath (fs : FS) (path : List Nat) : Option Nat :=
  if path = [] then some fs.currentInodeNumber
  else
    let start := if path.head? = some 47 then 0 else fs.currentInodeNumber
    resolveComponents fs start (parsePath path)

/-- Index of the last `/` in a path (`find_last_of`), if any. -/
def lastSlashIdx (path : List Nat) : Option Nat :=
  (List.range path.length).reverse.find? fun i => path.get? i = some 47

/-- `FileSystem::getParentInodeAndFilename` (lines 600-621).  Note there
is no error case for an empty basename: a path ending in `/` simply
yields `basename = ""`. -/
def getParentInodeAndFilename (fs : FS) (path : List Nat) :
    Option Nat × List Nat :=
  match lastSlashIdx path with
  | none => (getInodeFromPath fs [46], path)
  | some 0 => (getInodeFromPath fs [47], path.drop 1)
  | some k => (getInodeFromPath fs (path.take k), path.drop (k + 1))

/-! ### Commands -/

/-- The control paths of `cmdTouch` (lines 726-868), named after the
messages printed on each. -/
inductive TouchResult where
  | invalidPath
  | alreadyExists
  | tooLarge
  | notEnoughBlocks
  | noInodes
  | directAllocFailed
  | indirectAllocFailed
  | indirectDataAllocFailed
  | addEntryFailed
  | created
  deriving DecidableEq

/-- The direct-block allocation loop of `cmdTouch` (lines 777-786); the
Bool is the `allocationFailed` flag. -/
def touchAllocDirectLoop (fs : FS) (ino : Inode) :
    List Nat → FS × Inode × Bool
  | [] => (fs, ino, false)
  | i :: rest =>
    let r := allocateBlock fs
    if r.1 = 0 then (r.2, ino, true)
    else
      touchAllocDirectLoop r.2
        { ino with blockAddresses := setAddr ino.blockAddresses i r.1 }
        rest

/-- Rollback loop of lines 790-794: deallocate every nonzero recorded
direct block. -/
def deallocRecordedLoop (fs : FS) (addr : Nat → Nat) : List Nat → FS
  | [] => fs
  | i :: rest =>
    if addr i ≠ 0 then
      deallocRecordedLoop (deallocateBlock fs (addr i)) addr rest
    else deallocRecordedLoop fs addr rest

/-- Unconditional deallocation loop (lines 806-808, 828-830, 846-848):
`deallocateBlock(inode.blockAddresses[i])` for each listed index. -/
def deallocAddrLoop (fs : FS) (addr : Nat → Nat) : List Nat → FS
  | [] => fs
  | i :: rest => deallocAddrLoop (deallocateBlock fs (addr i)) addr rest

/-- Deallocate the children recorded in an indirect block, reading each
slot from the current state (the source reads `indirectBlockData[i]`
through a live pointer), without a zero check (lines 824-826). -/
def deallocChildrenUnchecked (fs : FS) (indirectBlock : Nat) :
    List Nat → FS
  | [] => fs
  | i :: rest =>
    deallocChildrenUnchecked
      (deallocateBlock fs (readU32 (fs.blocks indirectBlock) (4 * i)))
      indirectBlock rest

/-- As above but skipping zero slots (lines 854-858, 910-914, 1032-1036). -/
def deallocChildrenChecked (fs : FS) (indirectBlock : Nat) :
    List Nat → FS
  | [] => fs
  | i :: rest =>
    if readU32 (fs.blocks indirectBlock) (4 * i) ≠ 0 then
      deallocChildrenChecked
        (deallocateBlock fs (readU32 (fs.blocks indirectBlock) (4 * i)))
        indirectBlock rest
    else deallocChildrenChecked fs indirectBlock rest

/-- The indirect-child allocation loop of `cmdTouch` (lines 820-837).
Each allocated child is recorded in the indirect block in memory
(line 836).  On failure the source deallocates, in order, the children
recorded so far, the indirect block, all direct blocks, and the inode
(lines 824-831); that rollback is performed here and `none` returned. -/
def touchAllocIndirectLoop (fs : FS) (indirectBlock : Nat)
    (directBlocks : Nat) (ino : Inode) (newInode : Nat) :
    List Nat → FS × Bool
  | [] => (fs, true)
  | i :: rest =>
    let r := allocateBlock fs
    if r.1 = 0 then
      let fsA := deallocChildrenUnchecked r.2 indirectBlock (List.range i)
      let fsB := deallocateBlock fsA indirectBlock
      let fsC := deallocAddrLoop fsB ino.blockAddresses
        (List.range directBlocks)
      (deallocateInode fsC newInode, false)
    else
      touchAllocIndirectLoop
        { r.2 with
          blocks := setBlk r.2.blocks indirectBlock
            (writeU32 (r.2.blocks indirectBlock) (4 * i) r.1) }
        indirectBlock directBlocks ino newInode rest

/-- Tail of `cmdTouch` (lines 840-867): persist the file inode, add the
parent directory entry, and on failure deallocate the direct blocks, the
children currently recorded in the indirect block, the indirect block and
the inode. -/
def touchFinish (fs : FS) (parentInode : Nat) (name : List Nat)
    (newInode : Nat) (ino : Inode) (blocksNeeded directBlocks : Nat) :
    FS × TouchResult :=
  let fs1 := writeInode fs newInode ino
  let r := addDirectoryEntry fs1 parentInode name newInode
  if r.2 then (r.1, .created)
  else
    let fs2 := r.1
    let fsA := deallocAddrLoop fs2 ino.blockAddresses (List.range directBlocks)
    let fsB :=
      if ino.indirectBlock ≠ 0 then
        let fsChildren := deallocChildrenChecked fsA ino.indirectBlock
          (List.range (blocksNeeded - DIRECT_BLOCKS))
        deallocateBlock fsChildren ino.indirectBlock
      else fsA
    (deallocateInode fsB newInode, .addEntryFailed)

/-- `FileSystem::cmdTouch` (lines 726-868). -/
def cmdTouch (fs : FS) (filename : List Nat) (size0 : Nat) : FS × TouchResult :=
  let size := size0 % U32MOD
  match getParentInodeAndFilename fs filename with
  | (none, _) => (fs, .invalidPath)
  | (some parentInode, name) =>
    if (findDirectoryEntry fs parentInode name).isSome then
      (fs, .alreadyExists)
    else
      let blocksNeeded := (size + BLOCK_SIZE - 1) % U32MOD / BLOCK_SIZE
      let maxBlocks := DIRECT_BLOCKS + BLOCK_SIZE / 4
      if maxBlocks < blocksNeeded then (fs, .tooLarge)
      else
        let indirectBlockNeeded := if DIRECT_BLOCKS < blocksNeeded then 1 else 0
        if fs.sb.freeBlocks < blocksNeeded + indirectBlockNeeded then
          (fs, .notEnoughBlocks)
        else
          let ri := allocateInode fs
          let newInode := ri.1
          let fs1 := ri.2
          if newInode = MAX_INODES then (fs1, .noInodes)
          else
            let ino0 := { readInode fs1 newInode with type := 0, size := size }
            let directBlocks := min blocksNeeded DIRECT_BLOCKS
            let rd := touchAllocDirectLoop fs1 ino0 (List.range directBlocks)
            let fs2 := rd.1
            let ino1 := rd.2.1
            if rd.2.2 then
              let fs3 := deallocRecordedLoop fs2 ino1.blockAddresses
                (List.range directBlocks)
              (deallocateInode fs3 newInode, .directAllocFailed)
            else
              if DIRECT_BLOCKS < blocksNeeded then
                let rb := allocateBlock fs2
                if rb.1 = 0 then
                  let fsA := deallocAddrLoop rb.2 ino1.blockAddresses
                    (List.range directBlocks)
                  (deallocateInode fsA newInode, .indirectAllocFailed)
                else
                  let ino2 := { ino1 with indirectBlock := rb.1 }
                  let rc := touchAllocIndirectLoop rb.2 rb.1
                    directBlocks ino2 newInode
                    (List.range (blocksNeeded - DIRECT_BLOCKS))
                  if rc.2 then
                    touchFinish rc.1 parentInode name newInode ino2
                      blocksNeeded directBlocks
                  else (rc.1, .indirectDataAllocFailed)
              else
                touchFinish fs2 parentInode name newInode ino1
                  blocksNeeded directBlocks

/-- Control paths of `cmdMkdir` (lines 925-983). -/
inductive MkdirResult where
  | invalidPath
  | alreadyExists
  | notEnoughBlocks
  | noInodes
  | blockAllocFailed
  | addEntryFailed
  | created
  deriving DecidableEq

/-- `FileSystem::cmdMkdir` (lines 925-983). -/
def cmdMkdir (fs : FS) (dirname : List Nat) : FS × MkdirResult :=
  match getParentInodeAndFilename fs dirname with
  | (none, _) => (fs, .invalidPath)
  | (some parentInode, name) =>
    if (findDirectoryEntry fs parentInode name).isSome then
      (fs, .alreadyExists)
    else if fs.sb.freeBlocks < 1 then (fs, .notEnoughBlocks)
    else
      let ri := allocateInode fs
      let newInode := ri.1
      let fs1 := ri.2
      if newInode = MAX_INODES then (fs1, .noInodes)
      else
        let ino0 := { readInode fs1 newInode with type := 1, size := 0 }
        let rb := allocateBlock fs1
        if rb.1 = 0 then (deallocateInode rb.2 newInode, .blockAllocFailed)
        else
          let newBlock := rb.1
          let fs2 := rb.2
          let ino1 := { ino0 with
            blockAddresses := setAddr ino0.blockAddresses 0 newBlock }
          let fs3 := writeInode fs2 newInode ino1
          let fs4 := initDirectory fs3 newInode parentInode
          let ra := addDirectoryEntry fs4 parentInode name newInode
          if ra.2 then (ra.1, .created)
          else
            let fsA := deallocateBlock ra.1 newBlock
            (deallocateInode fsA newInode, .addEntryFailed)

/-- Control paths of `cmdRmdir` (lines 985-1045). -/
inductive RmdirResult where
  | invalidPath
  | notFound
  | notADirectory
  | notEmpty
  | removeEntryFailed
  | removed
  deriving DecidableEq

/-- `FileSystem::cmdRmdir` (lines 985-1045).  The directory's inode record
is read (line 1002) before the parent entry is removed; the frees then use
that snapshot's block addresses, skipping zeros, followed by the nonzero
indirect children read live, the indirect block, and the inode. -/
def cmdRmdir (fs : FS) (dirname : List Nat) : FS × RmdirResult :=
  match getParentInodeAndFilename fs dirname with
  | (none, _) => (fs, .invalidPath)
  | (some parentInode, name) =>
    match findDirectoryEntry fs parentInode name with
    | none => (fs, .notFound)
    | some dirInode =>
      let ino := readInode fs dirInode
      if ino.type ≠ 1 then (fs, .notADirectory)
      else if 2 < (readDirectoryEntries fs dirInode).length then
        (fs, .notEmpty)
      else
        let rr := removeDirectoryEntry fs parentInode name
        if ¬rr.2 then (rr.1, .removeEntryFailed)
        else
          let fs1 := rr.1
          let fs2 := deallocRecordedLoop fs1 ino.blockAddresses
            (List.range DIRECT_BLOCKS)
          let fs3 :=
            if ino.indirectBlock ≠ 0 then
              deallocateBlock
                (deallocChildrenChecked fs2 ino.indirectBlock (List.range 256))
                ino.indirectBlock
            else fs2
          (deallocateInode fs3 dirInode, .removed)

/-- Control paths of `cmdCd` (lines 1047-1108). -/
inductive CdResult where
  | ok
  | invalidPath
  | notADirectory
  deriving DecidableEq

/-- The `.`/`..` normalisation fold of `cmdCd` (lines 1085-1095). -/
def normalizeComponents (comps : List (List Nat)) : List (List Nat) :=
  comps.foldl
    (fun acc c =>
      if c = [46] then acc
      else if c = [46, 46] then acc.dropLast
      else acc ++ [c])
    []

/-- `FileSystem::cmdCd` (lines 1047-1108).  An empty path returns at once
with no message and no state change (lines 1048-1050). -/
def cmdCd (fs : FS) (path : List Nat) : FS × CdResult :=
  if path = [] then (fs, .ok)
  else
    match getInodeFromPath fs path with
    | none => (fs, .invalidPath)
    | some inodeNum =>
      if (readInode fs inodeNum).type ≠ 1 then (fs, .notADirectory)
      else
        let raw :=
          if path.head? = some 47 then path
          else if fs.currentPath = [47] then fs.currentPath ++ path
          else fs.currentPath ++ 47 :: path
        let normed := normalizeComponents (parsePath raw)
        let rebuilt :=
          normed.foldl (fun acc c => if c ≠ [] then acc ++ c ++ [47] else acc)
            [47]
        let finalPath :=
          if 1 < rebuilt.length ∧ rebuilt.getLast? = some 47 then
            rebuilt.dropLast
          else rebuilt
        ({ fs with currentInodeNumber := inodeNum, currentPath := finalPath },
          .ok)

/-- The direct-block emission loop of `cmdCat` (lines 1370-1382): runs
over the direct indices while bytes remain, skipping zero addresses
without consuming the remaining count, emitting
`min(remainingBytes, BLOCK_SIZE)` bytes of each nonzero block. -/
def catDirectLoop (fs : FS) (ino : Inode) :
    List Nat → Nat → List Nat × Nat
  | [], remaining => ([], remaining)
  | i :: rest, remaining =>
    if remaining = 0 then ([], remaining)
    else if ino.blockAddresses i = 0 then catDirectLoop fs ino rest remaining
    else
      let bytesToRead := min remaining BLOCK_SIZE
      let out := (List.range bytesToRead).map
        fun o => fs.blocks (ino.blockAddresses i) o
      let next := catDirectLoop fs ino rest (remaining - bytesToRead)
      (out ++ next.1, next.2)

/-- The indirect-children emission loop of `cmdCat` (lines 1388-1400). -/
def catIndirectLoop (fs : FS) (indirectBlock : Nat) :
    List Nat → Nat → List Nat × Nat
  | [], remaining => ([], remaining)
  | i :: rest, remaining =>
    if remaining = 0 then ([], remaining)
    else if readU32 (fs.blocks indirectBlock) (4 * i) = 0 then
      catIndirectLoop fs indirectBlock rest remaining
    else
      let bytesToRead := min remaining BLOCK_SIZE
      let out := (List.range bytesToRead).map
        fun o => fs.blocks (readU32 (fs.blocks indirectBlock) (4 * i)) o
      let next := catIndirectLoop fs indirectBlock rest
        (remaining - bytesToRead)
      (out ++ next.1, next.2)

/-- `FileSystem::cmdCat` (lines 1349-1404): `none` on the two error
paths, otherwise the bytes emitted by the `std::cout.write` calls (the
human-readable header is shell formatting and out of scope). -/
def cmdCat (fs : FS) (filename : List Nat) : Option (List Nat) :=
  match getInodeFromPath fs filename with
  | none => none
  | some inodeNum =>
    let ino := readInode fs inodeNum
    if ino.type ≠ 0 then none
    else
      let direct := catDirectLoop fs ino (List.range DIRECT_BLOCKS) ino.size
      let indirect :=
        if ino.indirectBlock ≠ 0 ∧ direct.2 ≠ 0 then
          (catIndirectLoop fs ino.indirectBlock (List.range 256) direct.2).1
        else []
      some (direct.1 ++ indirect)

/-! ### Image initialisation (lines 111-166) -/

/-- The free-block-list build loop (lines 127-130): block `i` gets `i + 1`
as next pointer, for `i` from `FIRST_DATA_BLOCK` up to `TOTAL_BLOCKS - 2`. -/
def buildBlockLinks (blocks : Nat → Nat → Nat) : List Nat → Nat → Nat → Nat
  | [] => blocks
  | i :: rest =>
    buildBlockLinks (setBlk blocks i (writeU32 (blocks i) 0 (i + 1))) rest

/-- The free-inode-list build loop (lines 136-139): the overloaded
`indirectBlock` field of inode `i` gets `i + 1`. -/
def buildInodeLinks (inodes : Nat → Inode) : List Nat → Nat → Inode
  | [] => inodes
  | i :: rest =>
    buildInodeLinks
      (setInode inodes i { inodes i with indirectBlock := i + 1 }) rest

/-- The superblock written by `initializeFileSystem` (lines 117-124). -/
def initSuperBlock : SuperBlock :=
  { magic := 0x12345678, blockSize := BLOCK_SIZE,
    totalBlocks := TOTAL_BLOCKS,
    freeBlocks := TOTAL_BLOCKS - FIRST_DATA_BLOCK,
    maxInodes := MAX_INODES, freeInodes := MAX_INODES - 1,
    firstFreeBlock := FIRST_DATA_BLOCK, firstFreeInode := 1 }

/-- The data-block region after the free-list build loop (lines 126-133):
the fold over blocks `FIRST_DATA_BLOCK .. TOTAL_BLOCKS-2` followed by the
explicit terminator write into the last block. -/
def initBlocksMap : Nat → Nat → Nat :=
  let blocks1 := buildBlockLinks (fun _ _ => 0)
    (List.range' FIRST_DATA_BLOCK (TOTAL_BLOCKS - 1 - FIRST_DATA_BLOCK))
  setBlk blocks1 (TOTAL_BLOCKS - 1)
    (writeU32 (blocks1 (TOTAL_BLOCKS - 1)) 0 0)

/-- The inode table after the free-inode build loop (lines 136-142). -/
def initInodesMap : Nat → Inode :=
  let inodes1 := buildInodeLinks (fun _ => zeroInode)
    (List.range' 1 (MAX_INODES - 2))
  setInode inodes1 (MAX_INODES - 1)
    { inodes1 (MAX_INODES - 1) with indirectBlock := 0 }

/-- Tail of `initializeFileSystem` (lines 144-165): allocate the root
block, write the root inode, create the `.`/`..` entries, set the current
directory. -/
def initTail (fs0 : FS) (t : Nat) : FS :=
  let rootInode0 : Inode :=
    { type := 1, size := 0, creationTime := t, modificationTime := t,
      blockAddresses := fun _ => 0, indirectBlock := 0 }
  let rb := allocateBlock fs0
  let rootInode :=
    { rootInode0 with
      blockAddresses := setAddr rootInode0.blockAddresses 0 rb.1
      indirectBlock := 0 }
  let fs2 := writeInode rb.2 0 rootInode
  let fs3 := initDirectory fs2 0 0
  { fs3 with currentInodeNumber := 0, currentPath := [47] }

/-- `FileSystem::initializeFileSystem` (lines 111-166), for a given clock
value: zeroed image, superblock fields, both free lists, root block
allocation, root inode, root `.`/`..` entries, current directory `/`. -/
def initFileSystem (t : Nat) : FS :=
  initTail
    { sb := initSuperBlock, inodes := initInodesMap, blocks := initBlocksMap,
      currentInodeNumber := 0, currentPath := [47], clock := t } t

/-- The freshly initialised image with clock 0. -/
def initFS : FS := initFileSystem 0

/-! #### Closed forms of the initialisation folds

The fold-built maps above are linear chains of point updates, which the
kernel cannot evaluate efficiently; the following equalities give the
extensionally equal constant-time maps used when a theorem about a
concrete scenario is checked by `decide`. -/

/-- Constant-time form of `initBlocksMap`: block `b` of the fresh image
holds the next-free link `b+1` (0 in the last block) in its first four
bytes, and zeros elsewhere. -/
def initBlocksFast : Nat → Nat → Nat :=
  fun b =>
    if 9 ≤ b ∧ b ≤ 1023 then
      writeU32 zeroBlock 0 (if b = 1023 then 0 else b + 1)
    else zeroBlock

/-- Constant-time form of `initInodesMap`. -/
def initInodesFast : Nat → Inode :=
  fun k =>
    if 1 ≤ k ∧ k ≤ 127 then
      { zeroInode with indirectBlock := if k = 127 then 0 else k + 1 }
    else zeroInode

theorem buildBlockLinks_apply (blocks : Nat → Nat → Nat) (a n b : Nat) :
    buildBlockLinks blocks (List.range' a n) b =
      if a ≤ b ∧ b < a + n then writeU32 (blocks b) 0 (b + 1)
      else blocks b := by
  induction n generalizing a blocks with
  | zero =>
    rw [List.range', buildBlockLinks, if_neg (by omega)]
  | succ m ih =>
    rw [List.range'_succ, buildBlockLinks, ih]
    by_cases hb : b = a
    · subst hb
      rw [if_neg (by omega), if_pos (by omega)]
      simp [setBlk]
    · simp only [setBlk, if_neg hb]
      by_cases h : a + 1 ≤ b ∧ b < a + 1 + m
      · rw [if_pos h, if_pos (by omega)]
      · rw [if_neg h, if_neg (by omega)]

theorem buildInodeLinks_apply (inodes : Nat → Inode) (a n k : Nat) :
    buildInodeLinks inodes (List.range' a n) k =
      if a ≤ k ∧ k < a + n then { inodes k with indirectBlock := k + 1 }
      else inodes k := by
  induction n generalizing a inodes with
  | zero =>
    rw [List.range', buildInodeLinks, if_neg (by omega)]
  | succ m ih =>
    rw [List.range'_succ, buildInodeLinks, ih]
    by_cases hk : k = a
    · subst hk
      rw [if_neg (by omega), if_pos (by omega)]
      simp [setInode]
    · simp only [setInode, if_neg hk]
      by_cases h : a + 1 ≤ k ∧ k < a + 1 + m
      · rw [if_pos h, if_pos (by omega)]
      · rw [if_neg h, if_neg (by omega)]

theorem initBlocksMap_eq : initBlocksMap = initBlocksFast := by
  funext b
  show setBlk (buildBlockLinks (fun _ _ => 0) (List.range' 9 1014)) 1023
      (writeU32 (buildBlockLinks (fun _ _ => 0) (List.range' 9 1014) 1023)
        0 0) b =
    initBlocksFast b
  unfold setBlk initBlocksFast
  rw [buildBlockLinks_apply, buildBlockLinks_apply]
  by_cases hb : b = 1023
  · subst hb
    rw [if_pos rfl, if_neg (by omega), if_pos (by omega), if_pos rfl]
    rfl
  · rw [if_neg hb]
    by_cases h : 9 ≤ b ∧ b < 9 + 1014
    · rw [if_pos h, if_pos (by omega), if_neg hb]
      rfl
    · rw [if_neg h, if_neg (by omega)]
      rfl

theorem initInodesMap_eq : initInodesMap = initInodesFast := by
  funext k
  show setInode (buildInodeLinks (fun _ => zeroInode) (List.range' 1 126)) 127
      { buildInodeLinks (fun _ => zeroInode) (List.range' 1 126) 127 with
        indirectBlock := 0 } k =
    initInodesFast k
  unfold setInode initInodesFast
  rw [buildInodeLinks_apply, buildInodeLinks_apply]
  by_cases hk : k = 127
  · subst hk
    rw [if_pos rfl, if_neg (by omega), if_pos (by omega), if_pos rfl]
  · rw [if_neg hk]
    by_cases h : 1 ≤ k ∧ k < 1 + 126
    · rw [if_pos h, if_pos (by omega), if_neg hk]
    · rw [if_neg h, if_neg (by omega)]

/-- `initFS` with the constant-time base maps substituted. -/
def initFSfast : FS :=
  initTail
    { sb := initSuperBlock, inodes := initInodesFast, blocks := initBlocksFast,
      currentInodeNumber := 0, currentPath := [47], clock := 0 } 0

theorem initFS_eq_fast : initFS = initFSfast := by
  unfold initFS initFileSystem initFSfast
  rw [initBlocksMap_eq, initInodesMap_eq]

/-! ### Concrete states used by counterexamples and witnesses

These are explicitly constructed images (with constant-time maps) used to
instantiate universally quantified claims at particular states.  Each is
a well-formed instance of the on-image data model of §3 of the spec. -/

/-- A directory data block holding 32 visible entries, each named `"a"`
and pointing at inode 1. -/
def fullEntryBlock : Nat → Nat :=
  fun off =>
    if off % 32 = 0 then 97 else if off % 32 = 28 then 1 else 0

/-- A directory data block whose slot 0 holds the visible entry
`("a", 1)` and whose remaining 31 slots are free. -/
def oneEntryBlock : Nat → Nat :=
  fun off => if off = 0 then 97 else if off = 28 then 1 else 0

/-- A directory data block whose slot 0 holds the visible entry
`("f", 1)` and whose remaining 31 slots are free. -/
def fEntryBlock : Nat → Nat :=
  fun off => if off = 0 then 102 else if off = 28 then 1 else 0

/-- A base block map whose blocks `a .. a+n-1` form a free chain
(`b ↦ b+1`, last block ↦ 0) and whose other blocks are zero. -/
def chainBlocksBase (a n : Nat) : Nat → Nat → Nat :=
  fun b =>
    if a ≤ b ∧ b < a + n then
      writeU32 zeroBlock 0 (if b = a + n - 1 then 0 else b + 1)
    else zeroBlock

/-- An image whose root directory has all ten direct blocks (9..18)
completely full of entries, no indirect block, one free block (1000) and
one free inode (3).  Adding an entry to the root must go through the
indirect phase of `addDirectoryEntry`. -/
def fullRootFS : FS :=
  { sb := { magic := 0x12345678, blockSize := 1024, totalBlocks := 1024,
            freeBlocks := 1, maxInodes := 128, freeInodes := 1,
            firstFreeBlock := 1000, firstFreeInode := 3 }
    inodes := setInode (fun _ => zeroInode) 0
      { type := 1, size := 10240, creationTime := 0, modificationTime := 0,
        blockAddresses := fun i => if i < 10 then 9 + i else 0,
        indirectBlock := 0 }
    blocks := fun b => if 9 ≤ b ∧ b < 19 then fullEntryBlock else zeroBlock
    currentInodeNumber := 0, currentPath := [47], clock := 0 }

/-- An image whose free-block list head is 5 — nonzero and below
`FIRST_DATA_BLOCK = 9`. -/
def lowHeadFS : FS :=
  { sb := { magic := 0x12345678, blockSize := 1024, totalBlocks := 1024,
            freeBlocks := 1, maxInodes := 128, freeInodes := 1,
            firstFreeBlock := 5, firstFreeInode := 1 }
    inodes := setInode (fun _ => zeroInode) 0
      { type := 1, size := 64, creationTime := 0, modificationTime := 0,
        blockAddresses := fun i => if i = 0 then 9 else 0,
        indirectBlock := 0 }
    blocks := fun b => if b = 9 then oneEntryBlock else zeroBlock
    currentInodeNumber := 0, currentPath := [47], clock := 0 }

/-- An image whose root directory owns the single data block 9, which is
completely full; free blocks 100, 101, 102; free inodes 2 and 3.
`create-dir` of a fresh name here must install a second root block. -/
def fullBlockRootFS : FS :=
  { sb := { magic := 0x12345678, blockSize := 1024, totalBlocks := 1024,
            freeBlocks := 3, maxInodes := 128, freeInodes := 2,
            firstFreeBlock := 100, firstFreeInode := 2 }
    inodes := setInode (setInode (fun _ => zeroInode) 0
      { type := 1, size := 1024, creationTime := 0, modificationTime := 0,
        blockAddresses := fun i => if i = 0 then 9 else 0,
        indirectBlock := 0 }) 2
      { zeroInode with indirectBlock := 3 }
    blocks := fun b =>
      if b = 9 then fullEntryBlock else chainBlocksBase 100 3 b
    currentInodeNumber := 0, currentPath := [47], clock := 0 }

/-- An image whose root directory owns data block 9 with one entry and 31
free slots; free blocks 100 and 101; free inode 2.  `create-dir` of a
fresh name here commits into block 9 without installing a new block. -/
def tombRootFS : FS :=
  { sb := { magic := 0x12345678, blockSize := 1024, totalBlocks := 1024,
            freeBlocks := 2, maxInodes := 128, freeInodes := 1,
            firstFreeBlock := 100, firstFreeInode := 2 }
    inodes := setInode (fun _ => zeroInode) 0
      { type := 1, size := 64, creationTime := 0, modificationTime := 0,
        blockAddresses := fun i => if i = 0 then 9 else 0,
        indirectBlock := 0 }
    blocks := fun b =>
      if b = 9 then oneEntryBlock else chainBlocksBase 100 2 b
    currentInodeNumber := 0, currentPath := [47], clock := 0 }

/-- An image with an empty root directory block and a free chain of
exactly 267 blocks (100..366), enough for a 266-data-block file plus its
indirect block. -/
def touch266FS : FS :=
  { sb := { magic := 0x12345678, blockSize := 1024, totalBlocks := 1024,
            freeBlocks := 267, maxInodes := 128, freeInodes := 1,
            firstFreeBlock := 100, firstFreeInode := 1 }
    inodes := setInode (fun _ => zeroInode) 0
      { type := 1, size := 0, creationTime := 0, modificationTime := 0,
        blockAddresses := fun i => if i = 0 then 9 else 0,
        indirectBlock := 0 }
    blocks := chainBlocksBase 100 267
    currentInodeNumber := 0, currentPath := [47], clock := 0 }

/-- An image holding one file `f` (inode 1) of 1030 bytes spread over
data blocks 20 and 21 (the second clipped to 6 bytes). -/
def catFS : FS :=
  { sb := { magic := 0x12345678, blockSize := 1024, totalBlocks := 1024,
            freeBlocks := 0, maxInodes := 128, freeInodes := 0,
            firstFreeBlock := 0, firstFreeInode := 0 }
    inodes := setInode (setInode (fun _ => zeroInode) 0
      { type := 1, size := 96, creationTime := 0, modificationTime := 0,
        blockAddresses := fun i => if i = 0 then 9 else 0,
        indirectBlock := 0 }) 1
      { type := 0, size := 1030, creationTime := 0, modificationTime := 0,
        blockAddresses := fun i =>
          if i = 0 then 20 else if i = 1 then 21 else 0,
        indirectBlock := 0 }
    blocks := fun b =>
      if b = 9 then fEntryBlock
      else if b = 20 then (fun off => (off + 1) % 256)
      else if b = 21 then (fun off => (off * 2 + 3) % 256)
      else zeroBlock
    currentInodeNumber := 0, currentPath := [47], clock := 0 }

/-! ### Free-list walk (spec §8 invariant 1; `cmdDebug`, lines 698-723) -/

/-- Walk the free-block chain from `head`: the next element is the 4-byte
integer at offset 0 of the current block, 0 terminates.  `none` means the
walk did not reach the terminator within `fuel` steps. -/
def walkChain (blocks : Nat → Nat → Nat) : Nat → Nat → Option (List Nat)
  | _, 0 => some []
  | 0, _ + 1 => none
  | fuel + 1, h + 1 =>
    match walkChain blocks fuel (readU32 (blocks (h + 1)) 0) with
    | some l => some ((h + 1) :: l)
    | none => none

/-! ### Basic lemmas about the allocators -/

theorem allocateBlock_fst_zero (fs : FS)
    (h : (allocateBlock fs).1 = 0) : (allocateBlock fs).2 = fs := by
  by_cases h1 : fs.sb.freeBlocks = 0 ∨ fs.sb.firstFreeBlock = 0
  · simp only [allocateBlock, if_pos h1]
  · by_cases h2 : TOTAL_BLOCKS ≤ fs.sb.firstFreeBlock
    · simp only [allocateBlock, if_neg h1, if_pos h2]
    · exfalso
      simp only [allocateBlock, if_neg h1, if_neg h2] at h
      push_neg at h1
      exact h1.2 h

theorem allocateBlock_fst_ne_zero (fs : FS)
    (h : (allocateBlock fs).1 ≠ 0) :
    (allocateBlock fs).1 = fs.sb.firstFreeBlock ∧
    fs.sb.freeBlocks ≠ 0 ∧ fs.sb.firstFreeBlock ≠ 0 ∧
    fs.sb.firstFreeBlock < TOTAL_BLOCKS ∧
    (allocateBlock fs).2 =
      { fs with
        sb := { fs.sb with
                firstFreeBlock := readU32 (fs.blocks fs.sb.firstFreeBlock) 0
                freeBlocks := fs.sb.freeBlocks - 1 }
        blocks := setBlk fs.blocks fs.sb.firstFreeBlock zeroBlock } := by
  by_cases h1 : fs.sb.freeBlocks = 0 ∨ fs.sb.firstFreeBlock = 0
  · exact absurd (by simp only [allocateBlock, if_pos h1]) h
  · by_cases h2 : TOTAL_BLOCKS ≤ fs.sb.firstFreeBlock
    · exact absurd (by simp only [allocateBlock, if_neg h1, if_pos h2]) h
    · push_neg at h1
      refine ⟨?_, h1.1, h1.2, by omega, ?_⟩ <;>
        simp only [allocateBlock, if_neg (not_or.mpr ⟨h1.1, h1.2⟩), if_neg h2]

theorem allocateBlock_inodeSide (fs : FS) :
    (allocateBlock fs).2.inodes = fs.inodes ∧
    (allocateBlock fs).2.sb.freeInodes = fs.sb.freeInodes ∧
    (allocateBlock fs).2.sb.firstFreeInode = fs.sb.firstFreeInode ∧
    (allocateBlock fs).2.clock = fs.clock := by
  by_cases h1 : fs.sb.freeBlocks = 0 ∨ fs.sb.firstFreeBlock = 0
  · simp [allocateBlock, if_pos h1]
  · by_cases h2 : TOTAL_BLOCKS ≤ fs.sb.firstFreeBlock
    · simp [allocateBlock, if_neg h1, if_pos h2]
    · simp [allocateBlock, if_neg h1, if_neg h2]

theorem deallocateBlock_in_range (fs : FS) (b : Nat)
    (h1 : FIRST_DATA_BLOCK ≤ b) (h2 : b < TOTAL_BLOCKS) :
    deallocateBlock fs b =
      { fs with
        blocks := setBlk fs.blocks b
          (writeU32 (fs.blocks b) 0 fs.sb.firstFreeBlock)
        sb := { fs.sb with
                firstFreeBlock := b
                freeBlocks := fs.sb.freeBlocks + 1 } } := by
  unfold deallocateBlock
  rw [if_neg (by omega)]

theorem deallocateBlock_inodeSide (fs : FS) (b : Nat) :
    (deallocateBlock fs b).inodes = fs.inodes ∧
    (deallocateBlock fs b).sb.freeInodes = fs.sb.freeInodes ∧
    (deallocateBlock fs b).sb.firstFreeInode = fs.sb.firstFreeInode ∧
    (deallocateBlock fs b).clock = fs.clock := by
  unfold deallocateBlock
  by_cases h : b < FIRST_DATA_BLOCK ∨ TOTAL_BLOCKS ≤ b
  · rw [if_pos h]
    exact ⟨rfl, rfl, rfl, rfl⟩
  · rw [if_neg h]
    exact ⟨rfl, rfl, rfl, rfl⟩

theorem deallocateBlock_freeBlocks (fs : FS) (b : Nat)
    (h1 : FIRST_DATA_BLOCK ≤ b) (h2 : b < TOTAL_BLOCKS) :
    (deallocateBlock fs b).sb.freeBlocks = fs.sb.freeBlocks + 1 := by
  rw [deallocateBlock_in_range fs b h1 h2]

theorem allocateInode_fst_sentinel (fs : FS)
    (h : (allocateInode fs).1 = MAX_INODES)
    (hr : fs.sb.firstFreeInode ≠ MAX_INODES) :
    (allocateInode fs).2 = fs := by
  by_cases h1 : fs.sb.freeInodes = 0 ∨ fs.sb.firstFreeInode = 0
  · simp only [allocateInode, if_pos h1]
  · exfalso
    simp only [allocateInode, if_neg h1] at h
    exact hr h

theorem allocateInode_fst_ne_sentinel (fs : FS)
    (h : (allocateInode fs).1 ≠ MAX_INODES) :
    (allocateInode fs).1 = fs.sb.firstFreeInode ∧
    fs.sb.freeInodes ≠ 0 ∧ fs.sb.firstFreeInode ≠ 0 ∧
    (allocateInode fs).2 =
      { fs with
        sb := { fs.sb with
                firstFreeInode := (fs.inodes fs.sb.firstFreeInode).indirectBlock
                freeInodes := fs.sb.freeInodes - 1 }
        inodes := setInode fs.inodes fs.sb.firstFreeInode
          { type := 0, size := 0, creationTime := fs.clock,
            modificationTime := fs.clock,
            blockAddresses := fun _ => 0, indirectBlock := 0 } } := by
  by_cases h1 : fs.sb.freeInodes = 0 ∨ fs.sb.firstFreeInode = 0
  · exact absurd (by simp only [allocateInode, if_pos h1]) h
  · push_neg at h1
    refine ⟨?_, h1.1, h1.2, ?_⟩ <;>
      simp only [allocateInode, if_neg (not_or.mpr ⟨h1.1, h1.2⟩)]

theorem allocateInode_blockSide (fs : FS) :
    (allocateInode fs).2.blocks = fs.blocks ∧
    (allocateInode fs).2.sb.freeBlocks = fs.sb.freeBlocks ∧
    (allocateInode fs).2.sb.firstFreeBlock = fs.sb.firstFreeBlock ∧
    (allocateInode fs).2.clock = fs.clock := by
  by_cases h1 : fs.sb.freeInodes = 0 ∨ fs.sb.firstFreeInode = 0
  · simp [allocateInode, if_pos h1]
  · simp [allocateInode, if_neg h1]

theorem deallocateInode_in_range (fs : FS) (i : Nat) (h : i < MAX_INODES) :
    deallocateInode fs i =
      { fs with
        inodes := setInode fs.inodes i
          { fs.inodes i with indirectBlock := fs.sb.firstFreeInode }
        sb := { fs.sb with
                firstFreeInode := i
                freeInodes := fs.sb.freeInodes + 1 } } := by
  unfold deallocateInode
  rw [if_neg (by omega)]

theorem deallocateInode_blockSide (fs : FS) (i : Nat) :
    (deallocateInode fs i).blocks = fs.blocks ∧
    (deallocateInode fs i).sb.freeBlocks = fs.sb.freeBlocks ∧
    (deallocateInode fs i).sb.firstFreeBlock = fs.sb.firstFreeBlock ∧
    (deallocateInode fs i).clock = fs.clock := by
  unfold deallocateInode
  by_cases h : MAX_INODES ≤ i
  · rw [if_pos h]
    exact ⟨rfl, rfl, rfl, rfl⟩
  · rw [if_neg h]
    exact ⟨rfl, rfl, rfl, rfl⟩

theorem writeInode_parts (fs : FS) (i : Nat) (v : Inode) :
    (writeInode fs i v).sb = fs.sb ∧ (writeInode fs i v).blocks = fs.blocks ∧
    (writeInode fs i v).clock = fs.clock := by
  unfold writeInode
  by_cases h : MAX_INODES ≤ i
  · rw [if_pos h]
    exact ⟨rfl, rfl, rfl⟩
  · rw [if_neg h]
    exact ⟨rfl, rfl, rfl⟩

theorem commitEntry_parts (fs : FS) (d : Nat) (ino : Inode)
    (b j : Nat) (name : List Nat) (i : Nat) :
    (commitEntry fs d ino b j name i).sb = fs.sb ∧
    (commitEntry fs d ino b j name i).clock = fs.clock := by
  unfold commitEntry
  refine ⟨((writeInode_parts _ _ _).1), ((writeInode_parts _ _ _).2.2)⟩

/-! ### Point-update and byte-level lemmas -/

theorem setBlk_same (blocks : Nat → Nat → Nat) (b : Nat) (f : Nat → Nat) :
    setBlk blocks b f b = f := by
  simp [setBlk]

theorem setBlk_other (blocks : Nat → Nat → Nat) (b : Nat) (f : Nat → Nat)
    (k : Nat) (h : k ≠ b) : setBlk blocks b f k = blocks k := by
  simp [setBlk, h]

theorem setAddr_same (f : Nat → Nat) (i v : Nat) : setAddr f i v i = v := by
  simp [setAddr]

theorem setAddr_other (f : Nat → Nat) (i v k : Nat) (h : k ≠ i) :
    setAddr f i v k = f k := by
  simp [setAddr, h]

theorem setInode_same (inodes : Nat → Inode) (i : Nat) (v : Inode) :
    setInode inodes i v i = v := by
  simp [setInode]

theorem setInode_other (inodes : Nat → Inode) (i : Nat) (v : Inode)
    (k : Nat) (h : k ≠ i) : setInode inodes i v k = inodes k := by
  simp [setInode, h]

theorem writeU32_apply_out (f : Nat → Nat) (o v t : Nat)
    (h : t < o ∨ o + 3 < t) : writeU32 f o v t = f t := by
  simp only [writeU32, setOff]
  rw [if_neg (by omega), if_neg (by omega), if_neg (by omega),
    if_neg (by omega)]

theorem readU32_writeU32 (f : Nat → Nat) (o v : Nat) :
    readU32 (writeU32 f o v) o = v % U32MOD := by
  have h0 : writeU32 f o v o = v % 256 := by
    simp only [writeU32, setOff]
    rw [if_neg (by omega), if_neg (by omega), if_neg (by omega)]
    simp
  have h1 : writeU32 f o v (o + 1) = v / 256 % 256 := by
    simp only [writeU32, setOff]
    rw [if_neg (by omega), if_neg (by omega)]
    simp
  have h2 : writeU32 f o v (o + 2) = v / 65536 % 256 := by
    simp only [writeU32, setOff]
    rw [if_neg (by omega)]
    simp
  have h3 : writeU32 f o v (o + 3) = v / 16777216 % 256 := by
    simp only [writeU32, setOff]
    simp
  simp only [readU32, h0, h1, h2, h3, U32MOD]
  omega

theorem readU32_writeU32_out (f : Nat → Nat) (o v o' : Nat)
    (h : o' + 3 < o ∨ o + 3 < o') :
    readU32 (writeU32 f o v) o' = readU32 f o' := by
  simp only [readU32]
  rw [writeU32_apply_out f o v o' (by omega),
    writeU32_apply_out f o v (o' + 1) (by omega),
    writeU32_apply_out f o v (o' + 2) (by omega),
    writeU32_apply_out f o v (o' + 3) (by omega)]

theorem entryIno_zeroBlock (j : Nat) : entryIno zeroBlock j = 0 := by
  simp [entryIno, readU32, zeroBlock]

theorem findFreeSlot_zeroBlock : findFreeSlot zeroBlock = some 0 := by
  decide

/-- A single 4-byte write into a zeroed block can obstruct the
inode-number field of at most one of its 32 directory slots, so the
free-slot scan always finds one. -/
theorem findFreeSlot_writeU32_zeroBlock_isSome (o v : Nat) :
    (findFreeSlot (writeU32 zeroBlock o v)).isSome := by
  rw [findFreeSlot, List.find?_isSome]
  by_cases h : 25 ≤ o ∧ o ≤ 31
  · refine ⟨1, by decide, ?_⟩
    have : entryIno (writeU32 zeroBlock o v) 1 = 0 := by
      simp only [entryIno, readU32]
      rw [writeU32_apply_out _ _ _ _ (by omega),
        writeU32_apply_out _ _ _ _ (by omega),
        writeU32_apply_out _ _ _ _ (by omega),
        writeU32_apply_out _ _ _ _ (by omega)]
      simp [zeroBlock]
    simp [this]
  · refine ⟨0, by decide, ?_⟩
    have : entryIno (writeU32 zeroBlock o v) 0 = 0 := by
      simp only [entryIno, readU32]
      rw [writeU32_apply_out _ _ _ _ (by omega),
        writeU32_apply_out _ _ _ _ (by omega),
        writeU32_apply_out _ _ _ _ (by omega),
        writeU32_apply_out _ _ _ _ (by omega)]
      simp [zeroBlock]
    simp [this]

/-! ### Failure analysis of `addDirectoryEntry`

A freshly allocated block is zero-filled, so installing a block in a
direct slot (or a child slot) is always followed by a successful
free-slot scan and a commit; consequently a failing call can only have
allocated the indirect block, never anything else. -/

theorem alloc_block_fresh_zero (fs : FS) (hz : (allocateBlock fs).1 ≠ 0) :
    (allocateBlock fs).2.blocks (allocateBlock fs).1 = zeroBlock := by
  obtain ⟨he, _, _, _, hs⟩ := allocateBlock_fst_ne_zero fs hz
  rw [hs, he]
  exact setBlk_same _ _ _

theorem addEntryDirectLoop_failed_eq (dnum : Nat) (name : List Nat)
    (ino : Nat) :
    ∀ (is : List Nat) (fs : FS) (dirInode : Inode) (fs' : FS),
      addEntryDirectLoop fs dnum dirInode name ino is = .failed fs' →
      fs' = fs := by
  intro is
  induction is with
  | nil =>
    intro fs dirInode fs' h
    simp [addEntryDirectLoop] at h
  | cons i rest ih =>
    intro fs dirInode fs' h
    rw [addEntryDirectLoop] at h
    by_cases ha : dirInode.blockAddresses i = 0
    · rw [if_pos ha] at h
      by_cases hz : (allocateBlock fs).1 = 0
      · simp only [if_pos hz] at h
        cases h
        exact allocateBlock_fst_zero fs hz
      · simp only [if_neg hz] at h
        split at h
        · cases h
        · next heq =>
          rw [setAddr_same, (writeInode_parts _ _ _).2.1,
            alloc_block_fresh_zero fs hz, findFreeSlot_zeroBlock] at heq
          cases heq
    · rw [if_neg ha] at h
      split at h
      · cases h
      · next heq => exact ih fs _ fs' h

theorem addEntryDirectLoop_exhausted_eq (dnum : Nat) (name : List Nat)
    (ino : Nat) :
    ∀ (is : List Nat) (fs : FS) (dirInode : Inode) (fs1 : FS) (d1 : Inode),
      addEntryDirectLoop fs dnum dirInode name ino is = .exhausted fs1 d1 →
      fs1 = fs ∧ d1 = dirInode := by
  intro is
  induction is with
  | nil =>
    intro fs dirInode fs1 d1 h
    rw [addEntryDirectLoop] at h
    cases h
    exact ⟨rfl, rfl⟩
  | cons i rest ih =>
    intro fs dirInode fs1 d1 h
    rw [addEntryDirectLoop] at h
    by_cases ha : dirInode.blockAddresses i = 0
    · rw [if_pos ha] at h
      by_cases hz : (allocateBlock fs).1 = 0
      · simp only [if_pos hz] at h
        cases h
      · simp only [if_neg hz] at h
        split at h
        · cases h
        · next heq =>
          rw [setAddr_same, (writeInode_parts _ _ _).2.1,
            alloc_block_fresh_zero fs hz, findFreeSlot_zeroBlock] at heq
          cases heq
    · rw [if_neg ha] at h
      split at h
      · cases h
      · next heq => exact ih fs _ fs1 d1 h

theorem addEntryIndirectLoop_failed_eq (dnum : Nat) (name : List Nat)
    (ino : Nat) :
    ∀ (is : List Nat) (fs : FS) (dirInode : Inode) (fs' : FS),
      addEntryIndirectLoop fs dnum dirInode name ino is = .failed fs' →
      fs' = fs := by
  intro is
  induction is with
  | nil =>
    intro fs dirInode fs' h
    rw [addEntryIndirectLoop] at h
    cases h
    rfl
  | cons i rest ih =>
    intro fs dirInode fs' h
    rw [addEntryIndirectLoop] at h
    by_cases hz : readU32 (fs.blocks dirInode.indirectBlock) (4 * i) = 0
    · rw [if_pos hz] at h
      by_cases hb : (allocateBlock fs).1 = 0
      · simp only [if_pos hb] at h
        cases h
        exact allocateBlock_fst_zero fs hb
      · exfalso
        simp only [if_neg hb] at h
        obtain ⟨he, _, _, hlt, hs⟩ := allocateBlock_fst_ne_zero fs hb
        -- the slot written into the indirect block reads back as the
        -- allocated block number
        have hchild :
            readU32
              ((setBlk (allocateBlock fs).2.blocks dirInode.indirectBlock
                (writeU32 ((allocateBlock fs).2.blocks dirInode.indirectBlock)
                  (4 * i) (allocateBlock fs).1)) dirInode.indirectBlock)
              (4 * i) = (allocateBlock fs).1 := by
          rw [setBlk_same, readU32_writeU32, he]
          exact Nat.mod_eq_of_lt (by
            have h1024 : fs.sb.firstFreeBlock < TOTAL_BLOCKS := hlt
            have : TOTAL_BLOCKS = 1024 := rfl
            simp only [U32MOD]
            omega)
        -- whatever block the child lands in, it is the memset image with
        -- at most one extra 4-byte write, so the slot scan succeeds
        have hsome : ∀ blk, blk = zeroBlock ∨
            (∃ o v, blk = writeU32 zeroBlock o v) →
            (findFreeSlot blk).isSome := by
          rintro blk (rfl | ⟨o, v, rfl⟩)
          · rw [findFreeSlot_zeroBlock]; rfl
          · exact findFreeSlot_writeU32_zeroBlock_isSome o v
        split at h
        · cases h
        · next heq =>
          rw [hchild] at heq
          by_cases hc : (allocateBlock fs).1 = dirInode.indirectBlock
          · rw [hc, setBlk_same] at heq
            have hzb : (allocateBlock fs).2.blocks dirInode.indirectBlock =
                zeroBlock := by
              rw [← hc]
              exact alloc_block_fresh_zero fs hb
            rw [hzb] at heq
            have := hsome _ (Or.inr ⟨4 * i, dirInode.indirectBlock, rfl⟩)
            rw [heq] at this
            exact absurd this (by simp)
          · rw [setBlk_other _ _ _ _ hc,
              alloc_block_fresh_zero fs hb, findFreeSlot_zeroBlock] at heq
            cases heq
    · rw [if_neg hz] at h
      dsimp only at h
      split at h
      · cases h
      · next heq => exact ih fs _ fs' h

theorem readInode_writeInode_same (fs : FS) (d : Nat) (v : Inode)
    (h : d < MAX_INODES) : readInode (writeInode fs d v) d = v := by
  unfold readInode writeInode
  rw [if_neg (by omega), if_neg (by omega)]
  exact setInode_same _ _ _

/-! ## Claim theorems -/

/-- C5 counterexample: a failing `addDirectoryEntry` call that does not
release the block it allocated.  In `fullRootFS` the root's ten direct
blocks are full, the root has no indirect block, and exactly one free
block (1000) remains.  `addDirectoryEntry` allocates block 1000 as the
indirect block, installs it in the root inode, then fails to allocate the
first child and returns `false` with the free-block count one lower and
block 1000 still attached to the root — the allocated block was not
released. -/
theorem add_entry_indirect_leak_cex :
    fullRootFS.sb.freeBlocks = 1 ∧
    (readInode fullRootFS 0).indirectBlock = 0 ∧
    (addDirectoryEntry fullRootFS 0 [120] 5).2 = false ∧
    (addDirectoryEntry fullRootFS 0 [120] 5).1.sb.freeBlocks = 0 ∧
    (readInode (addDirectoryEntry fullRootFS 0 [120] 5).1 0).indirectBlock =
      1000 := by
  decide

/-- C5 amended: a failing `addDirectoryEntry` call has either allocated
nothing (the free-block count is unchanged), or — exactly when the
directory had no indirect block and the call installed one before
failing on the first child allocation — it has consumed one block, which
remains attached to the directory inode instead of being released. -/
theorem add_entry_failure_spec (fs : FS) (d : Nat) (nm : List Nat) (i : Nat)
    (h : (addDirectoryEntry fs d nm i).2 = false) :
    (addDirectoryEntry fs d nm i).1.sb.freeBlocks = fs.sb.freeBlocks ∨
    ((addDirectoryEntry fs d nm i).1.sb.freeBlocks + 1 = fs.sb.freeBlocks ∧
      (readInode fs d).indirectBlock = 0 ∧
      (readInode (addDirectoryEntry fs d nm i).1 d).indirectBlock ≠ 0) := by
  by_cases hlen : MAX_FILENAME_LENGTH ≤ nm.length
  · left
    simp only [addDirectoryEntry, if_pos hlen]
  · by_cases hty : (readInode fs d).type = 1
    · have hty' : ¬(readInode fs d).type ≠ 1 := not_not_intro hty
      have hd : d < MAX_INODES := by
        by_contra hge
        have : readInode fs d = zeroInode := by
          unfold readInode
          rw [if_pos (by omega)]
        rw [this] at hty
        exact absurd hty (by decide)
      cases hD : addEntryDirectLoop fs d (readInode fs d) nm i
          (List.range DIRECT_BLOCKS) with
      | committed fsC =>
        exfalso
        simp only [addDirectoryEntry, if_neg hlen, if_neg hty', hD] at h
        exact absurd h (by decide)
      | failed fsF =>
        left
        simp only [addDirectoryEntry, if_neg hlen, if_neg hty', hD]
        rw [addEntryDirectLoop_failed_eq _ _ _ _ _ _ _ hD]
      | exhausted fs1 d1 =>
        obtain ⟨e1, e2⟩ := addEntryDirectLoop_exhausted_eq _ _ _ _ _ _ _ _ hD
        rw [e1, e2] at hD
        by_cases hind : (readInode fs d).indirectBlock = 0
        · by_cases hz : (allocateBlock fs).1 = 0
          · left
            simp only [addDirectoryEntry, if_neg hlen, if_neg hty', hD,
              if_pos hind, if_pos hz]
            rw [allocateBlock_fst_zero fs hz]
          · cases hI : addEntryIndirectLoop
                (writeInode (allocateBlock fs).2 d
                  { readInode fs d with indirectBlock := (allocateBlock fs).1 })
                d { readInode fs d with indirectBlock := (allocateBlock fs).1 }
                nm i (List.range 256) with
            | committed fsC =>
              exfalso
              simp only [addDirectoryEntry, if_neg hlen, if_neg hty', hD,
                if_pos hind, if_neg hz, hI] at h
              exact absurd h (by decide)
            | failed fsF =>
              right
              simp only [addDirectoryEntry, if_neg hlen, if_neg hty', hD,
                if_pos hind, if_neg hz, hI]
              rw [addEntryIndirectLoop_failed_eq _ _ _ _ _ _ _ hI]
              obtain ⟨he, hfb, _, _, hs⟩ := allocateBlock_fst_ne_zero fs hz
              refine ⟨?_, hind, ?_⟩
              · rw [(writeInode_parts _ _ _).1, hs]
                show fs.sb.freeBlocks - 1 + 1 = fs.sb.freeBlocks
                omega
              · rw [readInode_writeInode_same _ _ _ hd]
                exact hz
        · cases hI : addEntryIndirectLoop fs d (readInode fs d) nm i
              (List.range 256) with
          | committed fsC =>
            exfalso
            simp only [addDirectoryEntry, if_neg hlen, if_neg hty', hD,
              if_neg hind, hI] at h
            exact absurd h (by decide)
          | failed fsF =>
            left
            simp only [addDirectoryEntry, if_neg hlen, if_neg hty', hD,
              if_neg hind, hI]
            rw [addEntryIndirectLoop_failed_eq _ _ _ _ _ _ _ hI]
    · left
      simp only [addDirectoryEntry, if_neg hlen,
        if_pos (by exact hty : (readInode fs d).type ≠ 1)]

theorem add_entry_failure_spec_witness :
    (addDirectoryEntry fullRootFS 0 [120] 5).2 = false ∧
    ((addDirectoryEntry fullRootFS 0 [120] 5).1.sb.freeBlocks =
        fullRootFS.sb.freeBlocks ∨
      ((addDirectoryEntry fullRootFS 0 [120] 5).1.sb.freeBlocks + 1 =
          fullRootFS.sb.freeBlocks ∧
        (readInode fullRootFS 0).indirectBlock = 0 ∧
        (readInode (addDirectoryEntry fullRootFS 0 [120] 5).1
            0).indirectBlock ≠ 0)) :=
  ⟨by decide, add_entry_failure_spec fullRootFS 0 [120] 5 (by decide)⟩

/-- C10: `change-dir` invoked with the empty path string is a no-op: it
returns immediately, leaving the current-directory inode number and the
current-path string unchanged, and reports no error (lines 1048-1050). -/
theorem cd_empty_is_noop (fs : FS) : cmdCd fs [] = (fs, CdResult.ok) := by
  unfold cmdCd
  rw [if_pos rfl]

/-- C6 counterexample: with free-list head 5 — nonzero and inside
`[1, FIRST_DATA_BLOCK)` — `allocateBlock` does not signal corruption; it
pops the list and returns 5 as the allocated block, contradicting the
claim that a head in `[1, 9)` is never returned. -/
theorem allocate_block_low_head_cex :
    lowHeadFS.sb.firstFreeBlock = 5 ∧ (5 < FIRST_DATA_BLOCK) ∧
    (allocateBlock lowHeadFS).1 = 5 ∧
    (allocateBlock lowHeadFS).2.sb.freeBlocks = 0 := by
  decide

/-- C6 amended: `allocateBlock` treats a nonzero head as corrupt only
when it is `≥ TOTAL_BLOCKS = 1024` (returning 0 without popping); every
nonzero head below 1024 — including values in `[1, FIRST_DATA_BLOCK)` —
is popped and returned as the allocated block. -/
theorem allocate_block_range_check (fs : FS)
    (h1 : fs.sb.freeBlocks ≠ 0) (h2 : fs.sb.firstFreeBlock ≠ 0) :
    (TOTAL_BLOCKS ≤ fs.sb.firstFreeBlock → allocateBlock fs = (0, fs)) ∧
    (fs.sb.firstFreeBlock < TOTAL_BLOCKS →
      (allocateBlock fs).1 = fs.sb.firstFreeBlock ∧
      (allocateBlock fs).2.sb.freeBlocks + 1 = fs.sb.freeBlocks) := by
  have hno : ¬(fs.sb.freeBlocks = 0 ∨ fs.sb.firstFreeBlock = 0) :=
    not_or.mpr ⟨h1, h2⟩
  constructor
  · intro h3
    simp only [allocateBlock, if_neg hno, if_pos h3]
  · intro h3
    constructor
    · simp only [allocateBlock, if_neg hno, if_neg (by omega : ¬TOTAL_BLOCKS ≤ fs.sb.firstFreeBlock)]
    · simp only [allocateBlock, if_neg hno, if_neg (by omega : ¬TOTAL_BLOCKS ≤ fs.sb.firstFreeBlock)]
      omega

theorem allocate_block_range_check_witness :
    lowHeadFS.sb.freeBlocks ≠ 0 ∧ lowHeadFS.sb.firstFreeBlock ≠ 0 ∧
    lowHeadFS.sb.firstFreeBlock < TOTAL_BLOCKS ∧
    (allocateBlock lowHeadFS).1 = lowHeadFS.sb.firstFreeBlock ∧
    (allocateBlock lowHeadFS).2.sb.freeBlocks + 1 = lowHeadFS.sb.freeBlocks :=
  ⟨by decide, by decide, by decide,
    ((allocate_block_range_check lowHeadFS (by decide) (by decide)).2
      (by decide)).1,
    ((allocate_block_range_check lowHeadFS (by decide) (by decide)).2
      (by decide)).2⟩

/-- The three-command sequence `mkdir x` (byte 120), `rmdir x/.`,
`rmdir x`, run from the fresh image.  `rmdir x/.` resolves the parent to
`x` itself and the basename to `.`; it removes `x`'s own `.` entry, frees
`x`'s data block and inode, and leaves the parent's `x` entry dangling;
the second `rmdir x` then follows the dangling entry and frees the same
data block a second time. -/
def rootDotStep1 : FS × MkdirResult := cmdMkdir initFS [120]

def rootDotStep2 : FS × RmdirResult := cmdRmdir rootDotStep1.1 [120, 47, 46]

def rootDotStep3 : FS × RmdirResult := cmdRmdir rootDotStep2.1 [120]

theorem rootDotStep1_fast :
    rootDotStep1 = cmdMkdir initFSfast [120] := by
  simp only [rootDotStep1, initFS_eq_fast]

theorem rootDotStep3_fast :
    rootDotStep3 =
      cmdRmdir (cmdRmdir (cmdMkdir initFSfast [120]).1 [120, 47, 46]).1
        [120] := by
  simp only [rootDotStep3, rootDotStep2, rootDotStep1, initFS_eq_fast]

theorem rootDot_created : rootDotStep1.2 = .created := by
  rw [rootDotStep1_fast]
  decide

theorem rootDot_removed1 : rootDotStep2.2 = .removed := by
  rw [show rootDotStep2 = cmdRmdir (cmdMkdir initFSfast [120]).1
      [120, 47, 46] from by simp only [rootDotStep2, rootDotStep1_fast]]
  decide

theorem rootDot_removed2 : rootDotStep3.2 = .removed := by
  rw [rootDotStep3_fast]
  decide

theorem rootDot_count : rootDotStep3.1.sb.freeBlocks = 1015 := by
  rw [rootDotStep3_fast]
  decide

theorem rootDot_walk :
    walkChain rootDotStep3.1.blocks TOTAL_BLOCKS
      rootDotStep3.1.sb.firstFreeBlock = none := by
  rw [rootDotStep3_fast]
  decide

/-- C1: the free-block-list invariant does not survive every operation
sequence.  After `mkdir x; rmdir x/.; rmdir x` from the fresh image, all
three operations report success and the free-block count is 1015, but
walking the free list from the superblock's head never reaches the
terminator within `T = 1024` steps (the head block's next pointer is the
head itself), so the walk neither terminates in `≤ T` steps nor yields
free-block-count entries. -/
theorem free_block_walk_breaks_after_dot_rmdir :
    rootDotStep1.2 = .created ∧ rootDotStep2.2 = .removed ∧
    rootDotStep3.2 = .removed ∧
    rootDotStep3.1.sb.freeBlocks = 1015 ∧
    walkChain rootDotStep3.1.blocks TOTAL_BLOCKS
      rootDotStep3.1.sb.firstFreeBlock = none :=
  ⟨rootDot_created, rootDot_removed1, rootDot_removed2, rootDot_count,
    rootDot_walk⟩

/-- `mkdir` with the empty string (the shell passes `""` when `mkdir` is
typed without an argument): `getParentInodeAndFilename` yields parent
`.` and basename `""`, and a directory entry with the empty name is
created in the root. -/
def emptyNameMk : FS × MkdirResult := cmdMkdir initFS []

/-- `rmdir /` on the resulting state: the basename is again `""`, the
lookup finds the empty-named directory (inode 1), and the removal
succeeds. -/
def rootSlashRm : FS × RmdirResult := cmdRmdir emptyNameMk.1 [47]

theorem emptyNameMk_fast : emptyNameMk = cmdMkdir initFSfast [] := by
  simp only [emptyNameMk, initFS_eq_fast]

theorem rootSlashRm_fast :
    rootSlashRm = cmdRmdir (cmdMkdir initFSfast []).1 [47] := by
  simp only [rootSlashRm, emptyNameMk_fast]

theorem emptyNameMk_created : emptyNameMk.2 = .created := by
  rw [emptyNameMk_fast]
  decide

theorem rootSlash_resolves_to_root :
    getInodeFromPath emptyNameMk.1 [47] = some 0 := by
  rw [show emptyNameMk.1 = (cmdMkdir initFSfast []).1 from by
    rw [emptyNameMk_fast]]
  decide

theorem rootSlashRm_removed : rootSlashRm.2 = .removed := by
  rw [rootSlashRm_fast]
  decide

theorem rootSlashRm_root_alive :
    (readInode rootSlashRm.1 0).type = 1 ∧
    rootSlashRm.1.sb.firstFreeInode = 1 := by
  rw [rootSlashRm_fast]
  decide

/-- C3 counterexample: a path that resolves to inode 0 on which
`remove-dir` nevertheless succeeds.  After `mkdir ""` (which creates an
empty-named directory entry in the root), the path `/` resolves to inode
0, yet `rmdir /` reports success — it removes the empty-named entry, not
the root.  The part of the claim that is kept is visible in the last
conjunct: inode 0 itself is not deallocated (the freed inode pushed on
the free list is inode 1). -/
theorem rmdir_path_resolving_to_root_succeeds_cex :
    emptyNameMk.2 = .created ∧
    getInodeFromPath emptyNameMk.1 [47] = some 0 ∧
    rootSlashRm.2 = .removed ∧
    (readInode rootSlashRm.1 0).type = 1 ∧
    rootSlashRm.1.sb.firstFreeInode = 1 :=
  ⟨emptyNameMk_created, rootSlash_resolves_to_root, rootSlashRm_removed,
    rootSlashRm_root_alive.1, rootSlashRm_root_alive.2⟩

/-- `touch f 4294967295` on the fresh image. -/
def hugeTouch : FS × TouchResult := cmdTouch initFS [102] 4294967295

theorem hugeTouch_fast : hugeTouch = cmdTouch initFSfast [102] 4294967295 := by
  simp only [hugeTouch, initFS_eq_fast]

theorem hugeTouch_created : hugeTouch.2 = .created := by
  rw [hugeTouch_fast]
  decide

theorem hugeTouch_state :
    hugeTouch.1.sb.freeBlocks = 1014 ∧ (readInode hugeTouch.1 1).size =
      4294967295 := by
  rw [hugeTouch_fast]
  decide

/-- C4 counterexample: for the requested size 4294967295,
`⌈size / 1024⌉ = 4194304 ≥ 267`, so the claim demands a
`file-too-large` failure; but `cmdTouch` computes
`(size + 1023) / 1024` in 32-bit arithmetic, which wraps to 0, and the
creation succeeds (as a file of the full declared size with no data
blocks). -/
theorem touch_overflow_size_cex :
    266 < (4294967295 + (BLOCK_SIZE : Nat) - 1) / BLOCK_SIZE ∧
    (4294967295 + (BLOCK_SIZE : Nat) - 1) % U32MOD / BLOCK_SIZE = 0 ∧
    hugeTouch.2 = .created ∧
    (readInode hugeTouch.1 1).size = 4294967295 :=
  ⟨by decide, by decide, hugeTouch_created, hugeTouch_state.2⟩

/-- `touch /` (trailing-slash path, so the basename is empty) on the
fresh image. -/
def slashTouch : FS × TouchResult := cmdTouch initFS [47] 0

theorem slashTouch_fast : slashTouch = cmdTouch initFSfast [47] 0 := by
  simp only [slashTouch, initFS_eq_fast]

theorem slashTouch_created : slashTouch.2 = .created := by
  rw [slashTouch_fast]
  decide

theorem slashTouch_entry : readDirectoryEntries slashTouch.1 0 = [([], 1)] := by
  rw [slashTouch_fast]
  decide

theorem slashTouch_split :
    getParentInodeAndFilename initFS [47] = (some 0, []) := by
  rw [initFS_eq_fast]
  decide

/-- C8: `split_parent` does not report an error for an empty basename.
For the path `/` (a path ending in `/`), `getParentInodeAndFilename`
returns parent inode 0 with basename `""` — its return type has no error
case for this at all — and the subsequent `touch /` succeeds, adding a
directory entry whose name is the empty string to the root. -/
theorem empty_basename_creates_entry :
    getParentInodeAndFilename initFS [47] = (some 0, []) ∧
    slashTouch.2 = .created ∧
    readDirectoryEntries slashTouch.1 0 = [([], 1)] :=
  ⟨slashTouch_split, slashTouch_created, slashTouch_entry⟩

/-- `touch x 0` on the full-root image: the only failing step is
`addDirectoryEntry`, which installs the indirect block and then fails. -/
def fullRootTouch : FS × TouchResult := cmdTouch fullRootFS [120] 0

/-- C2 counterexample: a failing `cmdTouch` call after which the
superblock's free-block count does not equal its pre-call value.  On
`fullRootFS` (one free block, root's direct blocks full), `touch x 0`
fails in `addDirectoryEntry`, which consumed the last free block for the
root's new indirect block and did not release it; the free-block count
drops from 1 to 0 while the free-inode count is restored. -/
theorem touch_failure_block_count_cex :
    fullRootFS.sb.freeBlocks = 1 ∧
    fullRootTouch.2 = .addEntryFailed ∧
    fullRootTouch.1.sb.freeBlocks = 0 ∧
    fullRootTouch.1.sb.freeInodes = fullRootFS.sb.freeInodes ∧
    (readInode fullRootTouch.1 0).indirectBlock = 1000 := by
  decide

/-- `mkdir d` on the image whose root block is full, followed by
`rmdir d`. -/
def fullBlockMk : FS × MkdirResult := cmdMkdir fullBlockRootFS [100]

def fullBlockRm : FS × RmdirResult := cmdRmdir fullBlockMk.1 [100]

/-- C9 counterexample: `create-dir p; remove-dir p`, both succeeding,
after which the superblock is not bit-equal to the pre-state.  The
parent's existing directory block was full, so `add_entry` installed a
second root block (100... the new directory's entry block); `rmdir` frees
only the directory's own block and inode, leaving the free-block count
one lower (2 instead of 3). -/
theorem mkdir_rmdir_superblock_cex :
    fullBlockMk.2 = .created ∧ fullBlockRm.2 = .removed ∧
    fullBlockRootFS.sb.freeBlocks = 3 ∧
    fullBlockRm.1.sb.freeBlocks = 2 ∧
    fullBlockRm.1.sb ≠ fullBlockRootFS.sb := by
  decide

theorem mem_blockEntries_ne_zero (blk : Nat → Nat) (e : List Nat × Nat)
    (h : e ∈ blockEntries blk) : e.2 ≠ 0 := by
  rw [blockEntries] at h
  rcases List.mem_filterMap.mp h with ⟨j, _, hj⟩
  by_cases hz : entryIno blk j ≠ 0
  · rw [if_pos hz] at hj
    cases hj
    exact hz
  · rw [if_neg hz] at hj
    cases hj

theorem mem_readDirectoryEntries_ne_zero (fs : FS) (i : Nat)
    (e : List Nat × Nat) (h : e ∈ readDirectoryEntries fs i) : e.2 ≠ 0 := by
  rw [readDirectoryEntries] at h
  by_cases hty : (readInode fs i).type ≠ 1
  · rw [if_pos hty] at h
    cases h
  · rw [if_neg hty] at h
    rcases List.mem_append.mp h with h1 | h2
    · rcases List.mem_flatMap.mp h1 with ⟨b, _, hb⟩
      exact mem_blockEntries_ne_zero _ _ hb
    · by_cases hind : (readInode fs i).indirectBlock ≠ 0
      · rw [if_pos hind] at h2
        rcases List.mem_flatMap.mp h2 with ⟨b, _, hb⟩
        exact mem_blockEntries_ne_zero _ _ hb
      · rw [if_neg hind] at h2
        cases h2

theorem findDirectoryEntry_ne_zero (fs : FS) (d : Nat) (n : List Nat)
    (j : Nat) (h : findDirectoryEntry fs d n = some j) : j ≠ 0 := by
  rw [findDirectoryEntry] at h
  rcases Option.map_eq_some'.mp h with ⟨e, he, hj⟩
  subst hj
  exact mem_readDirectoryEntries_ne_zero fs d e (List.mem_of_find?_eq_some he)

theorem deallocRecordedLoop_sb_inodeSide (addr : Nat → Nat) :
    ∀ (is : List Nat) (fs : FS),
      (deallocRecordedLoop fs addr is).sb.firstFreeInode =
        fs.sb.firstFreeInode ∧
      (deallocRecordedLoop fs addr is).sb.freeInodes = fs.sb.freeInodes ∧
      (deallocRecordedLoop fs addr is).inodes = fs.inodes := by
  intro is
  induction is with
  | nil => exact fun fs => ⟨rfl, rfl, rfl⟩
  | cons i rest ih =>
    intro fs
    rw [deallocRecordedLoop]
    by_cases hz : addr i ≠ 0
    · rw [if_pos hz]
      obtain ⟨a1, a2, a3⟩ := ih (deallocateBlock fs (addr i))
      obtain ⟨b1, b2, b3, _⟩ := deallocateBlock_inodeSide fs (addr i)
      exact ⟨by rw [a1, b3], by rw [a2, b2], by rw [a3, b1]⟩
    · rw [if_neg hz]
      exact ih fs

theorem deallocChildrenChecked_sb_inodeSide (ind : Nat) :
    ∀ (is : List Nat) (fs : FS),
      (deallocChildrenChecked fs ind is).sb.firstFreeInode =
        fs.sb.firstFreeInode ∧
      (deallocChildrenChecked fs ind is).sb.freeInodes = fs.sb.freeInodes ∧
      (deallocChildrenChecked fs ind is).inodes = fs.inodes := by
  intro is
  induction is with
  | nil => exact fun fs => ⟨rfl, rfl, rfl⟩
  | cons i rest ih =>
    intro fs
    rw [deallocChildrenChecked]
    by_cases hz : readU32 (fs.blocks ind) (4 * i) ≠ 0
    · rw [if_pos hz]
      obtain ⟨a1, a2, a3⟩ := ih
        (deallocateBlock fs (readU32 (fs.blocks ind) (4 * i)))
      obtain ⟨b1, b2, b3, _⟩ :=
        deallocateBlock_inodeSide fs (readU32 (fs.blocks ind) (4 * i))
      exact ⟨by rw [a1, b3], by rw [a2, b2], by rw [a3, b1]⟩
    · rw [if_neg hz]
      exact ih fs

theorem tombstoneEntry_sb (fs : FS) (d : Nat) (ino : Inode) (b j : Nat) :
    (tombstoneEntry fs d ino b j).sb = fs.sb := by
  unfold tombstoneEntry
  exact (writeInode_parts _ _ _).1

theorem removeEntryDirectLoop_sb (d : Nat) (ino : Inode) (nm : List Nat) :
    ∀ (is : List Nat) (fs fs' : FS),
      removeEntryDirectLoop fs d ino nm is = some fs' → fs'.sb = fs.sb := by
  intro is
  induction is with
  | nil =>
    intro fs fs' h
    cases h
  | cons i rest ih =>
    intro fs fs' h
    rw [removeEntryDirectLoop] at h
    by_cases hz : ino.blockAddresses i = 0
    · rw [if_pos hz] at h
      exact ih fs fs' h
    · rw [if_neg hz] at h
      cases hf : findNamedSlot (fs.blocks (ino.blockAddresses i)) nm with
      | some j =>
        rw [hf] at h
        cases h
        exact tombstoneEntry_sb _ _ _ _ _
      | none =>
        rw [hf] at h
        exact ih fs fs' h

theorem removeEntryIndirectLoop_sb (d : Nat) (ino : Inode) (nm : List Nat) :
    ∀ (is : List Nat) (fs fs' : FS),
      removeEntryIndirectLoop fs d ino nm is = some fs' → fs'.sb = fs.sb := by
  intro is
  induction is with
  | nil =>
    intro fs fs' h
    cases h
  | cons i rest ih =>
    intro fs fs' h
    rw [removeEntryIndirectLoop] at h
    by_cases hz : readU32 (fs.blocks ino.indirectBlock) (4 * i) = 0
    · rw [if_pos hz] at h
      exact ih fs fs' h
    · rw [if_neg hz] at h
      dsimp only at h
      cases hf : findNamedSlot
          (fs.blocks (readU32 (fs.blocks ino.indirectBlock) (4 * i))) nm with
      | some j =>
        rw [hf] at h
        cases h
        exact tombstoneEntry_sb _ _ _ _ _
      | none =>
        rw [hf] at h
        exact ih fs fs' h

theorem removeDirectoryEntry_sb (fs : FS) (d : Nat) (nm : List Nat) :
    (removeDirectoryEntry fs d nm).1.sb = fs.sb := by
  rw [removeDirectoryEntry]
  by_cases hty : (readInode fs d).type ≠ 1
  · rw [if_pos hty]
  · rw [if_neg hty]
    cases hd : removeEntryDirectLoop fs d (readInode fs d) nm
        (List.range DIRECT_BLOCKS) with
    | some fs' => exact removeEntryDirectLoop_sb _ _ _ _ _ _ hd
    | none =>
      by_cases hind : (readInode fs d).indirectBlock ≠ 0
      · rw [if_pos hind]
        cases hi : removeEntryIndirectLoop fs d (readInode fs d) nm
            (List.range 256) with
        | some fs' => exact removeEntryIndirectLoop_sb _ _ _ _ _ _ hi
        | none => rfl
      · rw [if_neg hind]

/-- C3 amended: `remove-dir` never deallocates inode 0 (the root).  The
child lookup of `cmdRmdir` goes through `findDirectoryEntry`, which only
returns inode numbers of visible entries, all nonzero — so no path can
name the root itself as the child to remove (the root's own `.` and `..`
entries are stored with inode number 0 and are invisible, so `rmdir /.`
fails with not-found).  Whenever `cmdRmdir` succeeds, the inode pushed
onto the free-inode list is the nonzero child inode, never inode 0.  (A
path that resolves to inode 0, such as `/`, may still succeed by removing
a visible empty-named entry — see the counterexample — but the root is
untouched even then.) -/
theorem rmdir_never_deallocates_root (fs : FS) (p : List Nat)
    (h : (cmdRmdir fs p).2 = .removed) :
    (cmdRmdir fs p).1.sb.firstFreeInode ≠ 0 ∧
    ∀ d n j, findDirectoryEntry fs d n = some j → j ≠ 0 := by
  refine ⟨?_, fun d n j hj => findDirectoryEntry_ne_zero fs d n j hj⟩
  rcases hP : getParentInodeAndFilename fs p with ⟨op, nm⟩
  cases op with
  | none =>
    exfalso
    simp only [cmdRmdir, hP] at h
    exact absurd h (by decide)
  | some parentInode =>
    cases hF : findDirectoryEntry fs parentInode nm with
    | none =>
      exfalso
      simp only [cmdRmdir, hP, hF] at h
      exact absurd h (by decide)
    | some dirInode =>
      have hne := findDirectoryEntry_ne_zero fs parentInode nm dirInode hF
      by_cases hty : (readInode fs dirInode).type = 1
      · have hty' : ¬(readInode fs dirInode).type ≠ 1 := not_not_intro hty
        have hd : dirInode < MAX_INODES := by
          by_contra hge
          have : readInode fs dirInode = zeroInode := by
            unfold readInode
            rw [if_pos (by omega)]
          rw [this] at hty
          exact absurd hty (by decide)
        by_cases hcnt : 2 < (readDirectoryEntries fs dirInode).length
        · exfalso
          simp only [cmdRmdir, hP, hF, if_neg hty', if_pos hcnt] at h
          exact absurd h (by decide)
        · by_cases hrr : (removeDirectoryEntry fs parentInode nm).2
          · have hrr' : ¬¬(removeDirectoryEntry fs parentInode nm).2 :=
              not_not_intro hrr
            simp only [cmdRmdir, hP, hF, if_neg hty', if_neg hcnt,
              if_neg hrr']
            set fs3 :=
              (if (readInode fs dirInode).indirectBlock ≠ 0 then
                deallocateBlock
                  (deallocChildrenChecked
                    (deallocRecordedLoop (removeDirectoryEntry fs
                      parentInode nm).1
                      (readInode fs dirInode).blockAddresses
                      (List.range DIRECT_BLOCKS))
                    (readInode fs dirInode).indirectBlock (List.range 256))
                  (readInode fs dirInode).indirectBlock
              else
                deallocRecordedLoop (removeDirectoryEntry fs parentInode
                  nm).1
                  (readInode fs dirInode).blockAddresses
                  (List.range DIRECT_BLOCKS)) with hfs3
            rw [deallocateInode_in_range fs3 dirInode hd]
            exact hne
          · exfalso
            simp only [cmdRmdir, hP, hF, if_neg hty', if_neg hcnt,
              if_pos hrr] at h
            exact absurd h (by decide)
      · exfalso
        simp only [cmdRmdir, hP, hF,
          if_pos (by exact hty : (readInode fs dirInode).type ≠ 1)] at h
        exact absurd h (by decide)

theorem rmdir_never_deallocates_root_witness :
    (cmdRmdir (cmdMkdir initFS [97]).1 [97]).2 = .removed ∧
    (cmdRmdir (cmdMkdir initFS [97]).1 [97]).1.sb.firstFreeInode ≠ 0 := by
  have hr : (cmdRmdir (cmdMkdir initFS [97]).1 [97]).2 = .removed := by
    rw [initFS_eq_fast]
    decide
  exact ⟨hr,
    (rmdir_never_deallocates_root (cmdMkdir initFS [97]).1 [97] hr).1⟩

theorem touch266_created : (cmdTouch touch266FS [102] 272384).2 = .created := by
  decide

/-- C4 amended: with `blocks_needed` computed as the code computes it —
`((size mod 2^32) + 1023) mod 2^32, divided by 1024` — a request needing
266 blocks succeeds given enough free blocks and a free inode (shown at a
state with exactly 267 free blocks), and every request whose computed
`blocks_needed` exceeds 266 fails with `file-too-large`, leaving the
state unchanged.  Because of the 32-bit wrap-around, sizes of
4294966273 bytes and above compute `blocks_needed = 0` and succeed
instead of failing (see the counterexample). -/
theorem touch_blocks_needed_boundary :
    ((cmdTouch touch266FS [102] 272384).2 = .created ∧
      (272384 + BLOCK_SIZE - 1) / BLOCK_SIZE = 266) ∧
    ∀ (fs : FS) (f : List Nat) (sz d : Nat) (nm : List Nat),
      getParentInodeAndFilename fs f = (some d, nm) →
      findDirectoryEntry fs d nm = none →
      DIRECT_BLOCKS + BLOCK_SIZE / 4 <
        (sz % U32MOD + BLOCK_SIZE - 1) % U32MOD / BLOCK_SIZE →
      cmdTouch fs f sz = (fs, .tooLarge) := by
  refine ⟨⟨touch266_created, by decide⟩, ?_⟩
  intro fs f sz d nm h1 h2 h3
  have h2' : (findDirectoryEntry fs d nm).isSome = false := by
    rw [h2]
    rfl
  simp only [cmdTouch, h1, h2', Bool.false_eq_true, if_pos h3]
  simp

theorem touch_blocks_needed_boundary_witness :
    getParentInodeAndFilename touch266FS [103] = (some 0, [103]) ∧
    findDirectoryEntry touch266FS 0 [103] = none ∧
    DIRECT_BLOCKS + BLOCK_SIZE / 4 <
      (272385 % U32MOD + BLOCK_SIZE - 1) % U32MOD / BLOCK_SIZE ∧
    cmdTouch touch266FS [103] 272385 = (touch266FS, .tooLarge) :=
  ⟨by decide, by decide, by decide,
    touch_blocks_needed_boundary.2 touch266FS [103] 272385 0 [103]
      (by decide) (by decide) (by decide)⟩

/-! ### Dump (cat) against the spec's description -/

/-- Read `k` blocks through `addr` in index order, emitting
`min remaining BLOCK_SIZE` bytes of each and stopping when no bytes
remain. -/
def clipRead (fs : FS) (addr : Nat → Nat) : Nat → Nat → List Nat
  | 0, _ => []
  | k + 1, r =>
    if r = 0 then []
    else
      (List.range (min r BLOCK_SIZE)).map (fun o => fs.blocks (addr 0) o) ++
        clipRead fs (fun t => addr (t + 1)) k (r - min r BLOCK_SIZE)

/-- Modelled from the spec (§4.8 dump): emit exactly `size` bytes,
reading direct blocks in index order then indirect children in index
order, with the last block clipped to the remaining-byte count.  This is
the refinement target that `cmdCat` is compared against. -/
def dumpSpecBytes (fs : FS) (i : Nat) : List Nat :=
  let ino := readInode fs i
  clipRead fs
    (fun t =>
      if t < DIRECT_BLOCKS then ino.blockAddresses t
      else readU32 (fs.blocks ino.indirectBlock) (4 * (t - DIRECT_BLOCKS)))
    (DIRECT_BLOCKS + BLOCK_SIZE / 4) ino.size

/-- Every block address the file actually uses is nonzero and the size
fits the 266-block addressing limit.  Files created with a non-wrapping
requested size satisfy this (creation allocates all `blocks_needed`
blocks), but a file created through the 32-bit wrap-around of
`blocks_needed` does not: its declared size is huge while no block was
allocated. -/
def fileBlocksOk (fs : FS) (i : Nat) : Prop :=
  (readInode fs i).size ≤ (DIRECT_BLOCKS + BLOCK_SIZE / 4) * BLOCK_SIZE ∧
  (∀ t, t < DIRECT_BLOCKS → BLOCK_SIZE * t < (readInode fs i).size →
    (readInode fs i).blockAddresses t ≠ 0) ∧
  (DIRECT_BLOCKS * BLOCK_SIZE < (readInode fs i).size →
    (readInode fs i).indirectBlock ≠ 0 ∧
    ∀ t, t < BLOCK_SIZE / 4 →
      BLOCK_SIZE * t < (readInode fs i).size - DIRECT_BLOCKS * BLOCK_SIZE →
      readU32 (fs.blocks (readInode fs i).indirectBlock) (4 * t) ≠ 0)

theorem clipRead_rem_zero (fs : FS) (addr : Nat → Nat) (k : Nat) :
    clipRead fs addr k 0 = [] := by
  cases k with
  | zero => rfl
  | succ m => rw [clipRead, if_pos rfl]

theorem clipRead_length (fs : FS) :
    ∀ (k : Nat) (addr : Nat → Nat) (r : Nat),
      (clipRead fs addr k r).length = min r (BLOCK_SIZE * k) := by
  intro k
  induction k with
  | zero =>
    intro addr r
    simp [clipRead]
  | succ m ih =>
    intro addr r
    rw [clipRead]
    by_cases hr : r = 0
    · subst hr
      simp
    · rw [if_neg hr]
      rw [List.length_append, List.length_map, List.length_range, ih]
      have hB : BLOCK_SIZE = 1024 := rfl
      rw [hB] at *
      omega

theorem clipRead_congr (fs : FS) :
    ∀ (k : Nat) (addr addr' : Nat → Nat) (r : Nat),
      (∀ t, t < k → addr t = addr' t) →
      clipRead fs addr k r = clipRead fs addr' k r := by
  intro k
  induction k with
  | zero => intro addr addr' r _; rfl
  | succ m ih =>
    intro addr addr' r hag
    rw [clipRead, clipRead]
    by_cases hr : r = 0
    · rw [if_pos hr, if_pos hr]
    · rw [if_neg hr, if_neg hr, hag 0 (by omega),
        ih (fun t => addr (t + 1)) (fun t => addr' (t + 1)) _
          (fun t ht => hag (t + 1) (by omega))]

theorem clipRead_append (fs : FS) :
    ∀ (k1 : Nat) (addr : Nat → Nat) (k2 r : Nat),
      clipRead fs addr (k1 + k2) r =
        clipRead fs addr k1 r ++
          clipRead fs (fun t => addr (t + k1)) k2
            (r - min r (BLOCK_SIZE * k1)) := by
  intro k1
  induction k1 with
  | zero =>
    intro addr k2 r
    rw [Nat.zero_add,
      clipRead_congr fs k2 addr (fun t => addr (t + 0)) r (fun t _ => by simp)]
    have h0 : clipRead fs addr 0 r = [] := rfl
    rw [h0, List.nil_append, Nat.mul_zero, Nat.min_zero, Nat.sub_zero]
  | succ m ih =>
    intro addr k2 r
    by_cases hr : r = 0
    · subst hr
      rw [clipRead_rem_zero, clipRead_rem_zero]
      simp [clipRead_rem_zero]
    · have hstep : m + 1 + k2 = (m + k2) + 1 := by omega
      rw [hstep, clipRead, if_neg hr, clipRead, if_neg hr, ih]
      rw [List.append_assoc]
      have harith : r - min r BLOCK_SIZE - min (r - min r BLOCK_SIZE)
          (BLOCK_SIZE * m) = r - min r (BLOCK_SIZE * (m + 1)) := by
        have hB : (BLOCK_SIZE : Nat) = 1024 := rfl
        rw [hB]
        omega
      rw [harith]
      rfl

theorem catDirectLoop_eq (fs : FS) (ino : Inode) :
    ∀ (k a r : Nat),
      (∀ t, t < k → BLOCK_SIZE * t < r → ino.blockAddresses (a + t) ≠ 0) →
      catDirectLoop fs ino (List.range' a k) r =
        (clipRead fs (fun t => ino.blockAddresses (a + t)) k r,
          r - min r (BLOCK_SIZE * k)) := by
  intro k
  induction k with
  | zero =>
    intro a r _
    simp [List.range', catDirectLoop, clipRead]
  | succ m ih =>
    intro a r hnz
    rw [List.range'_succ, catDirectLoop]
    by_cases hr : r = 0
    · subst hr
      rw [if_pos rfl, clipRead_rem_zero]
      simp
    · rw [if_neg hr]
      have ha0 : ino.blockAddresses a ≠ 0 := by
        have := hnz 0 (by omega) (by
          have hB : (BLOCK_SIZE : Nat) = 1024 := rfl
          rw [hB]
          omega)
        rwa [Nat.add_zero] at this
      rw [if_neg ha0]
      dsimp only
      have hnz' : ∀ t, t < m → BLOCK_SIZE * t < r - min r BLOCK_SIZE →
          ino.blockAddresses (a + 1 + t) ≠ 0 := by
        intro t ht hlt
        have hB : (BLOCK_SIZE : Nat) = 1024 := rfl
        rw [hB] at hlt
        have h2 : BLOCK_SIZE * (t + 1) < r := by
          rw [hB]
          omega
        have h3 := hnz (t + 1) (by omega) h2
        rwa [show a + (t + 1) = a + 1 + t by omega] at h3
      rw [ih (a + 1) (r - min r BLOCK_SIZE) hnz']
      have hsh : (fun t => ino.blockAddresses (a + 1 + t)) =
          fun t => ino.blockAddresses (a + (t + 1)) := by
        funext t
        rw [show a + 1 + t = a + (t + 1) by omega]
      rw [hsh]
      have harith : r - min r BLOCK_SIZE -
          min (r - min r BLOCK_SIZE) (BLOCK_SIZE * m) =
            r - min r (BLOCK_SIZE * (m + 1)) := by
        have hB : (BLOCK_SIZE : Nat) = 1024 := rfl
        rw [hB]
        omega
      rw [harith]
      conv_rhs => rw [clipRead, if_neg hr]
      rfl

theorem catIndirectLoop_eq (fs : FS) (ind : Nat) :
    ∀ (k a r : Nat),
      (∀ t, t < k → BLOCK_SIZE * t < r →
        readU32 (fs.blocks ind) (4 * (a + t)) ≠ 0) →
      catIndirectLoop fs ind (List.range' a k) r =
        (clipRead fs (fun t => readU32 (fs.blocks ind) (4 * (a + t))) k r,
          r - min r (BLOCK_SIZE * k)) := by
  intro k
  induction k with
  | zero =>
    intro a r _
    simp [List.range', catIndirectLoop, clipRead]
  | succ m ih =>
    intro a r hnz
    rw [List.range'_succ, catIndirectLoop]
    by_cases hr : r = 0
    · subst hr
      rw [if_pos rfl, clipRead_rem_zero]
      simp
    · rw [if_neg hr]
      have ha0 : readU32 (fs.blocks ind) (4 * a) ≠ 0 := by
        have := hnz 0 (by omega) (by
          have hB : (BLOCK_SIZE : Nat) = 1024 := rfl
          rw [hB]
          omega)
        rwa [Nat.add_zero] at this
      rw [if_neg ha0]
      dsimp only
      have hnz' : ∀ t, t < m → BLOCK_SIZE * t < r - min r BLOCK_SIZE →
          readU32 (fs.blocks ind) (4 * (a + 1 + t)) ≠ 0 := by
        intro t ht hlt
        have hB : (BLOCK_SIZE : Nat) = 1024 := rfl
        rw [hB] at hlt
        have h2 : BLOCK_SIZE * (t + 1) < r := by
          rw [hB]
          omega
        have h3 := hnz (t + 1) (by omega) h2
        rwa [show a + (t + 1) = a + 1 + t by omega] at h3
      rw [ih (a + 1) (r - min r BLOCK_SIZE) hnz']
      have hsh : (fun t => readU32 (fs.blocks ind) (4 * (a + 1 + t))) =
          fun t => readU32 (fs.blocks ind) (4 * (a + (t + 1))) := by
        funext t
        rw [show a + 1 + t = a + (t + 1) by omega]
      rw [hsh]
      have harith : r - min r BLOCK_SIZE -
          min (r - min r BLOCK_SIZE) (BLOCK_SIZE * m) =
            r - min r (BLOCK_SIZE * (m + 1)) := by
        have hB : (BLOCK_SIZE : Nat) = 1024 := rfl
        rw [hB]
        omega
      rw [harith]
      conv_rhs => rw [clipRead, if_neg hr]
      rfl

/-- `dumpSpecBytes` splits into the direct-block prefix and the
indirect-children suffix, each rephrased over the address functions the
`cmdCat` loops use. -/
theorem dumpSpecBytes_split (fs : FS) (i : Nat) :
    dumpSpecBytes fs i =
      clipRead fs (fun t => (readInode fs i).blockAddresses (0 + t))
        DIRECT_BLOCKS (readInode fs i).size ++
      clipRead fs
        (fun t => readU32 (fs.blocks (readInode fs i).indirectBlock)
          (4 * (0 + t))) 256
        ((readInode fs i).size -
          min (readInode fs i).size (BLOCK_SIZE * DIRECT_BLOCKS)) := by
  rw [dumpSpecBytes]
  rw [show BLOCK_SIZE / 4 = 256 from rfl]
  rw [clipRead_append fs DIRECT_BLOCKS _ 256 _]
  have e1 : clipRead fs
      (fun t =>
        if t < DIRECT_BLOCKS then (readInode fs i).blockAddresses t
        else readU32 (fs.blocks (readInode fs i).indirectBlock)
          (4 * (t - DIRECT_BLOCKS)))
      DIRECT_BLOCKS (readInode fs i).size =
      clipRead fs (fun t => (readInode fs i).blockAddresses (0 + t))
        DIRECT_BLOCKS (readInode fs i).size :=
    clipRead_congr fs DIRECT_BLOCKS _ _ _
      (fun t ht => by rw [if_pos ht, Nat.zero_add])
  have e2 : clipRead fs
      (fun t =>
        if t + DIRECT_BLOCKS < DIRECT_BLOCKS then
          (readInode fs i).blockAddresses (t + DIRECT_BLOCKS)
        else readU32 (fs.blocks (readInode fs i).indirectBlock)
          (4 * (t + DIRECT_BLOCKS - DIRECT_BLOCKS)))
      256 ((readInode fs i).size -
        min (readInode fs i).size (BLOCK_SIZE * DIRECT_BLOCKS)) =
      clipRead fs
        (fun t => readU32 (fs.blocks (readInode fs i).indirectBlock)
          (4 * (0 + t))) 256
        ((readInode fs i).size -
          min (readInode fs i).size (BLOCK_SIZE * DIRECT_BLOCKS)) :=
    clipRead_congr fs 256 _ _ _
      (fun t ht => by
        rw [if_neg (Nat.not_lt.mpr (Nat.le_add_left _ _)),
          Nat.add_sub_cancel, Nat.zero_add])
  rw [e1, e2]

/-- C7 amended: for every file inode reached by path lookup whose in-use
block addresses are all nonzero and whose size fits the addressing limit
(`fileBlocksOk`), `cmdCat` succeeds and its output is exactly the byte
sequence of the spec's dump description - direct blocks in index order,
then indirect children in index order, the last block clipped to the
remaining-byte count - and in particular it emits exactly `size` bytes.
The restriction is necessary: the original for-every-file claim fails on
the reachable wrap-size file (see `cat_wrap_size_emits_zero_cex`), whose
size field is 4294967295 while cat emits no bytes at all. -/
theorem cat_emits_exact_size (fs : FS) (p : List Nat) (i : Nat)
    (hp : getInodeFromPath fs p = some i)
    (htype : (readInode fs i).type = 0)
    (hok : fileBlocksOk fs i) :
    cmdCat fs p = some (dumpSpecBytes fs i) ∧
      (dumpSpecBytes fs i).length = (readInode fs i).size := by
  obtain ⟨hsz, hdir, hind⟩ := hok
  have hDq : catDirectLoop fs (readInode fs i) (List.range DIRECT_BLOCKS)
      (readInode fs i).size =
      (clipRead fs (fun t => (readInode fs i).blockAddresses (0 + t))
        DIRECT_BLOCKS (readInode fs i).size,
       (readInode fs i).size -
         min (readInode fs i).size (BLOCK_SIZE * DIRECT_BLOCKS)) := by
    rw [List.range_eq_range']
    exact catDirectLoop_eq fs (readInode fs i) DIRECT_BLOCKS 0
      (readInode fs i).size
      (fun t ht hlt => by rw [Nat.zero_add]; exact hdir t ht hlt)
  constructor
  · simp only [cmdCat, hp]
    rw [if_neg (fun h => h htype)]
    rw [hDq]
    dsimp only
    by_cases hbig : DIRECT_BLOCKS * BLOCK_SIZE < (readInode fs i).size
    · obtain ⟨hindnz, hchild⟩ := hind hbig
      have hne : (readInode fs i).size -
          min (readInode fs i).size (BLOCK_SIZE * DIRECT_BLOCKS) ≠ 0 := by
        have e1 : BLOCK_SIZE * DIRECT_BLOCKS = 10240 := rfl
        have e2 : DIRECT_BLOCKS * BLOCK_SIZE = 10240 := rfl
        rw [e1]
        rw [e2] at hbig
        omega
      have hIq : catIndirectLoop fs (readInode fs i).indirectBlock
          (List.range 256)
          ((readInode fs i).size -
            min (readInode fs i).size (BLOCK_SIZE * DIRECT_BLOCKS)) =
          (clipRead fs
            (fun t => readU32 (fs.blocks (readInode fs i).indirectBlock)
              (4 * (0 + t))) 256
            ((readInode fs i).size -
              min (readInode fs i).size (BLOCK_SIZE * DIRECT_BLOCKS)),
           (readInode fs i).size -
              min (readInode fs i).size (BLOCK_SIZE * DIRECT_BLOCKS) -
             min ((readInode fs i).size -
                min (readInode fs i).size (BLOCK_SIZE * DIRECT_BLOCKS))
               (BLOCK_SIZE * 256)) := by
        rw [List.range_eq_range']
        refine catIndirectLoop_eq fs (readInode fs i).indirectBlock 256 0 _
          (fun t ht hlt => ?_)
        rw [Nat.zero_add]
        refine hchild t (by rw [show BLOCK_SIZE / 4 = 256 from rfl]; exact ht)
          ?_
        have e1 : BLOCK_SIZE * DIRECT_BLOCKS = 10240 := rfl
        have e2 : DIRECT_BLOCKS * BLOCK_SIZE = 10240 := rfl
        rw [e2]
        rw [e1] at hlt
        omega
      rw [if_pos ⟨hindnz, hne⟩, hIq]
      dsimp only
      rw [dumpSpecBytes_split fs i]
    · have hr0 : (readInode fs i).size -
          min (readInode fs i).size (BLOCK_SIZE * DIRECT_BLOCKS) = 0 := by
        have e1 : BLOCK_SIZE * DIRECT_BLOCKS = 10240 := rfl
        have e2 : DIRECT_BLOCKS * BLOCK_SIZE = 10240 := rfl
        rw [e1]
        rw [e2] at hbig
        omega
      rw [if_neg (fun hc => hc.2 hr0), List.append_nil]
      rw [dumpSpecBytes_split fs i, hr0, clipRead_rem_zero, List.append_nil]
  · rw [dumpSpecBytes]
    rw [clipRead_length]
    have h1 : BLOCK_SIZE * (DIRECT_BLOCKS + BLOCK_SIZE / 4) = 272384 := rfl
    have h2 : (DIRECT_BLOCKS + BLOCK_SIZE / 4) * BLOCK_SIZE = 272384 := rfl
    rw [h1]
    rw [h2] at hsz
    omega

/-- Witness for `cat_emits_exact_size`: on the image holding the
1030-byte file `f` at inode 1, the hypotheses hold concretely and cat
emits exactly 1030 bytes matching the dump description. -/
theorem cat_emits_exact_size_witness :
    getInodeFromPath catFS [102] = some 1 ∧
    (readInode catFS 1).type = 0 ∧
    fileBlocksOk catFS 1 ∧
    (cmdCat catFS [102] = some (dumpSpecBytes catFS 1) ∧
      (dumpSpecBytes catFS 1).length = (readInode catFS 1).size) :=
  ⟨by decide, by decide, ⟨by decide, by decide, by decide⟩,
    cat_emits_exact_size catFS [102] 1 (by decide) (by decide)
      ⟨by decide, by decide, by decide⟩⟩

theorem hugeCatPath : getInodeFromPath hugeTouch.1 [102] = some 1 := by
  rw [hugeTouch_fast]
  decide

theorem hugeCatType : (readInode hugeTouch.1 1).type = 0 := by
  rw [hugeTouch_fast]
  decide

theorem hugeCatOut : cmdCat hugeTouch.1 [102] = some [] := by
  rw [hugeTouch_fast]
  decide

/-- C7 counterexample: the claim quantifies over every file inode, but
the file created by `touch f 4294967295` on the fresh image (reachable
because `blocks_needed` wraps to 0 in 32-bit arithmetic) has declared
size 4294967295 and no data blocks; `cmdCat` skips its ten zero direct
addresses without consuming the remaining count, finds no indirect
block, and emits the empty byte sequence - 0 bytes, not `size` bytes. -/
theorem cat_wrap_size_emits_zero_cex :
    hugeTouch.2 = TouchResult.created ∧
    getInodeFromPath hugeTouch.1 [102] = some 1 ∧
    (readInode hugeTouch.1 1).type = 0 ∧
    (readInode hugeTouch.1 1).size = 4294967295 ∧
    cmdCat hugeTouch.1 [102] = some [] :=
  ⟨hugeTouch_created, hugeCatPath, hugeCatType, hugeTouch_state.2,
    hugeCatOut⟩

/-! ### Free-block-chain well-formedness

`cmdTouch`'s failure accounting depends on every block handed out by
`allocateBlock` lying in the deallocatable range `[FIRST_DATA_BLOCK,
TOTAL_BLOCKS)` and on distinct allocations returning distinct blocks,
which in turn holds when the free list spells out a duplicate-free
in-range chain. -/

/-- The free list starting at `head` spells out exactly the blocks of
`l`: each element links to the next through the 4-byte integer at offset
0, and the last link is 0. -/
def isChain (blocks : Nat → Nat → Nat) : Nat → List Nat → Bool
  | h, [] => h == 0
  | h, b :: t => h == b && isChain blocks (readU32 (blocks b) 0) t

/-- Well-formed free-block list: the chain from the superblock head
spells out `l`, the free-block count matches, and the members are
distinct blocks in the deallocatable range. -/
def chainOk (fs : FS) (l : List Nat) : Prop :=
  isChain fs.blocks fs.sb.firstFreeBlock l = true ∧
  fs.sb.freeBlocks = l.length ∧
  l.Nodup ∧
  ∀ b ∈ l, FIRST_DATA_BLOCK ≤ b ∧ b < TOTAL_BLOCKS

theorem isChain_frame :
    ∀ (l : List Nat) (blocks blocks' : Nat → Nat → Nat) (h : Nat),
      (∀ b ∈ l, readU32 (blocks' b) 0 = readU32 (blocks b) 0) →
      isChain blocks h l = true → isChain blocks' h l = true := by
  intro l
  induction l with
  | nil => intro _ _ _ _ hc; exact hc
  | cons b t ih =>
    intro blocks blocks' h hag hc
    rw [isChain, Bool.and_eq_true] at hc ⊢
    refine ⟨hc.1, ?_⟩
    rw [hag b (by simp)]
    exact ih blocks blocks' _ (fun c hcm => hag c (by simp [hcm])) hc.2

theorem chainOk_congr (fs fs' : FS) (l : List Nat)
    (hb : fs'.blocks = fs.blocks)
    (hh : fs'.sb.firstFreeBlock = fs.sb.firstFreeBlock)
    (hf : fs'.sb.freeBlocks = fs.sb.freeBlocks)
    (hc : chainOk fs l) : chainOk fs' l :=
  ⟨by rw [hb, hh]; exact hc.1, by rw [hf]; exact hc.2.1, hc.2.2.1, hc.2.2.2⟩

theorem chainOk_setBlk (fs : FS) (l : List Nat) (c : Nat) (f : Nat → Nat)
    (hc : chainOk fs l) (hnm : c ∉ l) :
    chainOk { fs with blocks := setBlk fs.blocks c f } l := by
  obtain ⟨h1, h2, h3, h4⟩ := hc
  refine ⟨?_, h2, h3, h4⟩
  exact isChain_frame l fs.blocks _ _
    (fun b hb => by
      show readU32 (setBlk fs.blocks c f b) 0 = readU32 (fs.blocks b) 0
      rw [setBlk_other _ _ _ _ (fun he => hnm (by rw [← he]; exact hb))]) h1

theorem chainOk_head (fs : FS) (l : List Nat) (hc : chainOk fs l) :
    fs.sb.firstFreeBlock = 0 ∨ fs.sb.firstFreeBlock ∈ l := by
  cases l with
  | nil =>
    left
    have h := hc.1
    rw [isChain, beq_iff_eq] at h
    exact h
  | cons b t =>
    right
    have h := hc.1
    rw [isChain, Bool.and_eq_true, beq_iff_eq] at h
    rw [h.1]
    exact List.mem_cons_self b t

theorem take_drop_ne (l : List Nat) (n : Nat) (hnd : l.Nodup)
    (a b : Nat) (ha : a ∈ l.take n) (hb : b ∈ l.drop n) : a ≠ b := by
  intro he
  subst he
  rw [← List.take_append_drop n l, List.nodup_append] at hnd
  exact hnd.2.2 ha hb

/-- Popping the head of a well-formed chain: `allocateBlock` returns the
head, zero-fills it, decrements the count, and leaves a well-formed chain
spelling the tail. -/
theorem allocateBlock_chain (fs : FS) (b : Nat) (t : List Nat)
    (hc : chainOk fs (b :: t)) :
    (allocateBlock fs).1 = b ∧
    (allocateBlock fs).2 =
      { fs with
        sb := { fs.sb with
                firstFreeBlock := readU32 (fs.blocks b) 0
                freeBlocks := fs.sb.freeBlocks - 1 }
        blocks := setBlk fs.blocks b zeroBlock } ∧
    chainOk (allocateBlock fs).2 t := by
  obtain ⟨hch, hlen, hnd, hrg⟩ := hc
  rw [isChain, Bool.and_eq_true, beq_iff_eq] at hch
  obtain ⟨hhb, hch2⟩ := hch
  have hbr := hrg b (List.mem_cons_self b t)
  have h9 : (FIRST_DATA_BLOCK : Nat) = 9 := rfl
  have hne : ¬ (fs.sb.freeBlocks = 0 ∨ fs.sb.firstFreeBlock = 0) := by
    push_neg
    refine ⟨by rw [hlen]; simp, ?_⟩
    rw [hhb]
    omega
  have hlt : ¬ (TOTAL_BLOCKS ≤ fs.sb.firstFreeBlock) := by
    rw [hhb]
    exact Nat.not_le.mpr hbr.2
  have e1 : (allocateBlock fs).1 = b := by
    simp only [allocateBlock, if_neg hne, if_neg hlt]
    exact hhb
  have e2 : (allocateBlock fs).2 =
      { fs with
        sb := { fs.sb with
                firstFreeBlock := readU32 (fs.blocks b) 0
                freeBlocks := fs.sb.freeBlocks - 1 }
        blocks := setBlk fs.blocks b zeroBlock } := by
    simp only [allocateBlock, if_neg hne, if_neg hlt]
    rw [hhb]
  refine ⟨e1, e2, ?_⟩
  rw [e2]
  have hbnt : b ∉ t := (List.nodup_cons.mp hnd).1
  refine ⟨?_, by rw [hlen]; simp, (List.nodup_cons.mp hnd).2,
    fun c hcm => hrg c (List.mem_cons_of_mem b hcm)⟩
  exact isChain_frame t fs.blocks _ _
    (fun c hcm => by
      show readU32 (setBlk fs.blocks b zeroBlock c) 0 = readU32 (fs.blocks c) 0
      rw [setBlk_other _ _ _ _ (fun he => hbnt (by rw [← he]; exact hcm))])
    hch2

/-- Under a well-formed chain long enough for all requested indices, the
direct-allocation loop of `cmdTouch` succeeds, consuming exactly a prefix
of the chain: the flag is false, the chain invariant survives on the
dropped suffix, the inode side is untouched, and the recorded addresses
at the requested indices are members of the consumed prefix. -/
theorem touchAllocDirectLoop_ok :
    ∀ (idxs : List Nat) (fs : FS) (ino : Inode) (l : List Nat),
      chainOk fs l → idxs.length ≤ l.length → idxs.Nodup →
      (touchAllocDirectLoop fs ino idxs).2.2 = false ∧
      chainOk (touchAllocDirectLoop fs ino idxs).1 (l.drop idxs.length) ∧
      (touchAllocDirectLoop fs ino idxs).1.inodes = fs.inodes ∧
      (touchAllocDirectLoop fs ino idxs).1.sb.freeInodes =
        fs.sb.freeInodes ∧
      (touchAllocDirectLoop fs ino idxs).1.sb.firstFreeInode =
        fs.sb.firstFreeInode ∧
      (touchAllocDirectLoop fs ino idxs).1.clock = fs.clock ∧
      (∀ j, j ∉ idxs →
        (touchAllocDirectLoop fs ino idxs).2.1.blockAddresses j =
          ino.blockAddresses j) ∧
      (∀ j ∈ idxs,
        (touchAllocDirectLoop fs ino idxs).2.1.blockAddresses j ∈
          l.take idxs.length) ∧
      (touchAllocDirectLoop fs ino idxs).2.1.indirectBlock =
        ino.indirectBlock := by
  intro idxs
  induction idxs with
  | nil =>
    intro fs ino l hc _ _
    exact ⟨rfl, hc, rfl, rfl, rfl, rfl, fun j _ => rfl,
      fun j hj => absurd hj (List.not_mem_nil j), rfl⟩
  | cons i rest ih =>
    intro fs ino l hc hlen hnd
    cases l with
    | nil => simp at hlen
    | cons b t =>
      obtain ⟨e1, e2, hc'⟩ := allocateBlock_chain fs b t hc
      have hbr := hc.2.2.2 b (List.mem_cons_self b t)
      have h9 : (FIRST_DATA_BLOCK : Nat) = 9 := rfl
      have hne : (allocateBlock fs).1 ≠ 0 := by
        rw [e1]
        omega
      have estep : touchAllocDirectLoop fs ino (i :: rest) =
          touchAllocDirectLoop (allocateBlock fs).2
            { ino with
              blockAddresses :=
                setAddr ino.blockAddresses i (allocateBlock fs).1 }
            rest := by
        rw [touchAllocDirectLoop]
        rw [if_neg hne]
      have hlen' : rest.length ≤ t.length := by
        simp only [List.length_cons] at hlen
        omega
      have hint : i ∉ rest := (List.nodup_cons.mp hnd).1
      have hnd' : rest.Nodup := (List.nodup_cons.mp hnd).2
      obtain ⟨g1, g2, g3, g4, g5, g6, g7, g8, g9⟩ :=
        ih (allocateBlock fs).2
          { ino with
            blockAddresses :=
              setAddr ino.blockAddresses i (allocateBlock fs).1 }
          t hc' hlen' hnd'
      rw [estep]
      refine ⟨g1, g2, ?_, ?_, ?_, ?_, ?_, ?_, ?_⟩
      · rw [g3, e2]
      · rw [g4, e2]
      · rw [g5, e2]
      · rw [g6, e2]
      · intro j hj
        have hjr : j ∉ rest := fun hm => hj (List.mem_cons_of_mem i hm)
        rw [g7 j hjr]
        show setAddr ino.blockAddresses i (allocateBlock fs).1 j =
          ino.blockAddresses j
        exact setAddr_other _ _ _ _
          (fun he => hj (by rw [he]; exact List.mem_cons_self i rest))
      · intro j hj
        rcases List.mem_cons.mp hj with hji | hjr
        · subst hji
          rw [g7 j hint]
          show setAddr ino.blockAddresses j (allocateBlock fs).1 j ∈
            (b :: t).take (j :: rest).length
          rw [setAddr_same, e1]
          exact List.mem_cons_self b (t.take rest.length)
        · exact List.mem_cons_of_mem b (g8 j hjr)
      · rw [g9]

/-- Under a well-formed chain long enough and an indirect block outside
the chain, the child-allocation loop of `cmdTouch` succeeds: it records
chain members in consecutive slots of the indirect block, preserves
already-written lower slots, keeps the chain invariant on the dropped
suffix and leaves the inode side untouched. -/
theorem touchAllocIndirectLoop_ok (ind dB : Nat) (ino : Inode) (ni : Nat) :
    ∀ (k a : Nat) (fs : FS) (l : List Nat),
      chainOk fs l → k ≤ l.length → ind ∉ l →
      (touchAllocIndirectLoop fs ind dB ino ni (List.range' a k)).2 = true ∧
      chainOk (touchAllocIndirectLoop fs ind dB ino ni (List.range' a k)).1
        (l.drop k) ∧
      (touchAllocIndirectLoop fs ind dB ino ni (List.range' a k)).1.inodes =
        fs.inodes ∧
      (touchAllocIndirectLoop fs ind dB ino ni
        (List.range' a k)).1.sb.freeInodes = fs.sb.freeInodes ∧
      (touchAllocIndirectLoop fs ind dB ino ni
        (List.range' a k)).1.sb.firstFreeInode = fs.sb.firstFreeInode ∧
      (touchAllocIndirectLoop fs ind dB ino ni (List.range' a k)).1.clock =
        fs.clock ∧
      (∀ j, j < a →
        readU32 ((touchAllocIndirectLoop fs ind dB ino ni
          (List.range' a k)).1.blocks ind) (4 * j) =
            readU32 (fs.blocks ind) (4 * j)) ∧
      (∀ j, a ≤ j → j < a + k →
        readU32 ((touchAllocIndirectLoop fs ind dB ino ni
          (List.range' a k)).1.blocks ind) (4 * j) ∈ l) := by
  intro k
  induction k with
  | zero =>
    intro a fs l hc _ _
    exact ⟨rfl, hc, rfl, rfl, rfl, rfl, fun j _ => rfl,
      fun j hj1 hj2 => absurd hj2 (by omega)⟩
  | succ m ih =>
    intro a fs l hc hlen hind
    cases l with
    | nil => simp at hlen
    | cons b t =>
      obtain ⟨e1, e2, hc'⟩ := allocateBlock_chain fs b t hc
      have hbr := hc.2.2.2 b (List.mem_cons_self b t)
      have h9 : (FIRST_DATA_BLOCK : Nat) = 9 := rfl
      have hT : (TOTAL_BLOCKS : Nat) = 1024 := rfl
      have hne : (allocateBlock fs).1 ≠ 0 := by
        rw [e1]
        omega
      have hindb : ind ≠ b :=
        fun he => hind (by rw [he]; exact List.mem_cons_self b t)
      have hindt : ind ∉ t :=
        fun hm => hind (List.mem_cons_of_mem b hm)
      have estep : touchAllocIndirectLoop fs ind dB ino ni
          (List.range' a (m + 1)) =
          touchAllocIndirectLoop
            { (allocateBlock fs).2 with
              blocks := setBlk (allocateBlock fs).2.blocks ind
                (writeU32 ((allocateBlock fs).2.blocks ind) (4 * a)
                  (allocateBlock fs).1) }
            ind dB ino ni (List.range' (a + 1) m) := by
        rw [List.range'_succ, touchAllocIndirectLoop]
        rw [if_neg hne]
      have hlen' : m ≤ t.length := by
        simp only [List.length_cons] at hlen
        omega
      obtain ⟨g1, g2, g3, g4, g5, g6, g7, g8⟩ :=
        ih (a + 1)
          { (allocateBlock fs).2 with
            blocks := setBlk (allocateBlock fs).2.blocks ind
              (writeU32 ((allocateBlock fs).2.blocks ind) (4 * a)
                (allocateBlock fs).1) }
          t (chainOk_setBlk _ _ _ _ hc' hindt) hlen' hindt
      rw [estep]
      have hslot : readU32
          ({ (allocateBlock fs).2 with
            blocks := setBlk (allocateBlock fs).2.blocks ind
              (writeU32 ((allocateBlock fs).2.blocks ind) (4 * a)
                (allocateBlock fs).1) }.blocks ind) (4 * a) = b := by
        show readU32 (setBlk (allocateBlock fs).2.blocks ind
          (writeU32 ((allocateBlock fs).2.blocks ind) (4 * a)
            (allocateBlock fs).1) ind) (4 * a) = b
        rw [setBlk_same, readU32_writeU32, e1]
        have hU : (U32MOD : Nat) = 4294967296 := rfl
        exact Nat.mod_eq_of_lt (by omega)
      have hlow : ∀ j, j < a → readU32
          ({ (allocateBlock fs).2 with
            blocks := setBlk (allocateBlock fs).2.blocks ind
              (writeU32 ((allocateBlock fs).2.blocks ind) (4 * a)
                (allocateBlock fs).1) }.blocks ind) (4 * j) =
          readU32 (fs.blocks ind) (4 * j) := by
        intro j hj
        show readU32 (setBlk (allocateBlock fs).2.blocks ind
          (writeU32 ((allocateBlock fs).2.blocks ind) (4 * a)
            (allocateBlock fs).1) ind) (4 * j) =
          readU32 (fs.blocks ind) (4 * j)
        rw [setBlk_same, readU32_writeU32_out _ _ _ _ (by omega), e2]
        show readU32 (setBlk fs.blocks b zeroBlock ind) (4 * j) =
          readU32 (fs.blocks ind) (4 * j)
        rw [setBlk_other _ _ _ _ hindb]
      refine ⟨g1, g2, ?_, ?_, ?_, ?_, ?_, ?_⟩
      · rw [g3, e2]
      · rw [g4, e2]
      · rw [g5, e2]
      · rw [g6, e2]
      · intro j hj
        rw [g7 j (by omega), hlow j hj]
      · intro j hj1 hj2
        by_cases hja : j = a
        · subst hja
          rw [g7 j (by omega), hslot]
          exact List.mem_cons_self b t
        · have := g8 j (by omega) (by omega)
          exact List.mem_cons_of_mem b this

/-- Structural form of a failing `addDirectoryEntry`: the state is either
untouched, or (exactly when the directory had no indirect block and the
fresh one was installed before the first child allocation failed) it is
the alloc-then-install state. -/
theorem addDirectoryEntry_failure_state (fs : FS) (d : Nat) (nm : List Nat)
    (i : Nat) (h : (addDirectoryEntry fs d nm i).2 = false) :
    (addDirectoryEntry fs d nm i).1 = fs ∨
    ((addDirectoryEntry fs d nm i).1 =
      writeInode (allocateBlock fs).2 d
        { readInode fs d with indirectBlock := (allocateBlock fs).1 } ∧
      (allocateBlock fs).1 ≠ 0 ∧
      (readInode fs d).indirectBlock = 0) := by
  by_cases hlen : MAX_FILENAME_LENGTH ≤ nm.length
  · left
    simp only [addDirectoryEntry, if_pos hlen]
  · by_cases hty : (readInode fs d).type = 1
    · have hty' : ¬(readInode fs d).type ≠ 1 := not_not_intro hty
      cases hD : addEntryDirectLoop fs d (readInode fs d) nm i
          (List.range DIRECT_BLOCKS) with
      | committed fsC =>
        exfalso
        simp only [addDirectoryEntry, if_neg hlen, if_neg hty', hD] at h
        exact absurd h (by decide)
      | failed fsF =>
        left
        simp only [addDirectoryEntry, if_neg hlen, if_neg hty', hD]
        rw [addEntryDirectLoop_failed_eq _ _ _ _ _ _ _ hD]
      | exhausted fs1 d1 =>
        obtain ⟨e1, e2⟩ := addEntryDirectLoop_exhausted_eq _ _ _ _ _ _ _ _ hD
        rw [e1, e2] at hD
        by_cases hind : (readInode fs d).indirectBlock = 0
        · by_cases hz : (allocateBlock fs).1 = 0
          · left
            simp only [addDirectoryEntry, if_neg hlen, if_neg hty', hD,
              if_pos hind, if_pos hz]
            rw [allocateBlock_fst_zero fs hz]
          · cases hI : addEntryIndirectLoop
                (writeInode (allocateBlock fs).2 d
                  { readInode fs d with indirectBlock := (allocateBlock fs).1 })
                d { readInode fs d with indirectBlock := (allocateBlock fs).1 }
                nm i (List.range 256) with
            | committed fsC =>
              exfalso
              simp only [addDirectoryEntry, if_neg hlen, if_neg hty', hD,
                if_pos hind, if_neg hz, hI] at h
              exact absurd h (by decide)
            | failed fsF =>
              right
              simp only [addDirectoryEntry, if_neg hlen, if_neg hty', hD,
                if_pos hind, if_neg hz, hI]
              exact ⟨addEntryIndirectLoop_failed_eq _ _ _ _ _ _ _ hI, hz, hind⟩
        · cases hI : addEntryIndirectLoop fs d (readInode fs d) nm i
              (List.range 256) with
          | committed fsC =>
            exfalso
            simp only [addDirectoryEntry, if_neg hlen, if_neg hty', hD,
              if_neg hind, hI] at h
            exact absurd h (by decide)
          | failed fsF =>
            left
            simp only [addDirectoryEntry, if_neg hlen, if_neg hty', hD,
              if_neg hind, hI]
            exact addEntryIndirectLoop_failed_eq _ _ _ _ _ _ _ hI
    · left
      simp only [addDirectoryEntry, if_neg hlen,
        if_pos (by exact hty : (readInode fs d).type ≠ 1)]

/-- Counting effect of the unconditional rollback loop: with all listed
addresses in the deallocatable range, each pass pushes one block, so the
free-block count grows by the list length; the inode side, clock and all
unrelated blocks are untouched. -/
theorem deallocAddrLoop_count :
    ∀ (idxs : List Nat) (fs : FS) (addr : Nat → Nat),
      (∀ i ∈ idxs,
        FIRST_DATA_BLOCK ≤ addr i ∧ addr i < TOTAL_BLOCKS) →
      (deallocAddrLoop fs addr idxs).sb.freeBlocks =
        fs.sb.freeBlocks + idxs.length ∧
      (deallocAddrLoop fs addr idxs).inodes = fs.inodes ∧
      (deallocAddrLoop fs addr idxs).sb.freeInodes = fs.sb.freeInodes ∧
      (deallocAddrLoop fs addr idxs).sb.firstFreeInode =
        fs.sb.firstFreeInode ∧
      (deallocAddrLoop fs addr idxs).clock = fs.clock ∧
      (∀ c, (∀ i ∈ idxs, addr i ≠ c) →
        (deallocAddrLoop fs addr idxs).blocks c = fs.blocks c) := by
  intro idxs
  induction idxs with
  | nil =>
    intro fs addr _
    exact ⟨rfl, rfl, rfl, rfl, rfl, fun c _ => rfl⟩
  | cons i rest ih =>
    intro fs addr hrg
    have hri := hrg i (List.mem_cons_self i rest)
    have hde := deallocateBlock_in_range fs (addr i) hri.1 hri.2
    obtain ⟨g1, g2, g3, g4, g5, g6⟩ :=
      ih (deallocateBlock fs (addr i)) addr
        (fun j hj => hrg j (List.mem_cons_of_mem i hj))
    rw [deallocAddrLoop]
    refine ⟨?_, ?_, ?_, ?_, ?_, ?_⟩
    · rw [g1, hde]
      show fs.sb.freeBlocks + 1 + rest.length =
        fs.sb.freeBlocks + (rest.length + 1)
      omega
    · rw [g2, hde]
    · rw [g3, hde]
    · rw [g4, hde]
    · rw [g5, hde]
    · intro c hc
      rw [g6 c (fun j hj => hc j (List.mem_cons_of_mem i hj)), hde]
      show setBlk fs.blocks (addr i)
        (writeU32 (fs.blocks (addr i)) 0 fs.sb.firstFreeBlock) c =
          fs.blocks c
      exact setBlk_other _ _ _ _
        (Ne.symm (hc i (List.mem_cons_self i rest)))

/-- Counting effect of the checked-children rollback loop when every
listed slot of the indirect block holds an in-range block distinct from
the indirect block itself: each pass pushes one block. -/
theorem deallocChildrenChecked_count :
    ∀ (idxs : List Nat) (fs : FS) (ind : Nat),
      (∀ j ∈ idxs,
        FIRST_DATA_BLOCK ≤ readU32 (fs.blocks ind) (4 * j) ∧
        readU32 (fs.blocks ind) (4 * j) < TOTAL_BLOCKS ∧
        readU32 (fs.blocks ind) (4 * j) ≠ ind) →
      (deallocChildrenChecked fs ind idxs).sb.freeBlocks =
        fs.sb.freeBlocks + idxs.length ∧
      (deallocChildrenChecked fs ind idxs).inodes = fs.inodes ∧
      (deallocChildrenChecked fs ind idxs).sb.freeInodes =
        fs.sb.freeInodes ∧
      (deallocChildrenChecked fs ind idxs).sb.firstFreeInode =
        fs.sb.firstFreeInode ∧
      (deallocChildrenChecked fs ind idxs).clock = fs.clock := by
  intro idxs
  induction idxs with
  | nil =>
    intro fs ind _
    exact ⟨rfl, rfl, rfl, rfl, rfl⟩
  | cons j rest ih =>
    intro fs ind hrg
    have hrj := hrg j (List.mem_cons_self j rest)
    have h9 : (FIRST_DATA_BLOCK : Nat) = 9 := rfl
    have hne : readU32 (fs.blocks ind) (4 * j) ≠ 0 := by omega
    have hde := deallocateBlock_in_range fs (readU32 (fs.blocks ind) (4 * j))
      hrj.1 hrj.2.1
    have hpres : ∀ j', readU32
        ((deallocateBlock fs (readU32 (fs.blocks ind) (4 * j))).blocks ind)
        (4 * j') = readU32 (fs.blocks ind) (4 * j') := by
      intro j'
      rw [hde]
      show readU32 (setBlk fs.blocks (readU32 (fs.blocks ind) (4 * j))
        (writeU32 (fs.blocks (readU32 (fs.blocks ind) (4 * j))) 0
          fs.sb.firstFreeBlock) ind) (4 * j') =
        readU32 (fs.blocks ind) (4 * j')
      rw [setBlk_other _ _ _ _ (Ne.symm hrj.2.2)]
    obtain ⟨g1, g2, g3, g4, g5⟩ :=
      ih (deallocateBlock fs (readU32 (fs.blocks ind) (4 * j))) ind
        (fun j' hj' => by
          rw [hpres j']
          exact hrg j' (List.mem_cons_of_mem j hj'))
    rw [deallocChildrenChecked, if_pos hne]
    refine ⟨?_, ?_, ?_, ?_, ?_⟩
    · rw [g1, hde]
      show fs.sb.freeBlocks + 1 + rest.length =
        fs.sb.freeBlocks + (rest.length + 1)
      omega
    · rw [g2, hde]
    · rw [g3, hde]
    · rw [g4, hde]
    · rw [g5, hde]

/-- Failure accounting for the tail of `cmdTouch`: when the directory
entry cannot be added, the rollback releases the file's direct blocks,
indirect children and indirect block class as counted, and the inode, so
relative to the state at entry the free-inode count grows by one and the
free-block count grows by the released total, possibly one short (the
parent's freshly installed indirect block, see `addDirectoryEntry`). -/
theorem touchFinish_failure (fs : FS) (parent : Nat) (nm : List Nat)
    (ni : Nat) (ino : Inode) (bn dB : Nat)
    (hni : ni < MAX_INODES)
    (hdir : ∀ i, i < dB →
      FIRST_DATA_BLOCK ≤ ino.blockAddresses i ∧
      ino.blockAddresses i < TOTAL_BLOCKS ∧
      ino.blockAddresses i ≠ ino.indirectBlock)
    (hind : ino.indirectBlock = 0 ∨
      (FIRST_DATA_BLOCK ≤ ino.indirectBlock ∧
       ino.indirectBlock < TOTAL_BLOCKS ∧
       ino.indirectBlock ≠ fs.sb.firstFreeBlock ∧
       ∀ j, j < bn - DIRECT_BLOCKS →
         FIRST_DATA_BLOCK ≤ readU32 (fs.blocks ino.indirectBlock) (4 * j) ∧
         readU32 (fs.blocks ino.indirectBlock) (4 * j) < TOTAL_BLOCKS ∧
         readU32 (fs.blocks ino.indirectBlock) (4 * j) ≠
           ino.indirectBlock)) :
    (touchFinish fs parent nm ni ino bn dB).2 = .created ∨
    ((touchFinish fs parent nm ni ino bn dB).2 = .addEntryFailed ∧
     (touchFinish fs parent nm ni ino bn dB).1.sb.freeInodes =
       fs.sb.freeInodes + 1 ∧
     ((touchFinish fs parent nm ni ino bn dB).1.sb.freeBlocks =
        fs.sb.freeBlocks + dB +
          (if ino.indirectBlock ≠ 0 then bn - DIRECT_BLOCKS + 1 else 0) ∨
      (touchFinish fs parent nm ni ino bn dB).1.sb.freeBlocks + 1 =
        fs.sb.freeBlocks + dB +
          (if ino.indirectBlock ≠ 0 then bn - DIRECT_BLOCKS + 1 else 0))) := by
  have hw := writeInode_parts fs ni ino
  cases hr2 : (addDirectoryEntry (writeInode fs ni ino) parent nm ni).2 with
  | true =>
    left
    simp only [touchFinish, hr2]
    rw [if_pos trivial]
  | false =>
    right
    have hres : touchFinish fs parent nm ni ino bn dB =
        (deallocateInode
          (if ino.indirectBlock ≠ 0 then
            deallocateBlock
              (deallocChildrenChecked
                (deallocAddrLoop
                  (addDirectoryEntry (writeInode fs ni ino) parent nm ni).1
                  ino.blockAddresses (List.range dB))
                ino.indirectBlock (List.range (bn - DIRECT_BLOCKS)))
              ino.indirectBlock
          else
            deallocAddrLoop
              (addDirectoryEntry (writeInode fs ni ino) parent nm ni).1
              ino.blockAddresses (List.range dB)) ni,
         .addEntryFailed) := by
      simp only [touchFinish, hr2]
      rw [if_neg (by simp)]
    rw [hres]
    have hAE := addDirectoryEntry_failure_state (writeInode fs ni ino)
      parent nm ni hr2
    have hfi2 :
        (addDirectoryEntry (writeInode fs ni ino)
          parent nm ni).1.sb.freeInodes = fs.sb.freeInodes := by
      rcases hAE with hA | ⟨hA, hz, _⟩
      · rw [hA, hw.1]
      · rw [hA, (writeInode_parts _ _ _).1,
          (allocateBlock_fst_ne_zero _ hz).2.2.2.2]
        show (writeInode fs ni ino).sb.freeInodes = fs.sb.freeInodes
        rw [hw.1]
    have hfb2 :
        (addDirectoryEntry (writeInode fs ni ino)
            parent nm ni).1.sb.freeBlocks = fs.sb.freeBlocks ∨
        (addDirectoryEntry (writeInode fs ni ino)
            parent nm ni).1.sb.freeBlocks + 1 = fs.sb.freeBlocks := by
      rcases hAE with hA | ⟨hA, hz, _⟩
      · left
        rw [hA, hw.1]
      · right
        obtain ⟨_, hfb0, _, _, hstate⟩ := allocateBlock_fst_ne_zero _ hz
        rw [hA, (writeInode_parts _ _ _).1, hstate]
        show (writeInode fs ni ino).sb.freeBlocks - 1 + 1 = fs.sb.freeBlocks
        have hq : (writeInode fs ni ino).sb.freeBlocks =
            fs.sb.freeBlocks := by rw [hw.1]
        omega
    have hblk2 : ∀ c, c ≠ fs.sb.firstFreeBlock →
        (addDirectoryEntry (writeInode fs ni ino) parent nm ni).1.blocks c =
          fs.blocks c := by
      intro c hcne
      rcases hAE with hA | ⟨hA, hz, _⟩
      · rw [hA, hw.2.1]
      · obtain ⟨_, _, _, _, hstate⟩ := allocateBlock_fst_ne_zero _ hz
        rw [hA, (writeInode_parts _ _ _).2.1, hstate]
        show setBlk (writeInode fs ni ino).blocks
          (writeInode fs ni ino).sb.firstFreeBlock zeroBlock c =
            fs.blocks c
        have hq : (writeInode fs ni ino).sb.firstFreeBlock =
            fs.sb.firstFreeBlock := by rw [hw.1]
        rw [setBlk_other _ _ _ _ (by rw [hq]; exact hcne), hw.2.1]
    obtain ⟨d1, d2, d3, d4, d5, d6⟩ :=
      deallocAddrLoop_count (List.range dB)
        (addDirectoryEntry (writeInode fs ni ino) parent nm ni).1
        ino.blockAddresses
        (fun i hi =>
          ⟨(hdir i (List.mem_range.mp hi)).1,
           (hdir i (List.mem_range.mp hi)).2.1⟩)
    by_cases hiz : ino.indirectBlock ≠ 0
    · simp only [if_pos hiz]
      have hindr := hind.resolve_left hiz
      have hAframe :
          (deallocAddrLoop
            (addDirectoryEntry (writeInode fs ni ino) parent nm ni).1
            ino.blockAddresses (List.range dB)).blocks ino.indirectBlock =
          fs.blocks ino.indirectBlock := by
        rw [d6 ino.indirectBlock
          (fun i hi => (hdir i (List.mem_range.mp hi)).2.2)]
        exact hblk2 ino.indirectBlock hindr.2.2.1
      obtain ⟨c1, c2, c3, c4, c5⟩ :=
        deallocChildrenChecked_count (List.range (bn - DIRECT_BLOCKS))
          (deallocAddrLoop
            (addDirectoryEntry (writeInode fs ni ino) parent nm ni).1
            ino.blockAddresses (List.range dB))
          ino.indirectBlock
          (fun j hj => by
            rw [hAframe]
            exact hindr.2.2.2 j (List.mem_range.mp hj))
      have hdbI := deallocateBlock_inodeSide
        (deallocChildrenChecked
          (deallocAddrLoop
            (addDirectoryEntry (writeInode fs ni ino) parent nm ni).1
            ino.blockAddresses (List.range dB))
          ino.indirectBlock (List.range (bn - DIRECT_BLOCKS)))
        ino.indirectBlock
      have hdbF := deallocateBlock_freeBlocks
        (deallocChildrenChecked
          (deallocAddrLoop
            (addDirectoryEntry (writeInode fs ni ino) parent nm ni).1
            ino.blockAddresses (List.range dB))
          ino.indirectBlock (List.range (bn - DIRECT_BLOCKS)))
        ino.indirectBlock hindr.1 hindr.2.1
      refine ⟨by trivial, ?_, ?_⟩
      · rw [deallocateInode_in_range _ ni hni]
        show (deallocateBlock _ ino.indirectBlock).sb.freeInodes + 1 =
          fs.sb.freeInodes + 1
        rw [hdbI.2.1, c3, d3, hfi2]
      · rw [deallocateInode_in_range _ ni hni]
        show ((deallocateBlock _ ino.indirectBlock).sb.freeBlocks =
            fs.sb.freeBlocks + dB + (bn - DIRECT_BLOCKS + 1) ∨
          (deallocateBlock _ ino.indirectBlock).sb.freeBlocks + 1 =
            fs.sb.freeBlocks + dB + (bn - DIRECT_BLOCKS + 1))
        rw [hdbF, c1, d1]
        have hrlen : (List.range dB).length = dB := List.length_range dB
        have hrlen2 : (List.range (bn - DIRECT_BLOCKS)).length =
          bn - DIRECT_BLOCKS := List.length_range _
        rw [hrlen, hrlen2]
        rcases hfb2 with hq | hq
        · left
          omega
        · right
          omega
    · simp only [if_neg hiz]
      refine ⟨by trivial, ?_, ?_⟩
      · rw [deallocateInode_in_range _ ni hni]
        show (deallocAddrLoop _ ino.blockAddresses
          (List.range dB)).sb.freeInodes + 1 = fs.sb.freeInodes + 1
        rw [d3, hfi2]
      · rw [deallocateInode_in_range _ ni hni]
        show ((deallocAddrLoop _ ino.blockAddresses
            (List.range dB)).sb.freeBlocks =
          fs.sb.freeBlocks + dB + 0 ∨
          (deallocAddrLoop _ ino.blockAddresses
            (List.range dB)).sb.freeBlocks + 1 =
          fs.sb.freeBlocks + dB + 0)
        rw [d1]
        have hrlen : (List.range dB).length = dB := List.length_range dB
        rw [hrlen]
        rcases hfb2 with hq | hq
        · left
          omega
        · right
          omega

/-- C2: for every invocation of create-file that reports failure, given a
well-formed free-block list and an in-range free-inode head, the
superblock's free-inode count equals its pre-call value, and the
free-block count either equals its pre-call value or - only on the
add-entry failure path, where the parent directory's freshly installed
indirect block is not released - is exactly one lower. -/
theorem touch_failure_restores_free_counts (fs : FS) (p : List Nat)
    (sz : Nat) (l : List Nat)
    (hc : chainOk fs l)
    (hi : fs.sb.firstFreeInode < MAX_INODES)
    (hres : (cmdTouch fs p sz).2 ≠ .created) :
    (cmdTouch fs p sz).1.sb.freeInodes = fs.sb.freeInodes ∧
    ((cmdTouch fs p sz).1.sb.freeBlocks = fs.sb.freeBlocks ∨
      ((cmdTouch fs p sz).2 = .addEntryFailed ∧
        (cmdTouch fs p sz).1.sb.freeBlocks + 1 = fs.sb.freeBlocks)) := by
  have hM : (MAX_INODES : Nat) = 128 := rfl
  have h9 : (FIRST_DATA_BLOCK : Nat) = 9 := rfl
  have hDB10 : (DIRECT_BLOCKS : Nat) = 10 := rfl
  rcases hg : getParentInodeAndFilename fs p with ⟨o, nm⟩
  cases o with
  | none =>
    have e : cmdTouch fs p sz = (fs, .invalidPath) := by
      simp only [cmdTouch, hg]
    rw [e]
    exact ⟨rfl, Or.inl rfl⟩
  | some parent =>
    cases hfind : (findDirectoryEntry fs parent nm).isSome with
    | true =>
      have e : cmdTouch fs p sz = (fs, .alreadyExists) := by
        simp only [cmdTouch, hg, hfind]
        simp
      rw [e]
      exact ⟨rfl, Or.inl rfl⟩
    | false =>
      by_cases hbig : DIRECT_BLOCKS + BLOCK_SIZE / 4 < (sz % U32MOD + BLOCK_SIZE - 1) % U32MOD / BLOCK_SIZE
      · have e : cmdTouch fs p sz = (fs, .tooLarge) := by
          simp only [cmdTouch, hg, hfind, Bool.false_eq_true, if_pos hbig]
          simp
        rw [e]
        exact ⟨rfl, Or.inl rfl⟩
      · by_cases heno : fs.sb.freeBlocks <
            (sz % U32MOD + BLOCK_SIZE - 1) % U32MOD / BLOCK_SIZE + (if DIRECT_BLOCKS < (sz % U32MOD + BLOCK_SIZE - 1) % U32MOD / BLOCK_SIZE then 1 else 0)
        · have e : cmdTouch fs p sz = (fs, .notEnoughBlocks) := by
            simp only [cmdTouch, hg, hfind, Bool.false_eq_true,
              if_neg hbig, if_pos heno]
            simp
          rw [e]
          exact ⟨rfl, Or.inl rfl⟩
        · by_cases hizero : fs.sb.freeInodes = 0 ∨ fs.sb.firstFreeInode = 0
          · have eai : allocateInode fs = (MAX_INODES, fs) := by
              simp only [allocateInode, if_pos hizero]
            have e : cmdTouch fs p sz = (fs, .noInodes) := by
              simp only [cmdTouch, hg, hfind, Bool.false_eq_true,
                if_neg hbig, if_neg heno, eai]
              simp
            rw [e]
            exact ⟨rfl, Or.inl rfl⟩
          · push_neg at hizero
            obtain ⟨hfi0, hffi0⟩ := hizero
            have hanz : (allocateInode fs).1 ≠ MAX_INODES := by
              simp only [allocateInode, if_neg (not_or.mpr ⟨hfi0, hffi0⟩)]
              omega
            obtain ⟨hani, _, _, hastate⟩ :=
              allocateInode_fst_ne_sentinel fs hanz
            have hni : (allocateInode fs).1 < MAX_INODES := by
              rw [hani]
              exact hi
            have hcfs1 : chainOk (allocateInode fs).2 l :=
              chainOk_congr fs _ l (allocateInode_blockSide fs).1
                (allocateInode_blockSide fs).2.2.1
                (allocateInode_blockSide fs).2.1 hc
            have hino0 : readInode (allocateInode fs).2
                (allocateInode fs).1 =
                { type := 0, size := 0, creationTime := fs.clock,
                  modificationTime := fs.clock,
                  blockAddresses := fun _ => 0, indirectBlock := 0 } := by
              rw [hastate, hani]
              unfold readInode
              rw [if_neg (by omega)]
              exact setInode_same _ _ _
            have hBNle := Nat.not_lt.mp heno
            have hdble : (min ((sz % U32MOD + BLOCK_SIZE - 1) % U32MOD / BLOCK_SIZE) DIRECT_BLOCKS) ≤ (sz % U32MOD + BLOCK_SIZE - 1) % U32MOD / BLOCK_SIZE := Nat.min_le_left _ _
            have hdb10 : (min ((sz % U32MOD + BLOCK_SIZE - 1) % U32MOD / BLOCK_SIZE) DIRECT_BLOCKS) ≤ DIRECT_BLOCKS := Nat.min_le_right _ _
            have hlenR : (List.range (min ((sz % U32MOD + BLOCK_SIZE - 1) % U32MOD / BLOCK_SIZE) DIRECT_BLOCKS)).length ≤ l.length := by
              rw [List.length_range]
              have hl1 : fs.sb.freeBlocks = l.length := hc.2.1
              omega
            obtain ⟨g1, g2, g3, g4, g5, g6, g7, g8, g9⟩ :=
              touchAllocDirectLoop_ok (List.range (min ((sz % U32MOD + BLOCK_SIZE - 1) % U32MOD / BLOCK_SIZE) DIRECT_BLOCKS))
                (allocateInode fs).2 { readInode (allocateInode fs).2 (allocateInode fs).1 with type := 0, size := sz % U32MOD } l hcfs1 hlenR
                (List.nodup_range (min ((sz % U32MOD + BLOCK_SIZE - 1) % U32MOD / BLOCK_SIZE) DIRECT_BLOCKS))
            have hind0 : (touchAllocDirectLoop (allocateInode fs).2 { readInode (allocateInode fs).2 (allocateInode fs).1 with type := 0, size := sz % U32MOD } (List.range (min ((sz % U32MOD + BLOCK_SIZE - 1) % U32MOD / BLOCK_SIZE) DIRECT_BLOCKS))).2.1.indirectBlock = 0 := by
              rw [g9]
              show (readInode (allocateInode fs).2
                (allocateInode fs).1).indirectBlock = 0
              rw [hino0]
            have hfi2 : (touchAllocDirectLoop (allocateInode fs).2 { readInode (allocateInode fs).2 (allocateInode fs).1 with type := 0, size := sz % U32MOD } (List.range (min ((sz % U32MOD + BLOCK_SIZE - 1) % U32MOD / BLOCK_SIZE) DIRECT_BLOCKS))).1.sb.freeInodes = fs.sb.freeInodes - 1 := by
              rw [g4, hastate]
            have hfb2 : (touchAllocDirectLoop (allocateInode fs).2 { readInode (allocateInode fs).2 (allocateInode fs).1 with type := 0, size := sz % U32MOD } (List.range (min ((sz % U32MOD + BLOCK_SIZE - 1) % U32MOD / BLOCK_SIZE) DIRECT_BLOCKS))).1.sb.freeBlocks = l.length - (min ((sz % U32MOD + BLOCK_SIZE - 1) % U32MOD / BLOCK_SIZE) DIRECT_BLOCKS) := by
              have hx := g2.2.1
              rw [List.length_range] at hx
              rw [hx]
              simp
            have hg2 := g2
            rw [List.length_range] at hg2
            by_cases h10 : DIRECT_BLOCKS < (sz % U32MOD + BLOCK_SIZE - 1) % U32MOD / BLOCK_SIZE
            · have hdbEq : (min ((sz % U32MOD + BLOCK_SIZE - 1) % U32MOD / BLOCK_SIZE) DIRECT_BLOCKS) = DIRECT_BLOCKS :=
                Nat.min_eq_right (by omega)
              cases hld : l.drop (min ((sz % U32MOD + BLOCK_SIZE - 1) % U32MOD / BLOCK_SIZE) DIRECT_BLOCKS) with
              | nil =>
                exfalso
                have hlds : (l.drop (min ((sz % U32MOD + BLOCK_SIZE - 1) % U32MOD / BLOCK_SIZE) DIRECT_BLOCKS)).length = l.length - (min ((sz % U32MOD + BLOCK_SIZE - 1) % U32MOD / BLOCK_SIZE) DIRECT_BLOCKS) := by
                  simp
                rw [hld] at hlds
                have hl1 : fs.sb.freeBlocks = l.length := hc.2.1
                have hite1 : (if DIRECT_BLOCKS < (sz % U32MOD + BLOCK_SIZE - 1) % U32MOD / BLOCK_SIZE then 1 else 0) = 1 :=
                  if_pos h10
                rw [hite1] at hBNle
                simp at hlds
                omega
              | cons b t =>
                rw [hld] at hg2
                obtain ⟨e1b, e2b, hcb⟩ :=
                  allocateBlock_chain (touchAllocDirectLoop (allocateInode fs).2 { readInode (allocateInode fs).2 (allocateInode fs).1 with type := 0, size := sz % U32MOD } (List.range (min ((sz % U32MOD + BLOCK_SIZE - 1) % U32MOD / BLOCK_SIZE) DIRECT_BLOCKS))).1 b t hg2
                have hbmem : b ∈ l := by
                  have hx : b ∈ l.drop (min ((sz % U32MOD + BLOCK_SIZE - 1) % U32MOD / BLOCK_SIZE) DIRECT_BLOCKS) := by
                    rw [hld]
                    exact List.mem_cons_self b t
                  exact List.mem_of_mem_drop hx
                have hbrg := hc.2.2.2 b hbmem
                have hbne : (allocateBlock (touchAllocDirectLoop (allocateInode fs).2 { readInode (allocateInode fs).2 (allocateInode fs).1 with type := 0, size := sz % U32MOD } (List.range (min ((sz % U32MOD + BLOCK_SIZE - 1) % U32MOD / BLOCK_SIZE) DIRECT_BLOCKS))).1).1 ≠ 0 := by
                  rw [e1b]
                  omega
                have hbnt : b ∉ t :=
                  (List.nodup_cons.mp hg2.2.2.1).1
                have hlt : (b :: t).length = l.length - (min ((sz % U32MOD + BLOCK_SIZE - 1) % U32MOD / BLOCK_SIZE) DIRECT_BLOCKS) := by
                  rw [← hld]
                  simp
                simp only [List.length_cons] at hlt
                have hl1 : fs.sb.freeBlocks = l.length := hc.2.1
                have hite1 : (if DIRECT_BLOCKS < (sz % U32MOD + BLOCK_SIZE - 1) % U32MOD / BLOCK_SIZE then 1 else 0) = 1 :=
                  if_pos h10
                rw [hite1] at hBNle
                have heno1 : ¬ fs.sb.freeBlocks < (sz % U32MOD + BLOCK_SIZE - 1) % U32MOD / BLOCK_SIZE + 1 := by
                  have hx := heno
                  rw [hite1] at hx
                  exact hx
                have htlen : ((sz % U32MOD + BLOCK_SIZE - 1) % U32MOD / BLOCK_SIZE) - DIRECT_BLOCKS ≤ t.length := by
                  omega
                have hindt : (allocateBlock (touchAllocDirectLoop (allocateInode fs).2 { readInode (allocateInode fs).2 (allocateInode fs).1 with type := 0, size := sz % U32MOD } (List.range (min ((sz % U32MOD + BLOCK_SIZE - 1) % U32MOD / BLOCK_SIZE) DIRECT_BLOCKS))).1).1 ∉ t := by
                  rw [e1b]
                  exact hbnt
                obtain ⟨q1, q2, q3, q4, q5, q6, q7, q8⟩ :=
                  touchAllocIndirectLoop_ok (allocateBlock (touchAllocDirectLoop (allocateInode fs).2 { readInode (allocateInode fs).2 (allocateInode fs).1 with type := 0, size := sz % U32MOD } (List.range (min ((sz % U32MOD + BLOCK_SIZE - 1) % U32MOD / BLOCK_SIZE) DIRECT_BLOCKS))).1).1 (min ((sz % U32MOD + BLOCK_SIZE - 1) % U32MOD / BLOCK_SIZE) DIRECT_BLOCKS) { (touchAllocDirectLoop (allocateInode fs).2 { readInode (allocateInode fs).2 (allocateInode fs).1 with type := 0, size := sz % U32MOD } (List.range (min ((sz % U32MOD + BLOCK_SIZE - 1) % U32MOD / BLOCK_SIZE) DIRECT_BLOCKS))).2.1 with indirectBlock := (allocateBlock (touchAllocDirectLoop (allocateInode fs).2 { readInode (allocateInode fs).2 (allocateInode fs).1 with type := 0, size := sz % U32MOD } (List.range (min ((sz % U32MOD + BLOCK_SIZE - 1) % U32MOD / BLOCK_SIZE) DIRECT_BLOCKS))).1).1 }
                    (allocateInode fs).1 (((sz % U32MOD + BLOCK_SIZE - 1) % U32MOD / BLOCK_SIZE) - DIRECT_BLOCKS) 0
                    (allocateBlock (touchAllocDirectLoop (allocateInode fs).2 { readInode (allocateInode fs).2 (allocateInode fs).1 with type := 0, size := sz % U32MOD } (List.range (min ((sz % U32MOD + BLOCK_SIZE - 1) % U32MOD / BLOCK_SIZE) DIRECT_BLOCKS))).1).2 t hcb htlen hindt
                simp only [← List.range_eq_range'] at q1 q2 q3 q4 q5 q6 q7 q8
                have ecmd : cmdTouch fs p sz =
                    touchFinish (touchAllocIndirectLoop (allocateBlock (touchAllocDirectLoop (allocateInode fs).2 { readInode (allocateInode fs).2 (allocateInode fs).1 with type := 0, size := sz % U32MOD } (List.range (min ((sz % U32MOD + BLOCK_SIZE - 1) % U32MOD / BLOCK_SIZE) DIRECT_BLOCKS))).1).2 (allocateBlock (touchAllocDirectLoop (allocateInode fs).2 { readInode (allocateInode fs).2 (allocateInode fs).1 with type := 0, size := sz % U32MOD } (List.range (min ((sz % U32MOD + BLOCK_SIZE - 1) % U32MOD / BLOCK_SIZE) DIRECT_BLOCKS))).1).1 (min ((sz % U32MOD + BLOCK_SIZE - 1) % U32MOD / BLOCK_SIZE) DIRECT_BLOCKS) { (touchAllocDirectLoop (allocateInode fs).2 { readInode (allocateInode fs).2 (allocateInode fs).1 with type := 0, size := sz % U32MOD } (List.range (min ((sz % U32MOD + BLOCK_SIZE - 1) % U32MOD / BLOCK_SIZE) DIRECT_BLOCKS))).2.1 with indirectBlock := (allocateBlock (touchAllocDirectLoop (allocateInode fs).2 { readInode (allocateInode fs).2 (allocateInode fs).1 with type := 0, size := sz % U32MOD } (List.range (min ((sz % U32MOD + BLOCK_SIZE - 1) % U32MOD / BLOCK_SIZE) DIRECT_BLOCKS))).1).1 } (allocateInode fs).1 (List.range (((sz % U32MOD + BLOCK_SIZE - 1) % U32MOD / BLOCK_SIZE) - DIRECT_BLOCKS))).1 parent nm (allocateInode fs).1
                      { (touchAllocDirectLoop (allocateInode fs).2 { readInode (allocateInode fs).2 (allocateInode fs).1 with type := 0, size := sz % U32MOD } (List.range (min ((sz % U32MOD + BLOCK_SIZE - 1) % U32MOD / BLOCK_SIZE) DIRECT_BLOCKS))).2.1 with indirectBlock := (allocateBlock (touchAllocDirectLoop (allocateInode fs).2 { readInode (allocateInode fs).2 (allocateInode fs).1 with type := 0, size := sz % U32MOD } (List.range (min ((sz % U32MOD + BLOCK_SIZE - 1) % U32MOD / BLOCK_SIZE) DIRECT_BLOCKS))).1).1 } ((sz % U32MOD + BLOCK_SIZE - 1) % U32MOD / BLOCK_SIZE) (min ((sz % U32MOD + BLOCK_SIZE - 1) % U32MOD / BLOCK_SIZE) DIRECT_BLOCKS) := by
                  simp only [cmdTouch, hg, hfind, Bool.false_eq_true,
                    if_neg hbig, if_pos h10, if_neg heno1, if_neg hanz, g1,
                    if_neg hbne, q1]
                  simp
                have hine2 : ({ (touchAllocDirectLoop (allocateInode fs).2 { readInode (allocateInode fs).2 (allocateInode fs).1 with type := 0, size := sz % U32MOD } (List.range (min ((sz % U32MOD + BLOCK_SIZE - 1) % U32MOD / BLOCK_SIZE) DIRECT_BLOCKS))).2.1 with indirectBlock := (allocateBlock (touchAllocDirectLoop (allocateInode fs).2 { readInode (allocateInode fs).2 (allocateInode fs).1 with type := 0, size := sz % U32MOD } (List.range (min ((sz % U32MOD + BLOCK_SIZE - 1) % U32MOD / BLOCK_SIZE) DIRECT_BLOCKS))).1).1 } : Inode).indirectBlock = b := by
                  show (allocateBlock (touchAllocDirectLoop (allocateInode fs).2 { readInode (allocateInode fs).2 (allocateInode fs).1 with type := 0, size := sz % U32MOD } (List.range (min ((sz % U32MOD + BLOCK_SIZE - 1) % U32MOD / BLOCK_SIZE) DIRECT_BLOCKS))).1).1 = b
                  exact e1b
                have hq4' : (touchAllocIndirectLoop (allocateBlock (touchAllocDirectLoop (allocateInode fs).2 { readInode (allocateInode fs).2 (allocateInode fs).1 with type := 0, size := sz % U32MOD } (List.range (min ((sz % U32MOD + BLOCK_SIZE - 1) % U32MOD / BLOCK_SIZE) DIRECT_BLOCKS))).1).2 (allocateBlock (touchAllocDirectLoop (allocateInode fs).2 { readInode (allocateInode fs).2 (allocateInode fs).1 with type := 0, size := sz % U32MOD } (List.range (min ((sz % U32MOD + BLOCK_SIZE - 1) % U32MOD / BLOCK_SIZE) DIRECT_BLOCKS))).1).1 (min ((sz % U32MOD + BLOCK_SIZE - 1) % U32MOD / BLOCK_SIZE) DIRECT_BLOCKS) { (touchAllocDirectLoop (allocateInode fs).2 { readInode (allocateInode fs).2 (allocateInode fs).1 with type := 0, size := sz % U32MOD } (List.range (min ((sz % U32MOD + BLOCK_SIZE - 1) % U32MOD / BLOCK_SIZE) DIRECT_BLOCKS))).2.1 with indirectBlock := (allocateBlock (touchAllocDirectLoop (allocateInode fs).2 { readInode (allocateInode fs).2 (allocateInode fs).1 with type := 0, size := sz % U32MOD } (List.range (min ((sz % U32MOD + BLOCK_SIZE - 1) % U32MOD / BLOCK_SIZE) DIRECT_BLOCKS))).1).1 } (allocateInode fs).1 (List.range (((sz % U32MOD + BLOCK_SIZE - 1) % U32MOD / BLOCK_SIZE) - DIRECT_BLOCKS))).1.sb.freeInodes =
                    fs.sb.freeInodes - 1 := by
                  rw [q4, e2b]
                  show (touchAllocDirectLoop (allocateInode fs).2 { readInode (allocateInode fs).2 (allocateInode fs).1 with type := 0, size := sz % U32MOD } (List.range (min ((sz % U32MOD + BLOCK_SIZE - 1) % U32MOD / BLOCK_SIZE) DIRECT_BLOCKS))).1.sb.freeInodes = fs.sb.freeInodes - 1
                  exact hfi2
                have hq2' : (touchAllocIndirectLoop (allocateBlock (touchAllocDirectLoop (allocateInode fs).2 { readInode (allocateInode fs).2 (allocateInode fs).1 with type := 0, size := sz % U32MOD } (List.range (min ((sz % U32MOD + BLOCK_SIZE - 1) % U32MOD / BLOCK_SIZE) DIRECT_BLOCKS))).1).2 (allocateBlock (touchAllocDirectLoop (allocateInode fs).2 { readInode (allocateInode fs).2 (allocateInode fs).1 with type := 0, size := sz % U32MOD } (List.range (min ((sz % U32MOD + BLOCK_SIZE - 1) % U32MOD / BLOCK_SIZE) DIRECT_BLOCKS))).1).1 (min ((sz % U32MOD + BLOCK_SIZE - 1) % U32MOD / BLOCK_SIZE) DIRECT_BLOCKS) { (touchAllocDirectLoop (allocateInode fs).2 { readInode (allocateInode fs).2 (allocateInode fs).1 with type := 0, size := sz % U32MOD } (List.range (min ((sz % U32MOD + BLOCK_SIZE - 1) % U32MOD / BLOCK_SIZE) DIRECT_BLOCKS))).2.1 with indirectBlock := (allocateBlock (touchAllocDirectLoop (allocateInode fs).2 { readInode (allocateInode fs).2 (allocateInode fs).1 with type := 0, size := sz % U32MOD } (List.range (min ((sz % U32MOD + BLOCK_SIZE - 1) % U32MOD / BLOCK_SIZE) DIRECT_BLOCKS))).1).1 } (allocateInode fs).1 (List.range (((sz % U32MOD + BLOCK_SIZE - 1) % U32MOD / BLOCK_SIZE) - DIRECT_BLOCKS))).1.sb.freeBlocks =
                    t.length - (((sz % U32MOD + BLOCK_SIZE - 1) % U32MOD / BLOCK_SIZE) - DIRECT_BLOCKS) := by
                  have hx := q2.2.1
                  rw [hx]
                  simp
                have hbffb : b ≠ (touchAllocIndirectLoop (allocateBlock (touchAllocDirectLoop (allocateInode fs).2 { readInode (allocateInode fs).2 (allocateInode fs).1 with type := 0, size := sz % U32MOD } (List.range (min ((sz % U32MOD + BLOCK_SIZE - 1) % U32MOD / BLOCK_SIZE) DIRECT_BLOCKS))).1).2 (allocateBlock (touchAllocDirectLoop (allocateInode fs).2 { readInode (allocateInode fs).2 (allocateInode fs).1 with type := 0, size := sz % U32MOD } (List.range (min ((sz % U32MOD + BLOCK_SIZE - 1) % U32MOD / BLOCK_SIZE) DIRECT_BLOCKS))).1).1 (min ((sz % U32MOD + BLOCK_SIZE - 1) % U32MOD / BLOCK_SIZE) DIRECT_BLOCKS) { (touchAllocDirectLoop (allocateInode fs).2 { readInode (allocateInode fs).2 (allocateInode fs).1 with type := 0, size := sz % U32MOD } (List.range (min ((sz % U32MOD + BLOCK_SIZE - 1) % U32MOD / BLOCK_SIZE) DIRECT_BLOCKS))).2.1 with indirectBlock := (allocateBlock (touchAllocDirectLoop (allocateInode fs).2 { readInode (allocateInode fs).2 (allocateInode fs).1 with type := 0, size := sz % U32MOD } (List.range (min ((sz % U32MOD + BLOCK_SIZE - 1) % U32MOD / BLOCK_SIZE) DIRECT_BLOCKS))).1).1 } (allocateInode fs).1 (List.range (((sz % U32MOD + BLOCK_SIZE - 1) % U32MOD / BLOCK_SIZE) - DIRECT_BLOCKS))).1.sb.firstFreeBlock := by
                  rcases chainOk_head _ _ q2 with hz | hm
                  · rw [hz]
                    omega
                  · intro he
                    have hmem : b ∈ t.drop (((sz % U32MOD + BLOCK_SIZE - 1) % U32MOD / BLOCK_SIZE) - DIRECT_BLOCKS) := by
                      rw [he]
                      exact hm
                    exact hbnt (List.mem_of_mem_drop hmem)
                have haddr : ∀ i, i < (min ((sz % U32MOD + BLOCK_SIZE - 1) % U32MOD / BLOCK_SIZE) DIRECT_BLOCKS) →
                    FIRST_DATA_BLOCK ≤ ({ (touchAllocDirectLoop (allocateInode fs).2 { readInode (allocateInode fs).2 (allocateInode fs).1 with type := 0, size := sz % U32MOD } (List.range (min ((sz % U32MOD + BLOCK_SIZE - 1) % U32MOD / BLOCK_SIZE) DIRECT_BLOCKS))).2.1 with indirectBlock := (allocateBlock (touchAllocDirectLoop (allocateInode fs).2 { readInode (allocateInode fs).2 (allocateInode fs).1 with type := 0, size := sz % U32MOD } (List.range (min ((sz % U32MOD + BLOCK_SIZE - 1) % U32MOD / BLOCK_SIZE) DIRECT_BLOCKS))).1).1 } : Inode).blockAddresses i ∧
                    ({ (touchAllocDirectLoop (allocateInode fs).2 { readInode (allocateInode fs).2 (allocateInode fs).1 with type := 0, size := sz % U32MOD } (List.range (min ((sz % U32MOD + BLOCK_SIZE - 1) % U32MOD / BLOCK_SIZE) DIRECT_BLOCKS))).2.1 with indirectBlock := (allocateBlock (touchAllocDirectLoop (allocateInode fs).2 { readInode (allocateInode fs).2 (allocateInode fs).1 with type := 0, size := sz % U32MOD } (List.range (min ((sz % U32MOD + BLOCK_SIZE - 1) % U32MOD / BLOCK_SIZE) DIRECT_BLOCKS))).1).1 } : Inode).blockAddresses i < TOTAL_BLOCKS ∧
                    ({ (touchAllocDirectLoop (allocateInode fs).2 { readInode (allocateInode fs).2 (allocateInode fs).1 with type := 0, size := sz % U32MOD } (List.range (min ((sz % U32MOD + BLOCK_SIZE - 1) % U32MOD / BLOCK_SIZE) DIRECT_BLOCKS))).2.1 with indirectBlock := (allocateBlock (touchAllocDirectLoop (allocateInode fs).2 { readInode (allocateInode fs).2 (allocateInode fs).1 with type := 0, size := sz % U32MOD } (List.range (min ((sz % U32MOD + BLOCK_SIZE - 1) % U32MOD / BLOCK_SIZE) DIRECT_BLOCKS))).1).1 } : Inode).blockAddresses i ≠
                      ({ (touchAllocDirectLoop (allocateInode fs).2 { readInode (allocateInode fs).2 (allocateInode fs).1 with type := 0, size := sz % U32MOD } (List.range (min ((sz % U32MOD + BLOCK_SIZE - 1) % U32MOD / BLOCK_SIZE) DIRECT_BLOCKS))).2.1 with indirectBlock := (allocateBlock (touchAllocDirectLoop (allocateInode fs).2 { readInode (allocateInode fs).2 (allocateInode fs).1 with type := 0, size := sz % U32MOD } (List.range (min ((sz % U32MOD + BLOCK_SIZE - 1) % U32MOD / BLOCK_SIZE) DIRECT_BLOCKS))).1).1 } : Inode).indirectBlock := by
                  intro i hilt
                  have hmem := g8 i (List.mem_range.mpr hilt)
                  rw [List.length_range] at hmem
                  have hmeml := List.mem_of_mem_take hmem
                  have hrg2 := hc.2.2.2 _ hmeml
                  refine ⟨hrg2.1, hrg2.2, ?_⟩
                  rw [hine2]
                  have hbd : b ∈ l.drop (min ((sz % U32MOD + BLOCK_SIZE - 1) % U32MOD / BLOCK_SIZE) DIRECT_BLOCKS) := by
                    rw [hld]
                    exact List.mem_cons_self b t
                  exact take_drop_ne l (min ((sz % U32MOD + BLOCK_SIZE - 1) % U32MOD / BLOCK_SIZE) DIRECT_BLOCKS) hc.2.2.1 _ b hmem hbd
                have hslots : ∀ j, j < ((sz % U32MOD + BLOCK_SIZE - 1) % U32MOD / BLOCK_SIZE) - DIRECT_BLOCKS →
                    FIRST_DATA_BLOCK ≤
                      readU32 ((touchAllocIndirectLoop (allocateBlock (touchAllocDirectLoop (allocateInode fs).2 { readInode (allocateInode fs).2 (allocateInode fs).1 with type := 0, size := sz % U32MOD } (List.range (min ((sz % U32MOD + BLOCK_SIZE - 1) % U32MOD / BLOCK_SIZE) DIRECT_BLOCKS))).1).2 (allocateBlock (touchAllocDirectLoop (allocateInode fs).2 { readInode (allocateInode fs).2 (allocateInode fs).1 with type := 0, size := sz % U32MOD } (List.range (min ((sz % U32MOD + BLOCK_SIZE - 1) % U32MOD / BLOCK_SIZE) DIRECT_BLOCKS))).1).1 (min ((sz % U32MOD + BLOCK_SIZE - 1) % U32MOD / BLOCK_SIZE) DIRECT_BLOCKS) { (touchAllocDirectLoop (allocateInode fs).2 { readInode (allocateInode fs).2 (allocateInode fs).1 with type := 0, size := sz % U32MOD } (List.range (min ((sz % U32MOD + BLOCK_SIZE - 1) % U32MOD / BLOCK_SIZE) DIRECT_BLOCKS))).2.1 with indirectBlock := (allocateBlock (touchAllocDirectLoop (allocateInode fs).2 { readInode (allocateInode fs).2 (allocateInode fs).1 with type := 0, size := sz % U32MOD } (List.range (min ((sz % U32MOD + BLOCK_SIZE - 1) % U32MOD / BLOCK_SIZE) DIRECT_BLOCKS))).1).1 } (allocateInode fs).1 (List.range (((sz % U32MOD + BLOCK_SIZE - 1) % U32MOD / BLOCK_SIZE) - DIRECT_BLOCKS))).1.blocks
                        ({ (touchAllocDirectLoop (allocateInode fs).2 { readInode (allocateInode fs).2 (allocateInode fs).1 with type := 0, size := sz % U32MOD } (List.range (min ((sz % U32MOD + BLOCK_SIZE - 1) % U32MOD / BLOCK_SIZE) DIRECT_BLOCKS))).2.1 with indirectBlock := (allocateBlock (touchAllocDirectLoop (allocateInode fs).2 { readInode (allocateInode fs).2 (allocateInode fs).1 with type := 0, size := sz % U32MOD } (List.range (min ((sz % U32MOD + BLOCK_SIZE - 1) % U32MOD / BLOCK_SIZE) DIRECT_BLOCKS))).1).1 } : Inode).indirectBlock) (4 * j) ∧
                    readU32 ((touchAllocIndirectLoop (allocateBlock (touchAllocDirectLoop (allocateInode fs).2 { readInode (allocateInode fs).2 (allocateInode fs).1 with type := 0, size := sz % U32MOD } (List.range (min ((sz % U32MOD + BLOCK_SIZE - 1) % U32MOD / BLOCK_SIZE) DIRECT_BLOCKS))).1).2 (allocateBlock (touchAllocDirectLoop (allocateInode fs).2 { readInode (allocateInode fs).2 (allocateInode fs).1 with type := 0, size := sz % U32MOD } (List.range (min ((sz % U32MOD + BLOCK_SIZE - 1) % U32MOD / BLOCK_SIZE) DIRECT_BLOCKS))).1).1 (min ((sz % U32MOD + BLOCK_SIZE - 1) % U32MOD / BLOCK_SIZE) DIRECT_BLOCKS) { (touchAllocDirectLoop (allocateInode fs).2 { readInode (allocateInode fs).2 (allocateInode fs).1 with type := 0, size := sz % U32MOD } (List.range (min ((sz % U32MOD + BLOCK_SIZE - 1) % U32MOD / BLOCK_SIZE) DIRECT_BLOCKS))).2.1 with indirectBlock := (allocateBlock (touchAllocDirectLoop (allocateInode fs).2 { readInode (allocateInode fs).2 (allocateInode fs).1 with type := 0, size := sz % U32MOD } (List.range (min ((sz % U32MOD + BLOCK_SIZE - 1) % U32MOD / BLOCK_SIZE) DIRECT_BLOCKS))).1).1 } (allocateInode fs).1 (List.range (((sz % U32MOD + BLOCK_SIZE - 1) % U32MOD / BLOCK_SIZE) - DIRECT_BLOCKS))).1.blocks
                      ({ (touchAllocDirectLoop (allocateInode fs).2 { readInode (allocateInode fs).2 (allocateInode fs).1 with type := 0, size := sz % U32MOD } (List.range (min ((sz % U32MOD + BLOCK_SIZE - 1) % U32MOD / BLOCK_SIZE) DIRECT_BLOCKS))).2.1 with indirectBlock := (allocateBlock (touchAllocDirectLoop (allocateInode fs).2 { readInode (allocateInode fs).2 (allocateInode fs).1 with type := 0, size := sz % U32MOD } (List.range (min ((sz % U32MOD + BLOCK_SIZE - 1) % U32MOD / BLOCK_SIZE) DIRECT_BLOCKS))).1).1 } : Inode).indirectBlock) (4 * j) <
                      TOTAL_BLOCKS ∧
                    readU32 ((touchAllocIndirectLoop (allocateBlock (touchAllocDirectLoop (allocateInode fs).2 { readInode (allocateInode fs).2 (allocateInode fs).1 with type := 0, size := sz % U32MOD } (List.range (min ((sz % U32MOD + BLOCK_SIZE - 1) % U32MOD / BLOCK_SIZE) DIRECT_BLOCKS))).1).2 (allocateBlock (touchAllocDirectLoop (allocateInode fs).2 { readInode (allocateInode fs).2 (allocateInode fs).1 with type := 0, size := sz % U32MOD } (List.range (min ((sz % U32MOD + BLOCK_SIZE - 1) % U32MOD / BLOCK_SIZE) DIRECT_BLOCKS))).1).1 (min ((sz % U32MOD + BLOCK_SIZE - 1) % U32MOD / BLOCK_SIZE) DIRECT_BLOCKS) { (touchAllocDirectLoop (allocateInode fs).2 { readInode (allocateInode fs).2 (allocateInode fs).1 with type := 0, size := sz % U32MOD } (List.range (min ((sz % U32MOD + BLOCK_SIZE - 1) % U32MOD / BLOCK_SIZE) DIRECT_BLOCKS))).2.1 with indirectBlock := (allocateBlock (touchAllocDirectLoop (allocateInode fs).2 { readInode (allocateInode fs).2 (allocateInode fs).1 with type := 0, size := sz % U32MOD } (List.range (min ((sz % U32MOD + BLOCK_SIZE - 1) % U32MOD / BLOCK_SIZE) DIRECT_BLOCKS))).1).1 } (allocateInode fs).1 (List.range (((sz % U32MOD + BLOCK_SIZE - 1) % U32MOD / BLOCK_SIZE) - DIRECT_BLOCKS))).1.blocks
                      ({ (touchAllocDirectLoop (allocateInode fs).2 { readInode (allocateInode fs).2 (allocateInode fs).1 with type := 0, size := sz % U32MOD } (List.range (min ((sz % U32MOD + BLOCK_SIZE - 1) % U32MOD / BLOCK_SIZE) DIRECT_BLOCKS))).2.1 with indirectBlock := (allocateBlock (touchAllocDirectLoop (allocateInode fs).2 { readInode (allocateInode fs).2 (allocateInode fs).1 with type := 0, size := sz % U32MOD } (List.range (min ((sz % U32MOD + BLOCK_SIZE - 1) % U32MOD / BLOCK_SIZE) DIRECT_BLOCKS))).1).1 } : Inode).indirectBlock) (4 * j) ≠
                      ({ (touchAllocDirectLoop (allocateInode fs).2 { readInode (allocateInode fs).2 (allocateInode fs).1 with type := 0, size := sz % U32MOD } (List.range (min ((sz % U32MOD + BLOCK_SIZE - 1) % U32MOD / BLOCK_SIZE) DIRECT_BLOCKS))).2.1 with indirectBlock := (allocateBlock (touchAllocDirectLoop (allocateInode fs).2 { readInode (allocateInode fs).2 (allocateInode fs).1 with type := 0, size := sz % U32MOD } (List.range (min ((sz % U32MOD + BLOCK_SIZE - 1) % U32MOD / BLOCK_SIZE) DIRECT_BLOCKS))).1).1 } : Inode).indirectBlock := by
                  intro j hj
                  have hval := q8 j (Nat.zero_le j) (by omega)
                  have hval2 : readU32 ((touchAllocIndirectLoop (allocateBlock (touchAllocDirectLoop (allocateInode fs).2 { readInode (allocateInode fs).2 (allocateInode fs).1 with type := 0, size := sz % U32MOD } (List.range (min ((sz % U32MOD + BLOCK_SIZE - 1) % U32MOD / BLOCK_SIZE) DIRECT_BLOCKS))).1).2 (allocateBlock (touchAllocDirectLoop (allocateInode fs).2 { readInode (allocateInode fs).2 (allocateInode fs).1 with type := 0, size := sz % U32MOD } (List.range (min ((sz % U32MOD + BLOCK_SIZE - 1) % U32MOD / BLOCK_SIZE) DIRECT_BLOCKS))).1).1 (min ((sz % U32MOD + BLOCK_SIZE - 1) % U32MOD / BLOCK_SIZE) DIRECT_BLOCKS) { (touchAllocDirectLoop (allocateInode fs).2 { readInode (allocateInode fs).2 (allocateInode fs).1 with type := 0, size := sz % U32MOD } (List.range (min ((sz % U32MOD + BLOCK_SIZE - 1) % U32MOD / BLOCK_SIZE) DIRECT_BLOCKS))).2.1 with indirectBlock := (allocateBlock (touchAllocDirectLoop (allocateInode fs).2 { readInode (allocateInode fs).2 (allocateInode fs).1 with type := 0, size := sz % U32MOD } (List.range (min ((sz % U32MOD + BLOCK_SIZE - 1) % U32MOD / BLOCK_SIZE) DIRECT_BLOCKS))).1).1 } (allocateInode fs).1 (List.range (((sz % U32MOD + BLOCK_SIZE - 1) % U32MOD / BLOCK_SIZE) - DIRECT_BLOCKS))).1.blocks
                      ({ (touchAllocDirectLoop (allocateInode fs).2 { readInode (allocateInode fs).2 (allocateInode fs).1 with type := 0, size := sz % U32MOD } (List.range (min ((sz % U32MOD + BLOCK_SIZE - 1) % U32MOD / BLOCK_SIZE) DIRECT_BLOCKS))).2.1 with indirectBlock := (allocateBlock (touchAllocDirectLoop (allocateInode fs).2 { readInode (allocateInode fs).2 (allocateInode fs).1 with type := 0, size := sz % U32MOD } (List.range (min ((sz % U32MOD + BLOCK_SIZE - 1) % U32MOD / BLOCK_SIZE) DIRECT_BLOCKS))).1).1 } : Inode).indirectBlock) (4 * j) ∈ t := hval
                  have hml : readU32 ((touchAllocIndirectLoop (allocateBlock (touchAllocDirectLoop (allocateInode fs).2 { readInode (allocateInode fs).2 (allocateInode fs).1 with type := 0, size := sz % U32MOD } (List.range (min ((sz % U32MOD + BLOCK_SIZE - 1) % U32MOD / BLOCK_SIZE) DIRECT_BLOCKS))).1).2 (allocateBlock (touchAllocDirectLoop (allocateInode fs).2 { readInode (allocateInode fs).2 (allocateInode fs).1 with type := 0, size := sz % U32MOD } (List.range (min ((sz % U32MOD + BLOCK_SIZE - 1) % U32MOD / BLOCK_SIZE) DIRECT_BLOCKS))).1).1 (min ((sz % U32MOD + BLOCK_SIZE - 1) % U32MOD / BLOCK_SIZE) DIRECT_BLOCKS) { (touchAllocDirectLoop (allocateInode fs).2 { readInode (allocateInode fs).2 (allocateInode fs).1 with type := 0, size := sz % U32MOD } (List.range (min ((sz % U32MOD + BLOCK_SIZE - 1) % U32MOD / BLOCK_SIZE) DIRECT_BLOCKS))).2.1 with indirectBlock := (allocateBlock (touchAllocDirectLoop (allocateInode fs).2 { readInode (allocateInode fs).2 (allocateInode fs).1 with type := 0, size := sz % U32MOD } (List.range (min ((sz % U32MOD + BLOCK_SIZE - 1) % U32MOD / BLOCK_SIZE) DIRECT_BLOCKS))).1).1 } (allocateInode fs).1 (List.range (((sz % U32MOD + BLOCK_SIZE - 1) % U32MOD / BLOCK_SIZE) - DIRECT_BLOCKS))).1.blocks
                      ({ (touchAllocDirectLoop (allocateInode fs).2 { readInode (allocateInode fs).2 (allocateInode fs).1 with type := 0, size := sz % U32MOD } (List.range (min ((sz % U32MOD + BLOCK_SIZE - 1) % U32MOD / BLOCK_SIZE) DIRECT_BLOCKS))).2.1 with indirectBlock := (allocateBlock (touchAllocDirectLoop (allocateInode fs).2 { readInode (allocateInode fs).2 (allocateInode fs).1 with type := 0, size := sz % U32MOD } (List.range (min ((sz % U32MOD + BLOCK_SIZE - 1) % U32MOD / BLOCK_SIZE) DIRECT_BLOCKS))).1).1 } : Inode).indirectBlock) (4 * j) ∈ l := by
                    have hx : readU32 ((touchAllocIndirectLoop (allocateBlock (touchAllocDirectLoop (allocateInode fs).2 { readInode (allocateInode fs).2 (allocateInode fs).1 with type := 0, size := sz % U32MOD } (List.range (min ((sz % U32MOD + BLOCK_SIZE - 1) % U32MOD / BLOCK_SIZE) DIRECT_BLOCKS))).1).2 (allocateBlock (touchAllocDirectLoop (allocateInode fs).2 { readInode (allocateInode fs).2 (allocateInode fs).1 with type := 0, size := sz % U32MOD } (List.range (min ((sz % U32MOD + BLOCK_SIZE - 1) % U32MOD / BLOCK_SIZE) DIRECT_BLOCKS))).1).1 (min ((sz % U32MOD + BLOCK_SIZE - 1) % U32MOD / BLOCK_SIZE) DIRECT_BLOCKS) { (touchAllocDirectLoop (allocateInode fs).2 { readInode (allocateInode fs).2 (allocateInode fs).1 with type := 0, size := sz % U32MOD } (List.range (min ((sz % U32MOD + BLOCK_SIZE - 1) % U32MOD / BLOCK_SIZE) DIRECT_BLOCKS))).2.1 with indirectBlock := (allocateBlock (touchAllocDirectLoop (allocateInode fs).2 { readInode (allocateInode fs).2 (allocateInode fs).1 with type := 0, size := sz % U32MOD } (List.range (min ((sz % U32MOD + BLOCK_SIZE - 1) % U32MOD / BLOCK_SIZE) DIRECT_BLOCKS))).1).1 } (allocateInode fs).1 (List.range (((sz % U32MOD + BLOCK_SIZE - 1) % U32MOD / BLOCK_SIZE) - DIRECT_BLOCKS))).1.blocks
                        ({ (touchAllocDirectLoop (allocateInode fs).2 { readInode (allocateInode fs).2 (allocateInode fs).1 with type := 0, size := sz % U32MOD } (List.range (min ((sz % U32MOD + BLOCK_SIZE - 1) % U32MOD / BLOCK_SIZE) DIRECT_BLOCKS))).2.1 with indirectBlock := (allocateBlock (touchAllocDirectLoop (allocateInode fs).2 { readInode (allocateInode fs).2 (allocateInode fs).1 with type := 0, size := sz % U32MOD } (List.range (min ((sz % U32MOD + BLOCK_SIZE - 1) % U32MOD / BLOCK_SIZE) DIRECT_BLOCKS))).1).1 } : Inode).indirectBlock) (4 * j) ∈
                        l.drop (min ((sz % U32MOD + BLOCK_SIZE - 1) % U32MOD / BLOCK_SIZE) DIRECT_BLOCKS) := by
                      rw [hld]
                      exact List.mem_cons_of_mem b hval2
                    exact List.mem_of_mem_drop hx
                  have hrg2 := hc.2.2.2 _ hml
                  refine ⟨hrg2.1, hrg2.2, ?_⟩
                  intro he
                  apply hbnt
                  rw [← hine2, ← he]
                  exact hval2
                have hindR : ({ (touchAllocDirectLoop (allocateInode fs).2 { readInode (allocateInode fs).2 (allocateInode fs).1 with type := 0, size := sz % U32MOD } (List.range (min ((sz % U32MOD + BLOCK_SIZE - 1) % U32MOD / BLOCK_SIZE) DIRECT_BLOCKS))).2.1 with indirectBlock := (allocateBlock (touchAllocDirectLoop (allocateInode fs).2 { readInode (allocateInode fs).2 (allocateInode fs).1 with type := 0, size := sz % U32MOD } (List.range (min ((sz % U32MOD + BLOCK_SIZE - 1) % U32MOD / BLOCK_SIZE) DIRECT_BLOCKS))).1).1 } : Inode).indirectBlock = 0 ∨
                    (FIRST_DATA_BLOCK ≤ ({ (touchAllocDirectLoop (allocateInode fs).2 { readInode (allocateInode fs).2 (allocateInode fs).1 with type := 0, size := sz % U32MOD } (List.range (min ((sz % U32MOD + BLOCK_SIZE - 1) % U32MOD / BLOCK_SIZE) DIRECT_BLOCKS))).2.1 with indirectBlock := (allocateBlock (touchAllocDirectLoop (allocateInode fs).2 { readInode (allocateInode fs).2 (allocateInode fs).1 with type := 0, size := sz % U32MOD } (List.range (min ((sz % U32MOD + BLOCK_SIZE - 1) % U32MOD / BLOCK_SIZE) DIRECT_BLOCKS))).1).1 } : Inode).indirectBlock ∧
                     ({ (touchAllocDirectLoop (allocateInode fs).2 { readInode (allocateInode fs).2 (allocateInode fs).1 with type := 0, size := sz % U32MOD } (List.range (min ((sz % U32MOD + BLOCK_SIZE - 1) % U32MOD / BLOCK_SIZE) DIRECT_BLOCKS))).2.1 with indirectBlock := (allocateBlock (touchAllocDirectLoop (allocateInode fs).2 { readInode (allocateInode fs).2 (allocateInode fs).1 with type := 0, size := sz % U32MOD } (List.range (min ((sz % U32MOD + BLOCK_SIZE - 1) % U32MOD / BLOCK_SIZE) DIRECT_BLOCKS))).1).1 } : Inode).indirectBlock < TOTAL_BLOCKS ∧
                     ({ (touchAllocDirectLoop (allocateInode fs).2 { readInode (allocateInode fs).2 (allocateInode fs).1 with type := 0, size := sz % U32MOD } (List.range (min ((sz % U32MOD + BLOCK_SIZE - 1) % U32MOD / BLOCK_SIZE) DIRECT_BLOCKS))).2.1 with indirectBlock := (allocateBlock (touchAllocDirectLoop (allocateInode fs).2 { readInode (allocateInode fs).2 (allocateInode fs).1 with type := 0, size := sz % U32MOD } (List.range (min ((sz % U32MOD + BLOCK_SIZE - 1) % U32MOD / BLOCK_SIZE) DIRECT_BLOCKS))).1).1 } : Inode).indirectBlock ≠
                       (touchAllocIndirectLoop (allocateBlock (touchAllocDirectLoop (allocateInode fs).2 { readInode (allocateInode fs).2 (allocateInode fs).1 with type := 0, size := sz % U32MOD } (List.range (min ((sz % U32MOD + BLOCK_SIZE - 1) % U32MOD / BLOCK_SIZE) DIRECT_BLOCKS))).1).2 (allocateBlock (touchAllocDirectLoop (allocateInode fs).2 { readInode (allocateInode fs).2 (allocateInode fs).1 with type := 0, size := sz % U32MOD } (List.range (min ((sz % U32MOD + BLOCK_SIZE - 1) % U32MOD / BLOCK_SIZE) DIRECT_BLOCKS))).1).1 (min ((sz % U32MOD + BLOCK_SIZE - 1) % U32MOD / BLOCK_SIZE) DIRECT_BLOCKS) { (touchAllocDirectLoop (allocateInode fs).2 { readInode (allocateInode fs).2 (allocateInode fs).1 with type := 0, size := sz % U32MOD } (List.range (min ((sz % U32MOD + BLOCK_SIZE - 1) % U32MOD / BLOCK_SIZE) DIRECT_BLOCKS))).2.1 with indirectBlock := (allocateBlock (touchAllocDirectLoop (allocateInode fs).2 { readInode (allocateInode fs).2 (allocateInode fs).1 with type := 0, size := sz % U32MOD } (List.range (min ((sz % U32MOD + BLOCK_SIZE - 1) % U32MOD / BLOCK_SIZE) DIRECT_BLOCKS))).1).1 } (allocateInode fs).1 (List.range (((sz % U32MOD + BLOCK_SIZE - 1) % U32MOD / BLOCK_SIZE) - DIRECT_BLOCKS))).1.sb.firstFreeBlock ∧
                     ∀ j, j < ((sz % U32MOD + BLOCK_SIZE - 1) % U32MOD / BLOCK_SIZE) - DIRECT_BLOCKS →
                       FIRST_DATA_BLOCK ≤
                         readU32 ((touchAllocIndirectLoop (allocateBlock (touchAllocDirectLoop (allocateInode fs).2 { readInode (allocateInode fs).2 (allocateInode fs).1 with type := 0, size := sz % U32MOD } (List.range (min ((sz % U32MOD + BLOCK_SIZE - 1) % U32MOD / BLOCK_SIZE) DIRECT_BLOCKS))).1).2 (allocateBlock (touchAllocDirectLoop (allocateInode fs).2 { readInode (allocateInode fs).2 (allocateInode fs).1 with type := 0, size := sz % U32MOD } (List.range (min ((sz % U32MOD + BLOCK_SIZE - 1) % U32MOD / BLOCK_SIZE) DIRECT_BLOCKS))).1).1 (min ((sz % U32MOD + BLOCK_SIZE - 1) % U32MOD / BLOCK_SIZE) DIRECT_BLOCKS) { (touchAllocDirectLoop (allocateInode fs).2 { readInode (allocateInode fs).2 (allocateInode fs).1 with type := 0, size := sz % U32MOD } (List.range (min ((sz % U32MOD + BLOCK_SIZE - 1) % U32MOD / BLOCK_SIZE) DIRECT_BLOCKS))).2.1 with indirectBlock := (allocateBlock (touchAllocDirectLoop (allocateInode fs).2 { readInode (allocateInode fs).2 (allocateInode fs).1 with type := 0, size := sz % U32MOD } (List.range (min ((sz % U32MOD + BLOCK_SIZE - 1) % U32MOD / BLOCK_SIZE) DIRECT_BLOCKS))).1).1 } (allocateInode fs).1 (List.range (((sz % U32MOD + BLOCK_SIZE - 1) % U32MOD / BLOCK_SIZE) - DIRECT_BLOCKS))).1.blocks
                           ({ (touchAllocDirectLoop (allocateInode fs).2 { readInode (allocateInode fs).2 (allocateInode fs).1 with type := 0, size := sz % U32MOD } (List.range (min ((sz % U32MOD + BLOCK_SIZE - 1) % U32MOD / BLOCK_SIZE) DIRECT_BLOCKS))).2.1 with indirectBlock := (allocateBlock (touchAllocDirectLoop (allocateInode fs).2 { readInode (allocateInode fs).2 (allocateInode fs).1 with type := 0, size := sz % U32MOD } (List.range (min ((sz % U32MOD + BLOCK_SIZE - 1) % U32MOD / BLOCK_SIZE) DIRECT_BLOCKS))).1).1 } : Inode).indirectBlock) (4 * j) ∧
                       readU32 ((touchAllocIndirectLoop (allocateBlock (touchAllocDirectLoop (allocateInode fs).2 { readInode (allocateInode fs).2 (allocateInode fs).1 with type := 0, size := sz % U32MOD } (List.range (min ((sz % U32MOD + BLOCK_SIZE - 1) % U32MOD / BLOCK_SIZE) DIRECT_BLOCKS))).1).2 (allocateBlock (touchAllocDirectLoop (allocateInode fs).2 { readInode (allocateInode fs).2 (allocateInode fs).1 with type := 0, size := sz % U32MOD } (List.range (min ((sz % U32MOD + BLOCK_SIZE - 1) % U32MOD / BLOCK_SIZE) DIRECT_BLOCKS))).1).1 (min ((sz % U32MOD + BLOCK_SIZE - 1) % U32MOD / BLOCK_SIZE) DIRECT_BLOCKS) { (touchAllocDirectLoop (allocateInode fs).2 { readInode (allocateInode fs).2 (allocateInode fs).1 with type := 0, size := sz % U32MOD } (List.range (min ((sz % U32MOD + BLOCK_SIZE - 1) % U32MOD / BLOCK_SIZE) DIRECT_BLOCKS))).2.1 with indirectBlock := (allocateBlock (touchAllocDirectLoop (allocateInode fs).2 { readInode (allocateInode fs).2 (allocateInode fs).1 with type := 0, size := sz % U32MOD } (List.range (min ((sz % U32MOD + BLOCK_SIZE - 1) % U32MOD / BLOCK_SIZE) DIRECT_BLOCKS))).1).1 } (allocateInode fs).1 (List.range (((sz % U32MOD + BLOCK_SIZE - 1) % U32MOD / BLOCK_SIZE) - DIRECT_BLOCKS))).1.blocks
                         ({ (touchAllocDirectLoop (allocateInode fs).2 { readInode (allocateInode fs).2 (allocateInode fs).1 with type := 0, size := sz % U32MOD } (List.range (min ((sz % U32MOD + BLOCK_SIZE - 1) % U32MOD / BLOCK_SIZE) DIRECT_BLOCKS))).2.1 with indirectBlock := (allocateBlock (touchAllocDirectLoop (allocateInode fs).2 { readInode (allocateInode fs).2 (allocateInode fs).1 with type := 0, size := sz % U32MOD } (List.range (min ((sz % U32MOD + BLOCK_SIZE - 1) % U32MOD / BLOCK_SIZE) DIRECT_BLOCKS))).1).1 } : Inode).indirectBlock) (4 * j) <
                         TOTAL_BLOCKS ∧
                       readU32 ((touchAllocIndirectLoop (allocateBlock (touchAllocDirectLoop (allocateInode fs).2 { readInode (allocateInode fs).2 (allocateInode fs).1 with type := 0, size := sz % U32MOD } (List.range (min ((sz % U32MOD + BLOCK_SIZE - 1) % U32MOD / BLOCK_SIZE) DIRECT_BLOCKS))).1).2 (allocateBlock (touchAllocDirectLoop (allocateInode fs).2 { readInode (allocateInode fs).2 (allocateInode fs).1 with type := 0, size := sz % U32MOD } (List.range (min ((sz % U32MOD + BLOCK_SIZE - 1) % U32MOD / BLOCK_SIZE) DIRECT_BLOCKS))).1).1 (min ((sz % U32MOD + BLOCK_SIZE - 1) % U32MOD / BLOCK_SIZE) DIRECT_BLOCKS) { (touchAllocDirectLoop (allocateInode fs).2 { readInode (allocateInode fs).2 (allocateInode fs).1 with type := 0, size := sz % U32MOD } (List.range (min ((sz % U32MOD + BLOCK_SIZE - 1) % U32MOD / BLOCK_SIZE) DIRECT_BLOCKS))).2.1 with indirectBlock := (allocateBlock (touchAllocDirectLoop (allocateInode fs).2 { readInode (allocateInode fs).2 (allocateInode fs).1 with type := 0, size := sz % U32MOD } (List.range (min ((sz % U32MOD + BLOCK_SIZE - 1) % U32MOD / BLOCK_SIZE) DIRECT_BLOCKS))).1).1 } (allocateInode fs).1 (List.range (((sz % U32MOD + BLOCK_SIZE - 1) % U32MOD / BLOCK_SIZE) - DIRECT_BLOCKS))).1.blocks
                         ({ (touchAllocDirectLoop (allocateInode fs).2 { readInode (allocateInode fs).2 (allocateInode fs).1 with type := 0, size := sz % U32MOD } (List.range (min ((sz % U32MOD + BLOCK_SIZE - 1) % U32MOD / BLOCK_SIZE) DIRECT_BLOCKS))).2.1 with indirectBlock := (allocateBlock (touchAllocDirectLoop (allocateInode fs).2 { readInode (allocateInode fs).2 (allocateInode fs).1 with type := 0, size := sz % U32MOD } (List.range (min ((sz % U32MOD + BLOCK_SIZE - 1) % U32MOD / BLOCK_SIZE) DIRECT_BLOCKS))).1).1 } : Inode).indirectBlock) (4 * j) ≠
                         ({ (touchAllocDirectLoop (allocateInode fs).2 { readInode (allocateInode fs).2 (allocateInode fs).1 with type := 0, size := sz % U32MOD } (List.range (min ((sz % U32MOD + BLOCK_SIZE - 1) % U32MOD / BLOCK_SIZE) DIRECT_BLOCKS))).2.1 with indirectBlock := (allocateBlock (touchAllocDirectLoop (allocateInode fs).2 { readInode (allocateInode fs).2 (allocateInode fs).1 with type := 0, size := sz % U32MOD } (List.range (min ((sz % U32MOD + BLOCK_SIZE - 1) % U32MOD / BLOCK_SIZE) DIRECT_BLOCKS))).1).1 } : Inode).indirectBlock) := by
                  right
                  refine ⟨?_, ?_, ?_, hslots⟩
                  · rw [hine2]
                    exact hbrg.1
                  · rw [hine2]
                    exact hbrg.2
                  · rw [hine2]
                    exact hbffb
                rcases touchFinish_failure (touchAllocIndirectLoop (allocateBlock (touchAllocDirectLoop (allocateInode fs).2 { readInode (allocateInode fs).2 (allocateInode fs).1 with type := 0, size := sz % U32MOD } (List.range (min ((sz % U32MOD + BLOCK_SIZE - 1) % U32MOD / BLOCK_SIZE) DIRECT_BLOCKS))).1).2 (allocateBlock (touchAllocDirectLoop (allocateInode fs).2 { readInode (allocateInode fs).2 (allocateInode fs).1 with type := 0, size := sz % U32MOD } (List.range (min ((sz % U32MOD + BLOCK_SIZE - 1) % U32MOD / BLOCK_SIZE) DIRECT_BLOCKS))).1).1 (min ((sz % U32MOD + BLOCK_SIZE - 1) % U32MOD / BLOCK_SIZE) DIRECT_BLOCKS) { (touchAllocDirectLoop (allocateInode fs).2 { readInode (allocateInode fs).2 (allocateInode fs).1 with type := 0, size := sz % U32MOD } (List.range (min ((sz % U32MOD + BLOCK_SIZE - 1) % U32MOD / BLOCK_SIZE) DIRECT_BLOCKS))).2.1 with indirectBlock := (allocateBlock (touchAllocDirectLoop (allocateInode fs).2 { readInode (allocateInode fs).2 (allocateInode fs).1 with type := 0, size := sz % U32MOD } (List.range (min ((sz % U32MOD + BLOCK_SIZE - 1) % U32MOD / BLOCK_SIZE) DIRECT_BLOCKS))).1).1 } (allocateInode fs).1 (List.range (((sz % U32MOD + BLOCK_SIZE - 1) % U32MOD / BLOCK_SIZE) - DIRECT_BLOCKS))).1 parent nm
                    (allocateInode fs).1 { (touchAllocDirectLoop (allocateInode fs).2 { readInode (allocateInode fs).2 (allocateInode fs).1 with type := 0, size := sz % U32MOD } (List.range (min ((sz % U32MOD + BLOCK_SIZE - 1) % U32MOD / BLOCK_SIZE) DIRECT_BLOCKS))).2.1 with indirectBlock := (allocateBlock (touchAllocDirectLoop (allocateInode fs).2 { readInode (allocateInode fs).2 (allocateInode fs).1 with type := 0, size := sz % U32MOD } (List.range (min ((sz % U32MOD + BLOCK_SIZE - 1) % U32MOD / BLOCK_SIZE) DIRECT_BLOCKS))).1).1 } ((sz % U32MOD + BLOCK_SIZE - 1) % U32MOD / BLOCK_SIZE) (min ((sz % U32MOD + BLOCK_SIZE - 1) % U32MOD / BLOCK_SIZE) DIRECT_BLOCKS) hni haddr hindR
                  with hcreated | ⟨hA1, hA2, hA3⟩
                · exfalso
                  rw [ecmd] at hres
                  exact hres hcreated
                · rw [ecmd]
                  have hiteB : (if ({ (touchAllocDirectLoop (allocateInode fs).2 { readInode (allocateInode fs).2 (allocateInode fs).1 with type := 0, size := sz % U32MOD } (List.range (min ((sz % U32MOD + BLOCK_SIZE - 1) % U32MOD / BLOCK_SIZE) DIRECT_BLOCKS))).2.1 with indirectBlock := (allocateBlock (touchAllocDirectLoop (allocateInode fs).2 { readInode (allocateInode fs).2 (allocateInode fs).1 with type := 0, size := sz % U32MOD } (List.range (min ((sz % U32MOD + BLOCK_SIZE - 1) % U32MOD / BLOCK_SIZE) DIRECT_BLOCKS))).1).1 } : Inode).indirectBlock ≠ 0 then
                      ((sz % U32MOD + BLOCK_SIZE - 1) % U32MOD / BLOCK_SIZE) - DIRECT_BLOCKS + 1 else 0) =
                      ((sz % U32MOD + BLOCK_SIZE - 1) % U32MOD / BLOCK_SIZE) - DIRECT_BLOCKS + 1 := by
                    rw [if_pos (by rw [hine2]; omega)]
                  rw [hiteB] at hA3
                  refine ⟨?_, ?_⟩
                  · rw [hA2, hq4']
                    omega
                  · rcases hA3 with hq | hq
                    · left
                      rw [hq, hq2']
                      omega
                    · right
                      refine ⟨hA1, ?_⟩
                      rw [hq2'] at hq
                      omega
            · have hite1 : (if DIRECT_BLOCKS < (sz % U32MOD + BLOCK_SIZE - 1) % U32MOD / BLOCK_SIZE then 1 else 0) = 0 :=
                if_neg h10
              have heno0 : ¬ fs.sb.freeBlocks < (sz % U32MOD + BLOCK_SIZE - 1) % U32MOD / BLOCK_SIZE + 0 := by
                have hx := heno
                rw [hite1] at hx
                exact hx
              have ecmd : cmdTouch fs p sz =
                  touchFinish (touchAllocDirectLoop (allocateInode fs).2 { readInode (allocateInode fs).2 (allocateInode fs).1 with type := 0, size := sz % U32MOD } (List.range (min ((sz % U32MOD + BLOCK_SIZE - 1) % U32MOD / BLOCK_SIZE) DIRECT_BLOCKS))).1 parent nm (allocateInode fs).1
                    (touchAllocDirectLoop (allocateInode fs).2 { readInode (allocateInode fs).2 (allocateInode fs).1 with type := 0, size := sz % U32MOD } (List.range (min ((sz % U32MOD + BLOCK_SIZE - 1) % U32MOD / BLOCK_SIZE) DIRECT_BLOCKS))).2.1 ((sz % U32MOD + BLOCK_SIZE - 1) % U32MOD / BLOCK_SIZE) (min ((sz % U32MOD + BLOCK_SIZE - 1) % U32MOD / BLOCK_SIZE) DIRECT_BLOCKS) := by
                simp only [cmdTouch, hg, hfind, Bool.false_eq_true,
                  if_neg hbig, if_neg h10, if_neg heno0, if_neg hanz, g1]
                simp
              have haddr : ∀ i, i < (min ((sz % U32MOD + BLOCK_SIZE - 1) % U32MOD / BLOCK_SIZE) DIRECT_BLOCKS) →
                  FIRST_DATA_BLOCK ≤ (touchAllocDirectLoop (allocateInode fs).2 { readInode (allocateInode fs).2 (allocateInode fs).1 with type := 0, size := sz % U32MOD } (List.range (min ((sz % U32MOD + BLOCK_SIZE - 1) % U32MOD / BLOCK_SIZE) DIRECT_BLOCKS))).2.1.blockAddresses i ∧
                  (touchAllocDirectLoop (allocateInode fs).2 { readInode (allocateInode fs).2 (allocateInode fs).1 with type := 0, size := sz % U32MOD } (List.range (min ((sz % U32MOD + BLOCK_SIZE - 1) % U32MOD / BLOCK_SIZE) DIRECT_BLOCKS))).2.1.blockAddresses i < TOTAL_BLOCKS ∧
                  (touchAllocDirectLoop (allocateInode fs).2 { readInode (allocateInode fs).2 (allocateInode fs).1 with type := 0, size := sz % U32MOD } (List.range (min ((sz % U32MOD + BLOCK_SIZE - 1) % U32MOD / BLOCK_SIZE) DIRECT_BLOCKS))).2.1.blockAddresses i ≠
                    (touchAllocDirectLoop (allocateInode fs).2 { readInode (allocateInode fs).2 (allocateInode fs).1 with type := 0, size := sz % U32MOD } (List.range (min ((sz % U32MOD + BLOCK_SIZE - 1) % U32MOD / BLOCK_SIZE) DIRECT_BLOCKS))).2.1.indirectBlock := by
                intro i hilt
                have hmem := g8 i (List.mem_range.mpr hilt)
                rw [List.length_range] at hmem
                have hmeml := List.mem_of_mem_take hmem
                have hrg2 := hc.2.2.2 _ hmeml
                refine ⟨hrg2.1, hrg2.2, ?_⟩
                rw [hind0]
                omega
              rcases touchFinish_failure (touchAllocDirectLoop (allocateInode fs).2 { readInode (allocateInode fs).2 (allocateInode fs).1 with type := 0, size := sz % U32MOD } (List.range (min ((sz % U32MOD + BLOCK_SIZE - 1) % U32MOD / BLOCK_SIZE) DIRECT_BLOCKS))).1 parent nm
                  (allocateInode fs).1 (touchAllocDirectLoop (allocateInode fs).2 { readInode (allocateInode fs).2 (allocateInode fs).1 with type := 0, size := sz % U32MOD } (List.range (min ((sz % U32MOD + BLOCK_SIZE - 1) % U32MOD / BLOCK_SIZE) DIRECT_BLOCKS))).2.1 ((sz % U32MOD + BLOCK_SIZE - 1) % U32MOD / BLOCK_SIZE) (min ((sz % U32MOD + BLOCK_SIZE - 1) % U32MOD / BLOCK_SIZE) DIRECT_BLOCKS) hni haddr
                  (Or.inl hind0)
                with hcreated | ⟨hA1, hA2, hA3⟩
              · exfalso
                rw [ecmd] at hres
                exact hres hcreated
              · rw [ecmd]
                have hiteB : (if (touchAllocDirectLoop (allocateInode fs).2 { readInode (allocateInode fs).2 (allocateInode fs).1 with type := 0, size := sz % U32MOD } (List.range (min ((sz % U32MOD + BLOCK_SIZE - 1) % U32MOD / BLOCK_SIZE) DIRECT_BLOCKS))).2.1.indirectBlock ≠ 0 then
                    ((sz % U32MOD + BLOCK_SIZE - 1) % U32MOD / BLOCK_SIZE) - DIRECT_BLOCKS + 1 else 0) = 0 := by
                  rw [if_neg (by simp [hind0])]
                rw [hiteB] at hA3
                have hl1 : fs.sb.freeBlocks = l.length := hc.2.1
                rw [hite1] at hBNle
                have hdbBN : (min ((sz % U32MOD + BLOCK_SIZE - 1) % U32MOD / BLOCK_SIZE) DIRECT_BLOCKS) = (sz % U32MOD + BLOCK_SIZE - 1) % U32MOD / BLOCK_SIZE := Nat.min_eq_left (by omega)
                refine ⟨?_, ?_⟩
                · rw [hA2, hfi2]
                  omega
                · rcases hA3 with hq | hq
                  · left
                    rw [hq, hfb2]
                    omega
                  · right
                    refine ⟨hA1, ?_⟩
                    rw [hfb2] at hq
                    omega

/-- Witness for `touch_failure_restores_free_counts`: on the full-root
image with one free block and one free inode, touch fails at add-entry
and the conclusion holds with the free-block count exactly one lower. -/
theorem touch_failure_restores_free_counts_witness :
    chainOk fullRootFS [1000] ∧
    fullRootFS.sb.firstFreeInode < MAX_INODES ∧
    (cmdTouch fullRootFS [120] 0).2 ≠ TouchResult.created ∧
    ((cmdTouch fullRootFS [120] 0).1.sb.freeInodes =
        fullRootFS.sb.freeInodes ∧
      ((cmdTouch fullRootFS [120] 0).1.sb.freeBlocks =
          fullRootFS.sb.freeBlocks ∨
        ((cmdTouch fullRootFS [120] 0).2 = TouchResult.addEntryFailed ∧
          (cmdTouch fullRootFS [120] 0).1.sb.freeBlocks + 1 =
            fullRootFS.sb.freeBlocks))) :=
  ⟨⟨by decide, by decide, by decide, by decide⟩, by decide, by decide,
    touch_failure_restores_free_counts fullRootFS [120] 0 [1000]
      ⟨by decide, by decide, by decide, by decide⟩ (by decide) (by decide)⟩

/-- A committed direct-phase scan either committed into an existing block
(superblock untouched) or allocated the block it committed into (strictly
fewer free blocks). -/
theorem addEntryDirectLoop_committed_sb (dnum : Nat) (name : List Nat)
    (ino : Nat) :
    ∀ (is : List Nat) (fs : FS) (dirInode : Inode) (fsC : FS),
      addEntryDirectLoop fs dnum dirInode name ino is = .committed fsC →
      fsC.sb = fs.sb ∨ fsC.sb.freeBlocks < fs.sb.freeBlocks := by
  intro is
  induction is with
  | nil =>
    intro fs dirInode fsC h
    simp [addEntryDirectLoop] at h
  | cons i rest ih =>
    intro fs dirInode fsC h
    rw [addEntryDirectLoop] at h
    by_cases ha : dirInode.blockAddresses i = 0
    · rw [if_pos ha] at h
      by_cases hz : (allocateBlock fs).1 = 0
      · simp only [if_pos hz] at h
        cases h
      · simp only [if_neg hz] at h
        split at h
        · cases h
          right
          rw [(commitEntry_parts _ _ _ _ _ _ _).1,
            (writeInode_parts _ _ _).1]
          obtain ⟨_, hfb0, _, _, hs⟩ := allocateBlock_fst_ne_zero fs hz
          rw [hs]
          show fs.sb.freeBlocks - 1 < fs.sb.freeBlocks
          omega
        · next heq =>
          rw [setAddr_same, (writeInode_parts _ _ _).2.1,
            alloc_block_fresh_zero fs hz, findFreeSlot_zeroBlock] at heq
          cases heq
    · rw [if_neg ha] at h
      split at h
      · cases h
        left
        exact (commitEntry_parts _ _ _ _ _ _ _).1
      · exact ih fs _ fsC h

/-- A committed indirect-phase scan either committed into an existing
child (superblock untouched) or allocated the child it committed into
(strictly fewer free blocks). -/
theorem addEntryIndirectLoop_committed_sb (dnum : Nat) (name : List Nat)
    (ino : Nat) :
    ∀ (is : List Nat) (fs : FS) (dirInode : Inode) (fsC : FS),
      addEntryIndirectLoop fs dnum dirInode name ino is = .committed fsC →
      fsC.sb = fs.sb ∨ fsC.sb.freeBlocks < fs.sb.freeBlocks := by
  intro is
  induction is with
  | nil =>
    intro fs dirInode fsC h
    rw [addEntryIndirectLoop] at h
    cases h
  | cons i rest ih =>
    intro fs dirInode fsC h
    rw [addEntryIndirectLoop] at h
    by_cases hz : readU32 (fs.blocks dirInode.indirectBlock) (4 * i) = 0
    · rw [if_pos hz] at h
      by_cases hb : (allocateBlock fs).1 = 0
      · simp only [if_pos hb] at h
        cases h
      · simp only [if_neg hb] at h
        obtain ⟨he, hfb0, _, hlt, hs⟩ := allocateBlock_fst_ne_zero fs hb
        have hchild :
            readU32
              ((setBlk (allocateBlock fs).2.blocks dirInode.indirectBlock
                (writeU32 ((allocateBlock fs).2.blocks dirInode.indirectBlock)
                  (4 * i) (allocateBlock fs).1)) dirInode.indirectBlock)
              (4 * i) = (allocateBlock fs).1 := by
          rw [setBlk_same, readU32_writeU32, he]
          exact Nat.mod_eq_of_lt (by
            have hT : (TOTAL_BLOCKS : Nat) = 1024 := rfl
            simp only [U32MOD]
            omega)
        split at h
        · cases h
          right
          rw [(commitEntry_parts _ _ _ _ _ _ _).1]
          show (allocateBlock fs).2.sb.freeBlocks < fs.sb.freeBlocks
          rw [hs]
          show fs.sb.freeBlocks - 1 < fs.sb.freeBlocks
          omega
        · next heq =>
          exfalso
          have hsome : ∀ blk, blk = zeroBlock ∨
              (∃ o v, blk = writeU32 zeroBlock o v) →
              (findFreeSlot blk).isSome := by
            rintro blk (rfl | ⟨o, v, rfl⟩)
            · rw [findFreeSlot_zeroBlock]; rfl
            · exact findFreeSlot_writeU32_zeroBlock_isSome o v
          rw [hchild] at heq
          by_cases hc : (allocateBlock fs).1 = dirInode.indirectBlock
          · rw [hc, setBlk_same] at heq
            have hzb : (allocateBlock fs).2.blocks dirInode.indirectBlock =
                zeroBlock := by
              rw [← hc]
              exact alloc_block_fresh_zero fs hb
            rw [hzb] at heq
            have := hsome _ (Or.inr ⟨4 * i, dirInode.indirectBlock, rfl⟩)
            rw [heq] at this
            exact absurd this (by simp)
          · rw [setBlk_other _ _ _ _ hc,
              alloc_block_fresh_zero fs hb, findFreeSlot_zeroBlock] at heq
            cases heq
    · rw [if_neg hz] at h
      dsimp only at h
      split at h
      · cases h
        left
        exact (commitEntry_parts _ _ _ _ _ _ _).1
      · exact ih fs _ fsC h

/-- Any `addDirectoryEntry` call, successful or not, either leaves the
superblock bit-identical or strictly decreases the free-block count. -/
theorem addDirectoryEntry_sb (fs : FS) (d : Nat) (nm : List Nat)
    (i : Nat) :
    (addDirectoryEntry fs d nm i).1.sb = fs.sb ∨
    (addDirectoryEntry fs d nm i).1.sb.freeBlocks < fs.sb.freeBlocks := by
  by_cases hlen : MAX_FILENAME_LENGTH ≤ nm.length
  · left
    simp only [addDirectoryEntry, if_pos hlen]
  · by_cases hty : (readInode fs d).type = 1
    · have hty' : ¬(readInode fs d).type ≠ 1 := not_not_intro hty
      cases hD : addEntryDirectLoop fs d (readInode fs d) nm i
          (List.range DIRECT_BLOCKS) with
      | committed fsC =>
        simp only [addDirectoryEntry, if_neg hlen, if_neg hty', hD]
        exact addEntryDirectLoop_committed_sb _ _ _ _ _ _ _ hD
      | failed fsF =>
        left
        simp only [addDirectoryEntry, if_neg hlen, if_neg hty', hD]
        rw [addEntryDirectLoop_failed_eq _ _ _ _ _ _ _ hD]
      | exhausted fs1 d1 =>
        obtain ⟨e1, e2⟩ := addEntryDirectLoop_exhausted_eq _ _ _ _ _ _ _ _ hD
        rw [e1, e2] at hD
        by_cases hind : (readInode fs d).indirectBlock = 0
        · by_cases hz : (allocateBlock fs).1 = 0
          · left
            simp only [addDirectoryEntry, if_neg hlen, if_neg hty', hD,
              if_pos hind, if_pos hz]
            rw [allocateBlock_fst_zero fs hz]
          · obtain ⟨_, hfb0, _, _, hs⟩ := allocateBlock_fst_ne_zero fs hz
            cases hI : addEntryIndirectLoop
                (writeInode (allocateBlock fs).2 d
                  { readInode fs d with
                    indirectBlock := (allocateBlock fs).1 })
                d { readInode fs d with
                    indirectBlock := (allocateBlock fs).1 }
                nm i (List.range 256) with
            | committed fsC =>
              right
              simp only [addDirectoryEntry, if_neg hlen, if_neg hty', hD,
                if_pos hind, if_neg hz, hI]
              rcases addEntryIndirectLoop_committed_sb _ _ _ _ _ _ _ hI
                with hq | hq
              · rw [hq, (writeInode_parts _ _ _).1, hs]
                show fs.sb.freeBlocks - 1 < fs.sb.freeBlocks
                omega
              · have hq2 : (writeInode (allocateBlock fs).2 d
                    { readInode fs d with
                      indirectBlock := (allocateBlock fs).1 }).sb.freeBlocks =
                    fs.sb.freeBlocks - 1 := by
                  rw [(writeInode_parts _ _ _).1, hs]
                omega
            | failed fsF =>
              right
              simp only [addDirectoryEntry, if_neg hlen, if_neg hty', hD,
                if_pos hind, if_neg hz, hI]
              rw [addEntryIndirectLoop_failed_eq _ _ _ _ _ _ _ hI,
                (writeInode_parts _ _ _).1, hs]
              show fs.sb.freeBlocks - 1 < fs.sb.freeBlocks
              omega
        · cases hI : addEntryIndirectLoop fs d (readInode fs d) nm i
              (List.range 256) with
          | committed fsC =>
            simp only [addDirectoryEntry, if_neg hlen, if_neg hty', hD,
              if_neg hind, hI]
            exact addEntryIndirectLoop_committed_sb _ _ _ _ _ _ _ hI
          | failed fsF =>
            left
            simp only [addDirectoryEntry, if_neg hlen, if_neg hty', hD,
              if_neg hind, hI]
            rw [addEntryIndirectLoop_failed_eq _ _ _ _ _ _ _ hI]
    · left
      simp only [addDirectoryEntry, if_neg hlen,
        if_pos (by exact hty : (readInode fs d).type ≠ 1)]

theorem deallocRecordedLoop_skip :
    ∀ (idxs : List Nat) (fs : FS) (addr : Nat → Nat),
      (∀ i ∈ idxs, addr i = 0) →
      deallocRecordedLoop fs addr idxs = fs := by
  intro idxs
  induction idxs with
  | nil =>
    intro fs addr _
    rfl
  | cons i rest ih =>
    intro fs addr hz
    rw [deallocRecordedLoop,
      if_neg (by simp [hz i (List.mem_cons_self i rest)])]
    exact ih fs addr (fun j hj => hz j (List.mem_cons_of_mem i hj))

/-- Inverting a successful `cmdMkdir` whose net free-block cost is one
block: both allocators succeeded, and since the three entry additions
(`.`, `..`, the parent entry) did not allocate, the superblock is exactly
the double-pop image of the pre state. -/
theorem mkdir_created_sb (fs : FS) (p : List Nat)
    (H : (cmdMkdir fs p).2 = .created)
    (Hfb : (cmdMkdir fs p).1.sb.freeBlocks + 1 = fs.sb.freeBlocks) :
    fs.sb.freeInodes ≠ 0 ∧ fs.sb.freeBlocks ≠ 0 ∧
    (cmdMkdir fs p).1.sb =
      { fs.sb with
        freeBlocks := fs.sb.freeBlocks - 1
        freeInodes := fs.sb.freeInodes - 1
        firstFreeBlock := readU32 (fs.blocks fs.sb.firstFreeBlock) 0
        firstFreeInode := (fs.inodes fs.sb.firstFreeInode).indirectBlock } := by
  rcases hg0 : getParentInodeAndFilename fs p with ⟨o0, nm0⟩
  cases o0 with
  | none =>
    exfalso
    have e : (cmdMkdir fs p).2 = .invalidPath := by
      simp only [cmdMkdir, hg0]
    rw [H] at e
    exact absurd e (by decide)
  | some d0 =>
    cases hf0 : (findDirectoryEntry fs d0 nm0).isSome with
    | true =>
      exfalso
      have e : (cmdMkdir fs p).2 = .alreadyExists := by
        simp only [cmdMkdir, hg0, hf0]
        simp
      rw [H] at e
      exact absurd e (by decide)
    | false =>
      by_cases hfb1 : fs.sb.freeBlocks < 1
      · exfalso
        have e : (cmdMkdir fs p).2 = .notEnoughBlocks := by
          simp only [cmdMkdir, hg0, hf0, Bool.false_eq_true, if_pos hfb1]
          simp
        rw [H] at e
        exact absurd e (by decide)
      · by_cases hiz : fs.sb.freeInodes = 0 ∨ fs.sb.firstFreeInode = 0
        · exfalso
          have eai : allocateInode fs = (MAX_INODES, fs) := by
            simp only [allocateInode, if_pos hiz]
          have e : (cmdMkdir fs p).2 = .noInodes := by
            simp only [cmdMkdir, hg0, hf0, Bool.false_eq_true,
              if_neg hfb1, eai]
            simp
          rw [H] at e
          exact absurd e (by decide)
        · push_neg at hiz
          obtain ⟨hfi0, hffi0⟩ := hiz
          by_cases hni128 : (allocateInode fs).1 = MAX_INODES
          · exfalso
            have e : (cmdMkdir fs p).2 = .noInodes := by
              simp only [cmdMkdir, hg0, hf0, Bool.false_eq_true,
                if_neg hfb1, if_pos hni128]
              simp
            rw [H] at e
            exact absurd e (by decide)
          · obtain ⟨hani, _, _, hastate⟩ :=
              allocateInode_fst_ne_sentinel fs hni128
            have hbs := allocateInode_blockSide fs
            by_cases hbz : (allocateBlock (allocateInode fs).2).1 = 0
            · exfalso
              have e : (cmdMkdir fs p).2 = .blockAllocFailed := by
                simp only [cmdMkdir, hg0, hf0, Bool.false_eq_true,
                  if_neg hfb1, if_neg hni128, if_pos hbz]
                simp
              rw [H] at e
              exact absurd e (by decide)
            · obtain ⟨hbe, hbfb0, hbhb0, hblt, hbstate⟩ :=
                allocateBlock_fst_ne_zero (allocateInode fs).2 hbz
              by_cases hra : (addDirectoryEntry (initDirectory (writeInode (allocateBlock (allocateInode fs).2).2 (allocateInode fs).1 { { readInode (allocateInode fs).2 (allocateInode fs).1 with type := 1, size := 0 } with blockAddresses := setAddr ({ readInode (allocateInode fs).2 (allocateInode fs).1 with type := 1, size := 0 } : Inode).blockAddresses 0 (allocateBlock (allocateInode fs).2).1 }) (allocateInode fs).1 d0) d0 nm0
                  (allocateInode fs).1).2 = true
              · have e1 : (cmdMkdir fs p).1 =
                    (addDirectoryEntry (initDirectory (writeInode (allocateBlock (allocateInode fs).2).2 (allocateInode fs).1 { { readInode (allocateInode fs).2 (allocateInode fs).1 with type := 1, size := 0 } with blockAddresses := setAddr ({ readInode (allocateInode fs).2 (allocateInode fs).1 with type := 1, size := 0 } : Inode).blockAddresses 0 (allocateBlock (allocateInode fs).2).1 }) (allocateInode fs).1 d0) d0 nm0
                      (allocateInode fs).1).1 := by
                  simp only [cmdMkdir, hg0, hf0, Bool.false_eq_true,
                    if_neg hfb1, if_neg hni128, if_neg hbz, hra]
                  simp
                have hw3 : (writeInode (allocateBlock (allocateInode fs).2).2 (allocateInode fs).1
                    ({ { readInode (allocateInode fs).2 (allocateInode fs).1 with type := 1, size := 0 } with blockAddresses := setAddr ({ readInode (allocateInode fs).2 (allocateInode fs).1 with type := 1, size := 0 } : Inode).blockAddresses 0 (allocateBlock (allocateInode fs).2).1 })).sb = (allocateBlock (allocateInode fs).2).2.sb :=
                  (writeInode_parts _ _ _).1
                have ha1 := addDirectoryEntry_sb
                  (writeInode (allocateBlock (allocateInode fs).2).2 (allocateInode fs).1 ({ { readInode (allocateInode fs).2 (allocateInode fs).1 with type := 1, size := 0 } with blockAddresses := setAddr ({ readInode (allocateInode fs).2 (allocateInode fs).1 with type := 1, size := 0 } : Inode).blockAddresses 0 (allocateBlock (allocateInode fs).2).1 }))
                  (allocateInode fs).1 [46] (allocateInode fs).1
                have ha2 := addDirectoryEntry_sb
                  ((addDirectoryEntry
                    (writeInode (allocateBlock (allocateInode fs).2).2 (allocateInode fs).1 ({ { readInode (allocateInode fs).2 (allocateInode fs).1 with type := 1, size := 0 } with blockAddresses := setAddr ({ readInode (allocateInode fs).2 (allocateInode fs).1 with type := 1, size := 0 } : Inode).blockAddresses 0 (allocateBlock (allocateInode fs).2).1 }))
                    (allocateInode fs).1 [46] (allocateInode fs).1).1)
                  (allocateInode fs).1 [46, 46] d0
                have hra_sb := addDirectoryEntry_sb (initDirectory (writeInode (allocateBlock (allocateInode fs).2).2 (allocateInode fs).1 { { readInode (allocateInode fs).2 (allocateInode fs).1 with type := 1, size := 0 } with blockAddresses := setAddr ({ readInode (allocateInode fs).2 (allocateInode fs).1 with type := 1, size := 0 } : Inode).blockAddresses 0 (allocateBlock (allocateInode fs).2).1 }) (allocateInode fs).1 d0) d0 nm0
                  (allocateInode fs).1
                have hfs4 : (initDirectory (writeInode (allocateBlock (allocateInode fs).2).2 (allocateInode fs).1 { { readInode (allocateInode fs).2 (allocateInode fs).1 with type := 1, size := 0 } with blockAddresses := setAddr ({ readInode (allocateInode fs).2 (allocateInode fs).1 with type := 1, size := 0 } : Inode).blockAddresses 0 (allocateBlock (allocateInode fs).2).1 }) (allocateInode fs).1 d0) =
                    ((addDirectoryEntry
                      ((addDirectoryEntry
                        (writeInode (allocateBlock (allocateInode fs).2).2 (allocateInode fs).1 ({ { readInode (allocateInode fs).2 (allocateInode fs).1 with type := 1, size := 0 } with blockAddresses := setAddr ({ readInode (allocateInode fs).2 (allocateInode fs).1 with type := 1, size := 0 } : Inode).blockAddresses 0 (allocateBlock (allocateInode fs).2).1 }))
                        (allocateInode fs).1 [46]
                        (allocateInode fs).1).1)
                      (allocateInode fs).1 [46, 46] d0).1) := rfl
                rw [hfs4] at hra_sb
                have hrbfb : (allocateBlock (allocateInode fs).2).2.sb.freeBlocks =
                    fs.sb.freeBlocks - 1 := by
                  rw [hbstate]
                  show (allocateInode fs).2.sb.freeBlocks - 1 =
                    fs.sb.freeBlocks - 1
                  rw [hbs.2.1]
                have hmfb : (cmdMkdir fs p).1.sb.freeBlocks =
                    (addDirectoryEntry (addDirectoryEntry (addDirectoryEntry (writeInode (allocateBlock (allocateInode fs).2).2 (allocateInode fs).1 ({ { readInode (allocateInode fs).2 (allocateInode fs).1 with type := 1, size := 0 } with blockAddresses := setAddr ({ readInode (allocateInode fs).2 (allocateInode fs).1 with type := 1, size := 0 } : Inode).blockAddresses 0 (allocateBlock (allocateInode fs).2).1 })) (allocateInode fs).1 [46] (allocateInode fs).1).1 (allocateInode fs).1 [46, 46] d0).1 d0 nm0
                      (allocateInode fs).1).1.sb.freeBlocks := by
                  rw [e1, hfs4]
                rw [hmfb] at Hfb
                rcases ha1 with h1 | h1
                · rcases ha2 with h2 | h2
                  · rcases hra_sb with h5 | h5
                    · refine ⟨hfi0, by omega, ?_⟩
                      rw [e1, hfs4, h5, h2, h1, hw3, hbstate, hastate]
                    · exfalso
                      have hn1 : (addDirectoryEntry (writeInode (allocateBlock (allocateInode fs).2).2 (allocateInode fs).1 ({ { readInode (allocateInode fs).2 (allocateInode fs).1 with type := 1, size := 0 } with blockAddresses := setAddr ({ readInode (allocateInode fs).2 (allocateInode fs).1 with type := 1, size := 0 } : Inode).blockAddresses 0 (allocateBlock (allocateInode fs).2).1 })) (allocateInode fs).1 [46] (allocateInode fs).1).1.sb.freeBlocks =
                          fs.sb.freeBlocks - 1 := by
                        rw [h1, hw3, hrbfb]
                      have hn2 : (addDirectoryEntry (addDirectoryEntry (writeInode (allocateBlock (allocateInode fs).2).2 (allocateInode fs).1 ({ { readInode (allocateInode fs).2 (allocateInode fs).1 with type := 1, size := 0 } with blockAddresses := setAddr ({ readInode (allocateInode fs).2 (allocateInode fs).1 with type := 1, size := 0 } : Inode).blockAddresses 0 (allocateBlock (allocateInode fs).2).1 })) (allocateInode fs).1 [46] (allocateInode fs).1).1 (allocateInode fs).1 [46, 46] d0).1.sb.freeBlocks =
                          (addDirectoryEntry (writeInode (allocateBlock (allocateInode fs).2).2 (allocateInode fs).1 ({ { readInode (allocateInode fs).2 (allocateInode fs).1 with type := 1, size := 0 } with blockAddresses := setAddr ({ readInode (allocateInode fs).2 (allocateInode fs).1 with type := 1, size := 0 } : Inode).blockAddresses 0 (allocateBlock (allocateInode fs).2).1 })) (allocateInode fs).1 [46] (allocateInode fs).1).1.sb.freeBlocks := by
                        rw [h2]
                      omega
                  · exfalso
                    have hn1 : (addDirectoryEntry (writeInode (allocateBlock (allocateInode fs).2).2 (allocateInode fs).1 ({ { readInode (allocateInode fs).2 (allocateInode fs).1 with type := 1, size := 0 } with blockAddresses := setAddr ({ readInode (allocateInode fs).2 (allocateInode fs).1 with type := 1, size := 0 } : Inode).blockAddresses 0 (allocateBlock (allocateInode fs).2).1 })) (allocateInode fs).1 [46] (allocateInode fs).1).1.sb.freeBlocks =
                        fs.sb.freeBlocks - 1 := by
                      rw [h1, hw3, hrbfb]
                    rcases hra_sb with h5 | h5
                    · have hn3 : (addDirectoryEntry (addDirectoryEntry (addDirectoryEntry (writeInode (allocateBlock (allocateInode fs).2).2 (allocateInode fs).1 ({ { readInode (allocateInode fs).2 (allocateInode fs).1 with type := 1, size := 0 } with blockAddresses := setAddr ({ readInode (allocateInode fs).2 (allocateInode fs).1 with type := 1, size := 0 } : Inode).blockAddresses 0 (allocateBlock (allocateInode fs).2).1 })) (allocateInode fs).1 [46] (allocateInode fs).1).1 (allocateInode fs).1 [46, 46] d0).1 d0 nm0
                          (allocateInode fs).1).1.sb.freeBlocks =
                          (addDirectoryEntry (addDirectoryEntry (writeInode (allocateBlock (allocateInode fs).2).2 (allocateInode fs).1 ({ { readInode (allocateInode fs).2 (allocateInode fs).1 with type := 1, size := 0 } with blockAddresses := setAddr ({ readInode (allocateInode fs).2 (allocateInode fs).1 with type := 1, size := 0 } : Inode).blockAddresses 0 (allocateBlock (allocateInode fs).2).1 })) (allocateInode fs).1 [46] (allocateInode fs).1).1 (allocateInode fs).1 [46, 46] d0).1.sb.freeBlocks := by
                        rw [h5]
                      omega
                    · omega
                · exfalso
                  rw [hw3, hrbfb] at h1
                  rcases ha2 with h2 | h2
                  · have hn2 : (addDirectoryEntry (addDirectoryEntry (writeInode (allocateBlock (allocateInode fs).2).2 (allocateInode fs).1 ({ { readInode (allocateInode fs).2 (allocateInode fs).1 with type := 1, size := 0 } with blockAddresses := setAddr ({ readInode (allocateInode fs).2 (allocateInode fs).1 with type := 1, size := 0 } : Inode).blockAddresses 0 (allocateBlock (allocateInode fs).2).1 })) (allocateInode fs).1 [46] (allocateInode fs).1).1 (allocateInode fs).1 [46, 46] d0).1.sb.freeBlocks =
                        (addDirectoryEntry (writeInode (allocateBlock (allocateInode fs).2).2 (allocateInode fs).1 ({ { readInode (allocateInode fs).2 (allocateInode fs).1 with type := 1, size := 0 } with blockAddresses := setAddr ({ readInode (allocateInode fs).2 (allocateInode fs).1 with type := 1, size := 0 } : Inode).blockAddresses 0 (allocateBlock (allocateInode fs).2).1 })) (allocateInode fs).1 [46] (allocateInode fs).1).1.sb.freeBlocks := by
                      rw [h2]
                    rcases hra_sb with h5 | h5
                    · have hn3 : (addDirectoryEntry (addDirectoryEntry (addDirectoryEntry (writeInode (allocateBlock (allocateInode fs).2).2 (allocateInode fs).1 ({ { readInode (allocateInode fs).2 (allocateInode fs).1 with type := 1, size := 0 } with blockAddresses := setAddr ({ readInode (allocateInode fs).2 (allocateInode fs).1 with type := 1, size := 0 } : Inode).blockAddresses 0 (allocateBlock (allocateInode fs).2).1 })) (allocateInode fs).1 [46] (allocateInode fs).1).1 (allocateInode fs).1 [46, 46] d0).1 d0 nm0
                          (allocateInode fs).1).1.sb.freeBlocks =
                          (addDirectoryEntry (addDirectoryEntry (writeInode (allocateBlock (allocateInode fs).2).2 (allocateInode fs).1 ({ { readInode (allocateInode fs).2 (allocateInode fs).1 with type := 1, size := 0 } with blockAddresses := setAddr ({ readInode (allocateInode fs).2 (allocateInode fs).1 with type := 1, size := 0 } : Inode).blockAddresses 0 (allocateBlock (allocateInode fs).2).1 })) (allocateInode fs).1 [46] (allocateInode fs).1).1 (allocateInode fs).1 [46, 46] d0).1.sb.freeBlocks := by
                        rw [h5]
                      omega
                    · omega
                  · rcases hra_sb with h5 | h5
                    · have hn3 : (addDirectoryEntry (addDirectoryEntry (addDirectoryEntry (writeInode (allocateBlock (allocateInode fs).2).2 (allocateInode fs).1 ({ { readInode (allocateInode fs).2 (allocateInode fs).1 with type := 1, size := 0 } with blockAddresses := setAddr ({ readInode (allocateInode fs).2 (allocateInode fs).1 with type := 1, size := 0 } : Inode).blockAddresses 0 (allocateBlock (allocateInode fs).2).1 })) (allocateInode fs).1 [46] (allocateInode fs).1).1 (allocateInode fs).1 [46, 46] d0).1 d0 nm0
                          (allocateInode fs).1).1.sb.freeBlocks =
                          (addDirectoryEntry (addDirectoryEntry (writeInode (allocateBlock (allocateInode fs).2).2 (allocateInode fs).1 ({ { readInode (allocateInode fs).2 (allocateInode fs).1 with type := 1, size := 0 } with blockAddresses := setAddr ({ readInode (allocateInode fs).2 (allocateInode fs).1 with type := 1, size := 0 } : Inode).blockAddresses 0 (allocateBlock (allocateInode fs).2).1 })) (allocateInode fs).1 [46] (allocateInode fs).1).1 (allocateInode fs).1 [46, 46] d0).1.sb.freeBlocks := by
                        rw [h5]
                      omega
                    · omega
              · exfalso
                have e : (cmdMkdir fs p).2 = .addEntryFailed := by
                  simp only [cmdMkdir, hg0, hf0, Bool.false_eq_true,
                    if_neg hfb1, if_neg hni128, if_neg hbz, hra]
                  simp
                rw [H] at e
                exact absurd e (by decide)

/-- C9: the superblock round-trips bit-exactly over a `create-dir p;
remove-dir p` pair provided the directory-entry commit reused an existing
parent slot (net cost of create-dir is exactly one block, the new
directory's own), the created directory is the one found and removed, and
the free-list heads were in range; the counterexample shows the claim
fails without the reused-slot condition, because a parent block allocated
for the entry stays with the parent. -/
theorem mkdir_rmdir_superblock_roundtrip (fs : FS) (p : List Nat)
    (d ni : Nat) (nm : List Nat)
    (Hmk : (cmdMkdir fs p).2 = .created)
    (Hfb : (cmdMkdir fs p).1.sb.freeBlocks + 1 = fs.sb.freeBlocks)
    (Hres : getParentInodeAndFilename ((cmdMkdir fs p).1) p = (some d, nm))
    (Hfind : findDirectoryEntry ((cmdMkdir fs p).1) d nm = some ni)
    (Hni : ni = fs.sb.firstFreeInode)
    (Hnir : ni < MAX_INODES)
    (Htype : (readInode ((cmdMkdir fs p).1) ni).type = 1)
    (Hcount : ¬ 2 < (readDirectoryEntries ((cmdMkdir fs p).1) ni).length)
    (Hrm : (removeDirectoryEntry ((cmdMkdir fs p).1) d nm).2 = true)
    (Haddr0 : (readInode ((cmdMkdir fs p).1) ni).blockAddresses 0 = fs.sb.firstFreeBlock)
    (Hbr : FIRST_DATA_BLOCK ≤ fs.sb.firstFreeBlock ∧
      fs.sb.firstFreeBlock < TOTAL_BLOCKS)
    (Haddrz : ∀ i, i < DIRECT_BLOCKS → 1 ≤ i →
      (readInode ((cmdMkdir fs p).1) ni).blockAddresses i = 0)
    (Hindz : (readInode ((cmdMkdir fs p).1) ni).indirectBlock = 0) :
    (cmdRmdir ((cmdMkdir fs p).1) p).2 = .removed ∧
    (cmdRmdir ((cmdMkdir fs p).1) p).1.sb = fs.sb := by
  have h9 : (FIRST_DATA_BLOCK : Nat) = 9 := rfl
  obtain ⟨hfi0, hfb0, hMS⟩ := mkdir_created_sb fs p Hmk Hfb
  have ermd : cmdRmdir ((cmdMkdir fs p).1) p =
      (deallocateInode
        (deallocRecordedLoop (removeDirectoryEntry ((cmdMkdir fs p).1) d nm).1
          (readInode ((cmdMkdir fs p).1) ni).blockAddresses (List.range DIRECT_BLOCKS))
        ni, .removed) := by
    simp only [cmdRmdir, Hres, Hfind]
    rw [if_neg (by simp [Htype])]
    rw [if_neg Hcount]
    rw [if_neg (by simp [Hrm])]
    rw [if_neg (by simp [Hindz])]
  have hne0 : (readInode ((cmdMkdir fs p).1) ni).blockAddresses 0 ≠ 0 := by
    rw [Haddr0]
    have := Hbr.1
    omega
  have hmem19 : ∀ i ∈ [1, 2, 3, 4, 5, 6, 7, 8, 9],
      i < DIRECT_BLOCKS ∧ 1 ≤ i := by decide
  have edl : deallocRecordedLoop (removeDirectoryEntry ((cmdMkdir fs p).1) d nm).1
      (readInode ((cmdMkdir fs p).1) ni).blockAddresses (List.range DIRECT_BLOCKS) =
      deallocateBlock (removeDirectoryEntry ((cmdMkdir fs p).1) d nm).1
        ((readInode ((cmdMkdir fs p).1) ni).blockAddresses 0) := by
    rw [show List.range DIRECT_BLOCKS =
      0 :: [1, 2, 3, 4, 5, 6, 7, 8, 9] by decide]
    rw [deallocRecordedLoop, if_pos hne0]
    exact deallocRecordedLoop_skip _ _ _
      (fun i hi => Haddrz i (hmem19 i hi).1 (hmem19 i hi).2)
  rw [ermd]
  refine ⟨rfl, ?_⟩
  show (deallocateInode
    (deallocRecordedLoop (removeDirectoryEntry ((cmdMkdir fs p).1) d nm).1
      (readInode ((cmdMkdir fs p).1) ni).blockAddresses (List.range DIRECT_BLOCKS))
    ni).sb = fs.sb
  rw [edl]
  rw [deallocateInode_in_range _ ni Hnir]
  rw [deallocateBlock_in_range _ _ (by rw [Haddr0]; exact Hbr.1)
    (by rw [Haddr0]; exact Hbr.2)]
  show { (removeDirectoryEntry ((cmdMkdir fs p).1) d nm).1.sb with
    firstFreeBlock := (readInode ((cmdMkdir fs p).1) ni).blockAddresses 0
    freeBlocks := (removeDirectoryEntry ((cmdMkdir fs p).1) d nm).1.sb.freeBlocks + 1
    firstFreeInode := ni
    freeInodes :=
      (removeDirectoryEntry ((cmdMkdir fs p).1) d nm).1.sb.freeInodes + 1 } = fs.sb
  rw [removeDirectoryEntry_sb, hMS, Haddr0, Hni]
  show { fs.sb with
    firstFreeBlock := fs.sb.firstFreeBlock
    freeBlocks := fs.sb.freeBlocks - 1 + 1
    firstFreeInode := fs.sb.firstFreeInode
    freeInodes := fs.sb.freeInodes - 1 + 1 } = fs.sb
  have e1 : fs.sb.freeBlocks - 1 + 1 = fs.sb.freeBlocks := by omega
  have e2 : fs.sb.freeInodes - 1 + 1 = fs.sb.freeInodes := by omega
  rw [e1, e2]

/-- Witness for `mkdir_rmdir_superblock_roundtrip`: on an image whose
root block has a reusable free slot, create-dir costs exactly one block
and one inode, and the following remove-dir restores the superblock
bit-exactly. -/
theorem mkdir_rmdir_superblock_roundtrip_witness :
    (cmdMkdir tombRootFS [100]).2 = MkdirResult.created ∧
    (cmdMkdir tombRootFS [100]).1.sb.freeBlocks + 1 =
      tombRootFS.sb.freeBlocks ∧
    ((cmdRmdir (cmdMkdir tombRootFS [100]).1 [100]).2 =
      RmdirResult.removed ∧
     (cmdRmdir (cmdMkdir tombRootFS [100]).1 [100]).1.sb =
      tombRootFS.sb) :=
  ⟨by decide, by decide,
    mkdir_rmdir_superblock_roundtrip tombRootFS [100] 0 2 [100]
      (by decide) (by decide) (by decide) (by decide) (by decide)
      (by decide) (by decide) (by decide) (by decide) (by decide)
      ⟨by decide, by decide⟩ (by decide) (by decide)⟩

end OSModule
